import Mathlib

/-!
Verification of odo, packages `occlient` and `util`: environment merge, volume carry-forward,
DC patching, the watch-based waits, deletion propagation, the tar stream of a file sync, and
the S2I metadata helpers.

A shallow embedding of the functions of `pkg/occlient/occlient.go` and `pkg/util/util.go`
that the statements below are about.

Conventions of the embedding.

* Go slices are Lean lists (a nil slice and an empty slice are the same list).
* Go maps keyed by strings are finite lookup functions (`GoMap`); only lookup, assignment
  and `delete` are used by the code embedded here, never iteration.
* Pointer-typed values that the code dereferences unconditionally (`ucp.ExistingDC`,
  `Spec.Template`, the watcher returned by a `Watch` that succeeded) are represented by the
  value pointed to. A `Watch` that fails returns a nil watcher next to its error.
* A call that can end in a run-time panic has a `GoOutcome`; `reflect.DeepEqual`, which
  looks at all of a Go value, is an answer of the environment (`PatchDeps`).
* `error` values are `Option String` (`none` is `nil`); `errors.Wrapf(err, msg)` is `wrapErr`.
* Calls issued to the cluster are recorded, in order, in a list of `Call`.
* A receive loop is run over the list of receives it takes; a `select` that races the result
  channel against a timer takes the timer case when that list is used up.
* The host is a Unix host: the separator of `path/filepath` is `/` and `filepath.ToSlash`
  changes nothing. Paths are handled as lists of characters.
* The file system, `filepath.Glob`, `filepath.Rel` and the glob library are the fields of
  `Sys`; the recursion of `recursiveTar` is bounded by a `fuel` argument.
-/

namespace Odo

/-! ## Go maps with string keys -/

/-- A Go `map[string]β`, seen through lookup. -/
def GoMap (β : Type) : Type := String → Option β

namespace GoMap

/-- Result of `make(map[string]β)`. -/
def empty {β : Type} : GoMap β := fun _ => none

/-- Lookup `v, ok := m[k]`. -/
def get {β : Type} (m : GoMap β) (k : String) : Option β := m k

/-- Assignment `m[k] = v`. -/
def set {β : Type} (m : GoMap β) (k : String) (v : β) : GoMap β :=
  fun k' => if k' = k then some v else m k'

/-- Builtin `delete(m, k)`. -/
def delete {β : Type} (m : GoMap β) (k : String) : GoMap β :=
  fun k' => if k' = k then none else m k'

end GoMap

/-! ## Kubernetes / OpenShift API objects (the fields the code reads or writes) -/

/-- Type `corev1.EnvVar`; `ValueFrom` stands for the optional `*EnvVarSource`. -/
structure EnvVar where
  Name : String
  Value : String
  ValueFrom : Option String := none
  deriving DecidableEq, Repr

/-- Type `corev1.VolumeMount`. -/
structure VolumeMount where
  Name : String
  MountPath : String := ""
  ReadOnly : Bool := false
  SubPath : String := ""
  deriving DecidableEq, Repr

/-- Type `corev1.Volume`; `VolumeSource` stands for the embedded source description. -/
structure Volume where
  Name : String
  VolumeSource : String := ""
  deriving DecidableEq, Repr

/-- Type `corev1.Container`. -/
structure Container where
  Name : String
  Image : String := ""
  Env : List EnvVar := []
  EnvFrom : List String := []
  VolumeMounts : List VolumeMount := []
  deriving DecidableEq, Repr

/-- Type `corev1.PodSpec`. -/
structure PodSpec where
  Volumes : List Volume := []
  InitContainers : List Container := []
  Containers : List Container := []
  deriving DecidableEq, Repr

/-- Type `metav1.ObjectMeta`. -/
structure ObjectMeta where
  Name : String := ""
  Namespace : String := ""
  UID : String := ""
  ResourceVersion : String := ""
  Generation : Int := 0
  Labels : List (String × String) := []
  Annotations : List (String × String) := []
  deriving DecidableEq, Repr

/-- Type `corev1.PodTemplateSpec`. -/
structure PodTemplateSpec where
  ObjectMeta : ObjectMeta := {}
  Spec : PodSpec := {}
  deriving DecidableEq, Repr

/-- Type `appsv1.DeploymentConfigSpec`; `Template` is the pointee of the Go field. -/
structure DeploymentConfigSpec where
  Replicas : Int := 1
  Selector : List (String × String) := []
  Triggers : List String := []
  Template : PodTemplateSpec := {}
  deriving DecidableEq, Repr

/-- Type `appsv1.DeploymentConfigStatus`. -/
structure DeploymentConfigStatus where
  LatestVersion : Int := 0
  ObservedGeneration : Int := 0
  deriving DecidableEq, Repr

/-- Type `appsv1.DeploymentConfig`. -/
structure DeploymentConfig where
  ObjectMeta : ObjectMeta := {}
  Spec : DeploymentConfigSpec := {}
  Status : DeploymentConfigStatus := {}
  deriving DecidableEq, Repr

/-- Constant `supervisordVolumeName`. -/
def supervisordVolumeName : String := "odo-supervisord-shared-data"

/-! ## `uniqueAppendOrOverwriteEnvVars` -/

/-- First and second loop of `uniqueAppendOrOverwriteEnvVars`: `m[envVar.Name] = envVar`
for each element of the slice. -/
def envsIntoMap (m : GoMap EnvVar) (envs : List EnvVar) : GoMap EnvVar :=
  envs.foldl (fun m envVar => m.set envVar.Name envVar) m

/-- Third loop: for each existing variable (in order) whose name is still in the map,
append the map's value and delete the name from the map. -/
def emitExisting (existingEnvs : List EnvVar) (st : List EnvVar × GoMap EnvVar) :
    List EnvVar × GoMap EnvVar :=
  existingEnvs.foldl
    (fun st envVar =>
      match st.2.get envVar.Name with
      | some val => (st.1 ++ [val], st.2.delete envVar.Name)
      | none => st)
    st

/-- Fourth loop: for each variable to append (in order) whose name is in the map, append
the map's value; the map is left as it is. -/
def emitNew (m : GoMap EnvVar) (envVars : List EnvVar) (retVal : List EnvVar) : List EnvVar :=
  envVars.foldl
    (fun retVal newEnvVar =>
      match m.get newEnvVar.Name with
      | some val => retVal ++ [val]
      | none => retVal)
    retVal

/-- Function `uniqueAppendOrOverwriteEnvVars(existingEnvs, envVars...)`. -/
def uniqueAppendOrOverwriteEnvVars (existingEnvs : List EnvVar) (envVars : List EnvVar) :
    List EnvVar :=
  let mapExistingEnvs := envsIntoMap (envsIntoMap GoMap.empty existingEnvs) envVars
  let st := emitExisting existingEnvs ([], mapExistingEnvs)
  emitNew st.2 envVars st.1

/-! ## `copyVolumesAndVolumeMounts` -/

/-- Map of volume-mount names built from `container.VolumeMounts`
(`dcVolumeMountsMap[volumeMount.Name] = true`). -/
def volumeMountNamesMap (mounts : List VolumeMount) : GoMap Bool :=
  mounts.foldl (fun m volumeMount => m.set volumeMount.Name true) GoMap.empty

/-- Loop over `matchingContainer.VolumeMounts`: the supervisord mount is skipped, a mount
whose name is missing from the map (built once, before the loop) is appended. -/
def appendMissingVolumeMounts (dcVolumeMountsMap : GoMap Bool) (liveMounts : List VolumeMount)
    (mounts : List VolumeMount) : List VolumeMount :=
  liveMounts.foldl
    (fun mounts volume =>
      if volume.Name = supervisordVolumeName then mounts
      else
        match dcVolumeMountsMap.get volume.Name with
        | none => mounts ++ [volume]
        | some _ => mounts)
    mounts

/-- Loop over `dc.Spec.Template.Spec.Containers`: the first container whose name equals
`matchingContainer.Name` receives the missing mounts, then the loop breaks. -/
def copyVolumeMounts (matchingContainer : Container) : List Container → List Container
  | [] => []
  | container :: rest =>
    if container.Name = matchingContainer.Name then
      { container with
          VolumeMounts :=
            appendMissingVolumeMounts (volumeMountNamesMap container.VolumeMounts)
              matchingContainer.VolumeMounts container.VolumeMounts } :: rest
    else container :: copyVolumeMounts matchingContainer rest

/-- Map of volume names built from `dc.Spec.Template.Spec.Volumes`
(`dcVolumeMap[volume.Name] = true`). -/
def volumeNamesMap (volumes : List Volume) : GoMap Bool :=
  volumes.foldl (fun m volume => m.set volume.Name true) GoMap.empty

/-- Loop over `currentDC.Spec.Template.Spec.Volumes`: the supervisord volume is skipped, a
volume whose name is missing from the map (built once, before the loop) is appended. -/
def appendMissingVolumes (dcVolumeMap : GoMap Bool) (liveVolumes : List Volume)
    (volumes : List Volume) : List Volume :=
  liveVolumes.foldl
    (fun volumes volume =>
      if volume.Name = supervisordVolumeName then volumes
      else
        match dcVolumeMap.get volume.Name with
        | none => volumes ++ [volume]
        | some _ => volumes)
    volumes

/-- Function `copyVolumesAndVolumeMounts(dc, currentDC, matchingContainer)`. The Go function
receives `dc` by value but writes through its `Spec.Template` pointer, so the caller sees the
new containers and volumes; the embedding returns the `dc` the caller sees afterwards. -/
def copyVolumesAndVolumeMounts (dc : DeploymentConfig) (currentDC : DeploymentConfig)
    (matchingContainer : Container) : DeploymentConfig :=
  let containers := copyVolumeMounts matchingContainer dc.Spec.Template.Spec.Containers
  let dcVolumeMap := volumeNamesMap dc.Spec.Template.Spec.Volumes
  let volumes :=
    appendMissingVolumes dcVolumeMap currentDC.Spec.Template.Spec.Volumes
      dc.Spec.Template.Spec.Volumes
  { dc with
      Spec := { dc.Spec with
        Template := { dc.Spec.Template with
          Spec := { dc.Spec.Template.Spec with Containers := containers, Volumes := volumes } } } }

/-! ## The cluster client, watches and the call record -/

/-- How a call ends: it returns a value, or it panics. -/
inductive GoOutcome (α : Type) where
  | returned (value : α)
  | panicked (message : String)
  deriving DecidableEq, Repr

/-- Method `errors.Wrapf(err, message)` on a non-nil `err`: the message, a colon, the cause. -/
def wrapErr (err : String) (message : String) : String := message ++ ": " ++ err

/-- Type `corev1.PodStatus`; `Phase` is a `corev1.PodPhase`. -/
structure PodStatus where
  Phase : String := ""
  deriving DecidableEq, Repr

/-- Type `corev1.Pod`. -/
structure Pod where
  ObjectMeta : ObjectMeta := {}
  Status : PodStatus := {}
  deriving DecidableEq, Repr

/-- Type `buildv1.BuildStatus`; `Phase` is a `buildv1.BuildPhase`. -/
structure BuildStatus where
  Phase : String := ""
  deriving DecidableEq, Repr

/-- Type `buildv1.Build`. -/
structure Build where
  ObjectMeta : ObjectMeta := {}
  Status : BuildStatus := {}
  deriving DecidableEq, Repr

/-- The `Object` carried by a watch event, by dynamic type. -/
inductive WatchObject where
  | deploymentConfig (e : DeploymentConfig)
  | other (kind : String)
  | pod (e : Pod)
  | build (e : Build)
  deriving DecidableEq, Repr

/-- Type `watch.Event`; `EventType` is the Go field `Type`
(Added, Modified, Deleted, Error). -/
structure WatchEvent where
  EventType : String
  Object : WatchObject
  deriving DecidableEq, Repr

/-- Outcome of one receive `val, ok := <-w.ResultChan()`: the channel was closed
(`ok = false`) or delivered `val`. -/
inductive Recv where
  | closed
  | event (val : WatchEvent)
  deriving DecidableEq, Repr

/-- A `watch.Interface`. `results timeout` lists, in receipt order, the receives that a
`select` racing `ResultChan()` against `time.After(timeout)` takes before it takes the timer
case. -/
structure Watcher where
  results : Nat → List Recv

/-- Type `appsv1.DeploymentRequest`. -/
structure DeploymentRequest where
  Name : String
  Latest : Bool
  Force : Bool
  deriving DecidableEq, Repr

/-- Type `imagev1.NamedTagEventList` (the tag it is for). -/
structure NamedTagEventList where
  Tag : String
  deriving DecidableEq, Repr

/-- Type `imagev1.ImageStreamStatus`. -/
structure ImageStreamStatus where
  Tags : List NamedTagEventList := []
  deriving DecidableEq, Repr

/-- Type `imagev1.ImageStream`. -/
structure ImageStream where
  ObjectMeta : ObjectMeta := {}
  Status : ImageStreamStatus := {}
  deriving DecidableEq, Repr

/-- The part of `Client` used here: the namespace and the answers of the apps client. -/
structure Client where
  Namespace : String
  /-- Answer of `appsClient.DeploymentConfigs(ns).Update(dc)`. -/
  dcUpdate : String → DeploymentConfig → Except String DeploymentConfig
  /-- Answer of `appsClient.DeploymentConfigs(ns).Instantiate(name, request)`. -/
  dcInstantiate : String → String → DeploymentRequest → Except String DeploymentConfig
  /-- Answer of `appsClient.DeploymentConfigs(ns).Watch(ListOptions{FieldSelector})`:
  the watcher and the error returned with it. With an error the watcher returned is nil, and
  the first component is not looked at. -/
  dcWatch : String → String → Watcher × Option String
  /-- Answer of `buildClient.Builds(ns).Watch(ListOptions{FieldSelector})`: the receives
  that successive `<-w.ResultChan()` deliver, in order, and the error returned with the
  watcher. -/
  buildWatch : String → String → List Recv × Option String := fun _ _ => ([], none)
  /-- Answer of `kubeClient.CoreV1().Pods(ns).Watch(ListOptions{LabelSelector})`: the
  watcher and the error returned with it. -/
  podWatch : String → String → Watcher × Option String := fun _ _ => (⟨fun _ => []⟩, none)
  /-- Error of `c.KubeConfig.ClientConfig()`. -/
  clientConfigErr : Option String := none
  /-- Error of `remotecommand.NewSPDYExecutor(config, "POST", req.URL())`. -/
  spdyExecutorErr : Option String := none
  /-- Error of `exec.Stream(...)` for the exec request on pod `name` with command `cmd`. -/
  execStream : String → String → List String → Option String := fun _ _ _ => none
  /-- Answer of `imageClient.ImageStreams(ns).Get(name, metav1.GetOptions{})`. -/
  imageStreamGet : String → String → Except String ImageStream :=
    fun _ name => .error ("imagestreams.image.openshift.io \"" ++ name ++ "\" not found")

/-- A call issued to the cluster. -/
inductive Call where
  | dcUpdate (ns : String) (dc : DeploymentConfig)
  | dcInstantiate (ns : String) (name : String) (request : DeploymentRequest)
  | dcWatch (ns : String) (fieldSelector : String)
  | watchStop
  | buildWatch (ns : String) (fieldSelector : String)
  | podWatch (ns : String) (labelSelector : String)
  | execStream (ns : String) (podName : String) (cmd : List String)
      (stdin : Bool) (stdout : Bool) (stderr : Bool) (tty : Bool)
  deriving DecidableEq, Repr

/-- Recognises an update call. -/
def Call.isUpdate : Call → Bool
  | .dcUpdate _ _ => true
  | _ => false

/-- Recognises a rollout instantiation. -/
def Call.isInstantiate : Call → Bool
  | .dcInstantiate _ _ _ => true
  | _ => false

/-- Recognises the opening of a watch. -/
def Call.isWatch : Call → Bool
  | .dcWatch _ _ => true
  | _ => false

/-- Recognises the stopping of a watch (`w.Stop()`). -/
def Call.isStop : Call → Bool
  | .watchStop => true
  | _ => false

/-- Recognises a remote command execution. -/
def Call.isExec : Call → Bool
  | .execStream _ _ _ _ _ _ _ => true
  | _ => false

/-- Constant `OcUpdateTimeout = 5 * time.Minute`, in nanoseconds. -/
def OcUpdateTimeout : Nat := 5 * (60 * 1000000000)

/-- Go `int64` addition (two's complement wrap-around). -/
def int64Add (a b : Int) : Int := (a + b + 2 ^ 63) % 2 ^ 64 - 2 ^ 63

/-! ## `WaitAndGetDC` -/

/-- Type `dcRollOutWait`. -/
abbrev dcRollOutWait : Type := DeploymentConfig → Int → Bool

/-- The `for { select { ... } }` loop of `WaitAndGetDC` over the receives taken before the
timer case. A closed channel only `break`s out of the `select`; a DeploymentConfig that
satisfies `waitCond` is returned; when the receives are used up the timer case is taken. -/
def waitAndGetDCLoop (desiredRevision : Int) (waitCond : dcRollOutWait) :
    List Recv → Option DeploymentConfig × Option String
  | [] => (none, some "Timed out waiting for annotation to update")
  | Recv.closed :: rest => waitAndGetDCLoop desiredRevision waitCond rest
  | Recv.event val :: rest =>
    match val.Object with
    | WatchObject.deploymentConfig e =>
      if waitCond e desiredRevision then (some e, none)
      else waitAndGetDCLoop desiredRevision waitCond rest
    | _ => waitAndGetDCLoop desiredRevision waitCond rest

/-- A receive that delivers a DeploymentConfig satisfying `waitCond` at `desiredRevision`. -/
def recvMatches (desiredRevision : Int) (waitCond : dcRollOutWait) : Recv → Bool
  | Recv.event ⟨_, WatchObject.deploymentConfig e⟩ => waitCond e desiredRevision
  | _ => false

/-- The message of the run-time panic raised by a call through a nil pointer or a nil
interface. -/
def nilDereference : String := "invalid memory address or nil pointer dereference"

/-- Method `(c *Client) WaitAndGetDC(name, desiredRevision, timeout, waitCond)`: the calls
issued, and the pair returned or the panic. The statement `defer w.Stop()` stands before the
test of `err`: after a failed `Watch` the watcher `w` is nil and the `defer` statement panics,
so the `return nil, errors.Wrapf(err, "unable to watch dc")` below it is never reached; after
a successful `Watch` the deferred `w.Stop()` runs on every return. -/
def WaitAndGetDC (c : Client) (name : String) (desiredRevision : Int) (timeout : Nat)
    (waitCond : dcRollOutWait) :
    List Call × GoOutcome (Option DeploymentConfig × Option String) :=
  let fieldSelector := "metadata.name=" ++ name
  let opened := c.dcWatch c.Namespace fieldSelector
  match opened.2 with
  | some _ => ([Call.dcWatch c.Namespace fieldSelector], GoOutcome.panicked nilDereference)
  | none =>
    ([Call.dcWatch c.Namespace fieldSelector, Call.watchStop],
      GoOutcome.returned (waitAndGetDCLoop desiredRevision waitCond (opened.1.results timeout)))

/-! ## `StartDeployment` -/

/-- Method `(c *Client) StartDeployment(deploymentName)`. -/
def StartDeployment (c : Client) (deploymentName : String) :
    List Call × (String × Option String) :=
  if deploymentName = "" then ([], ("", some "deployment name is empty"))
  else
    let deploymentRequest : DeploymentRequest :=
      { Name := deploymentName, Latest := true, Force := true }
    let calls := [Call.dcInstantiate c.Namespace deploymentName deploymentRequest]
    match c.dcInstantiate c.Namespace deploymentName deploymentRequest with
    | .error err =>
      (calls, ("", some (wrapErr err ("unable to instantiate Deployment for " ++ deploymentName))))
    | .ok result => (calls, (result.ObjectMeta.Name, none))

/-! ## `PatchCurrentDC` -/

/-- Type `dcStructUpdater`: updates a DC in place and may fail. -/
abbrev dcStructUpdater : Type := DeploymentConfig → Except String DeploymentConfig

/-- Type `UpdateComponentParams` (the fields `PatchCurrentDC` reads). The storage maps are
only handed on to `addOrRemoveVolumeAndVolumeMount`. -/
structure UpdateComponentParams where
  CommonObjectMeta : ObjectMeta
  ExistingDC : DeploymentConfig
  DcRollOutWaitCond : dcRollOutWait
  StorageToBeMounted : List (String × String) := []
  StorageToBeUnMounted : List (String × String) := []

/-- Functions called by `PatchCurrentDC` whose bodies are not in `occlient.go`: the package
function `addOrRemoveVolumeAndVolumeMount(client, dc, toMount, toUnMount)`, which edits the
DC it is handed and may fail, the library function `json.Marshal` (of the two calls in
the non-git branch only the error of the second, on the updated template, is tested), and the
library function `reflect.DeepEqual` on two templates. `reflect.DeepEqual` compares the whole
Go values: every field of the templates, a nil slice or map being different from an empty
one. The objects of this embedding keep the fields the code reads or writes and do not tell
nil from empty, so the verdict of `reflect.DeepEqual` is not computed from them: it is the
answer `reflectDeepEqual` to the two templates compared. -/
structure PatchDeps where
  addOrRemoveVolumeAndVolumeMount :
    Client → DeploymentConfig → List (String × String) → List (String × String) →
      Except String DeploymentConfig
  jsonMarshal : PodTemplateSpec → Except String String
  reflectDeepEqual : PodTemplateSpec → PodTemplateSpec → Bool

/-- What a run of `PatchCurrentDC` leaves behind: the calls issued to the cluster in order,
the returned error, the value of `*ucp.ExistingDC` at the end, and, when the run ended in a
panic instead of a return, the message of the panic (`err` is then `none`). -/
structure PatchResult where
  calls : List Call
  err : Option String
  existingDC : DeploymentConfig
  panicked : Option String

/-- The step `if prePatchDCHandler != nil { err := prePatchDCHandler(&dc) ... }`. -/
def runPrePatch (prePatchDCHandler : Option dcStructUpdater) (dc : DeploymentConfig) :
    Except String DeploymentConfig :=
  match prePatchDCHandler with
  | none => .ok dc
  | some handler => handler dc

/-- The assignments to `modifiedDC` (a copy of `*currentDC`): `Spec`, then
`ObjectMeta.Annotations`, then `ObjectMeta.Labels`, each taken from `dc`. -/
def patchModifiedDC (currentDC : DeploymentConfig) (dc : DeploymentConfig) : DeploymentConfig :=
  let modifiedDC := currentDC
  let modifiedDC := { modifiedDC with Spec := dc.Spec }
  let modifiedDC :=
    { modifiedDC with
        ObjectMeta := { modifiedDC.ObjectMeta with Annotations := dc.ObjectMeta.Annotations } }
  { modifiedDC with ObjectMeta := { modifiedDC.ObjectMeta with Labels := dc.ObjectMeta.Labels } }

/-- The tail of `PatchCurrentDC`: `desiredRevision := currentDC.Status.LatestVersion + 1`,
then `c.WaitAndGetDC(name, desiredRevision, OcUpdateTimeout, waitCond)`; a panic of the wait
is not recovered. -/
def patchWait (c : Client) (ucp : UpdateComponentParams) (calls : List Call) : PatchResult :=
  let name := ucp.CommonObjectMeta.Name
  let currentDC := ucp.ExistingDC
  let desiredRevision := int64Add currentDC.Status.LatestVersion 1
  let waited := WaitAndGetDC c name desiredRevision OcUpdateTimeout ucp.DcRollOutWaitCond
  match waited.2 with
  | GoOutcome.panicked message => ⟨calls ++ waited.1, none, currentDC, some message⟩
  | GoOutcome.returned (_, some err) =>
    ⟨calls ++ waited.1,
      some (wrapErr err ("unable to wait for DeploymentConfig " ++ name ++ " to update")),
      currentDC, none⟩
  | GoOutcome.returned (_, none) => ⟨calls ++ waited.1, none, currentDC, none⟩

/-- Method `(c *Client) PatchCurrentDC(dc, prePatchDCHandler, existingCmpContainer, ucp,
isGit)`. -/
def PatchCurrentDC (deps : PatchDeps) (c : Client) (dc : DeploymentConfig)
    (prePatchDCHandler : Option dcStructUpdater) (existingCmpContainer : Container)
    (ucp : UpdateComponentParams) (isGit : Bool) : PatchResult :=
  let name := ucp.CommonObjectMeta.Name
  let currentDC := ucp.ExistingDC
  let dc := copyVolumesAndVolumeMounts dc currentDC existingCmpContainer
  match runPrePatch prePatchDCHandler dc with
  | .error err =>
    ⟨[], some (wrapErr err
        ("Unable to correctly update dc " ++ name ++ " using the specified prePatch handler")),
      currentDC, none⟩
  | .ok dc =>
    match deps.addOrRemoveVolumeAndVolumeMount c dc ucp.StorageToBeMounted
        ucp.StorageToBeUnMounted with
    | .error err => ⟨[], some err, currentDC, none⟩
    | .ok dc =>
      let modifiedDC := patchModifiedDC currentDC dc
      let updateCall := Call.dcUpdate c.Namespace modifiedDC
      match c.dcUpdate c.Namespace modifiedDC with
      | .error err =>
        ⟨[updateCall], some (wrapErr err ("unable to update DeploymentConfig " ++ name)),
          currentDC, none⟩
      | .ok updatedDc =>
        if isGit then
          let started := StartDeployment c updatedDc.ObjectMeta.Name
          match started.2.2 with
          | some err =>
            ⟨updateCall :: started.1, some (wrapErr err "unable to start deployment"),
              currentDC, none⟩
          | none => patchWait c ucp (updateCall :: started.1)
        else if deps.reflectDeepEqual updatedDc.Spec.Template currentDC.Spec.Template then
          ⟨[updateCall], none, currentDC, none⟩
        else
          match deps.jsonMarshal updatedDc.Spec.Template with
          | .error err =>
            ⟨[updateCall], some (wrapErr err "unable to unmarshal dc"), currentDC, none⟩
          | .ok _ => patchWait c ucp [updateCall]

/-! ## `WaitForBuildToFinish` -/

/-- Constant `buildv1.BuildPhaseComplete`. -/
def BuildPhaseComplete : String := "Complete"

/-- Constant `buildv1.BuildPhaseFailed`. -/
def BuildPhaseFailed : String := "Failed"

/-- Constant `buildv1.BuildPhaseCancelled`. -/
def BuildPhaseCancelled : String := "Cancelled"

/-- Constant `buildv1.BuildPhaseError`. -/
def BuildPhaseError : String := "Error"

/-- The `for` loop of `WaitForBuildToFinish` over the receives it takes. A closed channel
`break`s out of the loop, after which the function returns `nil`; `Complete` returns `nil`;
`Failed`, `Cancelled` and `Error` return an error; anything else is skipped. The result is
`none` while the loop is still blocked on the next receive. -/
def waitForBuildLoop : List Recv → Option (Option String)
  | [] => none
  | Recv.closed :: _ => some none
  | Recv.event val :: rest =>
    match val.Object with
    | WatchObject.build e =>
      if e.Status.Phase = BuildPhaseComplete then some none
      else if e.Status.Phase = BuildPhaseFailed ∨ e.Status.Phase = BuildPhaseCancelled ∨
          e.Status.Phase = BuildPhaseError then
        some (some ("build " ++ e.ObjectMeta.Name ++ " status " ++ e.Status.Phase))
      else waitForBuildLoop rest
    | _ => waitForBuildLoop rest

/-- Method `(c *Client) WaitForBuildToFinish(buildName)`: the calls issued and the returned
error (`none` while the call has not returned). `defer w.Stop()` is registered after the
error check on `Watch`. The field selector `fields.Set{"metadata.name": buildName}` prints
as `metadata.name=` followed by the name. -/
def WaitForBuildToFinish (c : Client) (buildName : String) :
    List Call × Option (Option String) :=
  let fieldSelector := "metadata.name=" ++ buildName
  let opened := c.buildWatch c.Namespace fieldSelector
  match opened.2 with
  | some err => ([Call.buildWatch c.Namespace fieldSelector],
      some (some (wrapErr err "unable to watch build")))
  | none =>
    match waitForBuildLoop opened.1 with
    | none => ([Call.buildWatch c.Namespace fieldSelector], none)
    | some result => ([Call.buildWatch c.Namespace fieldSelector, Call.watchStop], some result)

/-! ## `WaitAndGetPod` -/

/-- Constant `corev1.PodFailed`. -/
def PodFailed : String := "Failed"

/-- Constant `corev1.PodUnknown`. -/
def PodUnknown : String := "Unknown"

/-- Constant `waitForPodTimeOut = 240 * time.Second`, in nanoseconds. -/
def waitForPodTimeOut : Nat := 240 * 1000000000

/-- The error of the timer case of `WaitAndGetPod`; `waitForPodTimeOut` prints as `4m0s`. -/
def podTimeoutError (selector : String) : String :=
  "waited 4m0s but couldn't find running pod matching selector: '" ++ selector ++ "'"

/-- The goroutine of `WaitAndGetPod` together with the final `select`, over the receives the
goroutine takes before the timer case is taken: a closed channel, a pod in the desired phase,
a pod in phase `Failed` or `Unknown` and an object that is not a pod each end the wait; when
the receives are used up the timer case is taken. -/
def waitAndGetPodLoop (desiredPhase : String) (selector : String) :
    List Recv → Option Pod × Option String
  | [] => (none, some (podTimeoutError selector))
  | Recv.closed :: _ => (none, some "watch channel was closed")
  | Recv.event val :: rest =>
    match val.Object with
    | WatchObject.pod e =>
      if e.Status.Phase = desiredPhase then (some e, none)
      else if e.Status.Phase = PodFailed ∨ e.Status.Phase = PodUnknown then
        (none, some ("pod " ++ e.ObjectMeta.Name ++ " status " ++ e.Status.Phase))
      else waitAndGetPodLoop desiredPhase selector rest
    | _ => (none, some "unable to convert event object to Pod")

/-- Method `(c *Client) WaitAndGetPod(selector, desiredPhase, waitMessage)`: the calls issued
and the pair returned (the spinner only prints). `defer w.Stop()` is registered after the
error check on `Watch`. -/
def WaitAndGetPod (c : Client) (selector : String) (desiredPhase : String) :
    List Call × (Option Pod × Option String) :=
  let opened := c.podWatch c.Namespace selector
  match opened.2 with
  | some err => ([Call.podWatch c.Namespace selector],
      (none, some (wrapErr err "unable to watch pod")))
  | none =>
    ([Call.podWatch c.Namespace selector, Call.watchStop],
      waitAndGetPodLoop desiredPhase selector (opened.1.results waitForPodTimeOut))

/-- A receive that delivers a pod whose phase is neither the desired one nor `Failed` nor
`Unknown`: the goroutine of `WaitAndGetPod` goes on to the next receive. -/
def podStillWaiting (desiredPhase : String) : Recv → Bool
  | Recv.event ⟨_, WatchObject.pod e⟩ =>
    decide (e.Status.Phase ≠ desiredPhase ∧ e.Status.Phase ≠ PodFailed ∧
      e.Status.Phase ≠ PodUnknown)
  | _ => false

/-! ## Library functions of `path/filepath` (Unix), on the characters of a path -/

/-- The elements of a path between its `/` separators (empty elements included). -/
def splitSlash : List Char → List (List Char)
  | [] => [[]]
  | c :: cs =>
    if c = '/' then [] :: splitSlash cs
    else
      match splitSlash cs with
      | [] => [[c]]
      | head :: tail => (c :: head) :: tail

/-- One element of `filepath.Clean`: empty and `.` elements are dropped; `..` removes the
element before it, is dropped at the root, and is kept at the start of a relative path. -/
def cleanStep (rooted : Bool) (kept : List (List Char)) (element : List Char) :
    List (List Char) :=
  if element = [] ∨ element = ['.'] then kept
  else if element = ['.', '.'] then
    match kept.getLast? with
    | some top => if top = ['.', '.'] then kept ++ [element] else kept.dropLast
    | none => if rooted then kept else kept ++ [element]
  else kept ++ [element]

/-- Library function `filepath.Clean`: the shortest path name equivalent to `path` by purely
lexical processing; the empty path cleans to `.`. -/
def filepathClean (path : String) : String :=
  if path = "" then "."
  else
    let rooted := path.data.head? = some '/'
    let kept := (splitSlash path.data).foldl (cleanStep rooted) []
    let body := List.intercalate ['/'] kept
    if rooted then ⟨'/' :: body⟩ else if body = [] then "." else ⟨body⟩

/-- Library function `filepath.Join`: leading empty elements are ignored, the rest is joined
with `/` and cleaned; all elements empty gives the empty string. -/
def filepathJoin (elem : List String) : String :=
  match elem.dropWhile (fun e => e = "") with
  | [] => ""
  | rest => filepathClean (String.intercalate "/" rest)

/-- The tails of `name` that a `*` of `filepath.Match` can leave: `*` takes any sequence of
characters other than `/`. -/
def starTails : List Char → List (List Char)
  | [] => [[]]
  | c :: cs => if c = '/' then [c :: cs] else (c :: cs) :: starTails cs

/-- Library function `filepath.Match` on characters, for patterns built from literal
characters, `*`, `?` and `\`-escapes. Character classes are not modelled: a pattern that
reaches a `[` matches nothing here. No class occurs in the patterns built from
`DefaultAppRootDir`, the only base directory the callers pass. -/
def matchChars : List Char → List Char → Bool
  | [], name => name.isEmpty
  | '*' :: pattern, name => (starTails name).any (fun tail => matchChars pattern tail)
  | '?' :: pattern, c :: name => c != '/' && matchChars pattern name
  | '?' :: _, [] => false
  | '[' :: _, _ => false
  | '\\' :: p :: pattern, c :: name => p == c && matchChars pattern name
  | '\\' :: _, _ => false
  | p :: pattern, c :: name => p == c && matchChars pattern name
  | _ :: _, [] => false

/-- Library function `filepath.Match(pattern, name)`, the boolean it returns (on a malformed
pattern the library returns `false` with an error). -/
def filepathMatch (pattern : String) (name : String) : Bool :=
  matchChars pattern.data name.data

/-! ## `isSubDir` and the guard of the deployment-directory mount -/

/-- Constant `DefaultAppRootDir`. -/
def DefaultAppRootDir : String := "/opt/app-root"

/-- Function `isSubDir(baseDir, otherDir)`; the error of `filepath.Match` is discarded. -/
def isSubDir (baseDir otherDir : String) : Bool :=
  let cleanedBaseDir := filepathClean baseDir
  let cleanedOtherDir := filepathClean otherDir
  if cleanedBaseDir = cleanedOtherDir then true
  else filepathMatch (cleanedBaseDir ++ "/*") cleanedOtherDir

/-- The guard `s2iPaths.DeploymentDir != "" && !isSubDir(DefaultAppRootDir,
s2iPaths.DeploymentDir)` under which `BootstrapSupervisoredS2I` and `UpdateDCToSupervisor`
call `addDeploymentDirVolumeMount`. -/
def addsDeploymentDirVolumeMount (deploymentDir : String) : Bool :=
  deploymentDir != "" && !isSubDir DefaultAppRootDir deploymentDir

/-! ## `ExecCMDInContainer` and `PropagateDeletes` -/

/-- Method `(c *Client) ExecCMDInContainer(podName, cmd, stdout, stderr, stdin, tty)`; the
three streams are represented by whether they are non-nil. -/
def ExecCMDInContainer (c : Client) (podName : String) (cmd : List String)
    (stdout stderr stdin : Bool) (tty : Bool) : List Call × Option String :=
  match c.clientConfigErr with
  | some err => ([], some (wrapErr err "unable to get Kubernetes client config"))
  | none =>
    match c.spdyExecutorErr with
    | some err => ([], some (wrapErr err "unable execute command via SPDY"))
    | none =>
      let call := Call.execStream c.Namespace podName cmd stdin stdout stderr tty
      match c.execStream c.Namespace podName cmd with
      | some err => ([call], some (wrapErr err "error while streaming command"))
      | none => ([call], none)

/-- How `fmt` prints a `[]string` under `%+v`. -/
def fmtStrings (l : List String) : String := "[" ++ String.intercalate " " l ++ "]"

/-- The nested loops of `PropagateDeletes`: for every s2i path, for every deleted relative
path, `rmPaths = append(rmPaths, filepath.Join(s2iPath, delRelPath))`. -/
def rmPathsOf (s2iPaths delSrcRelPaths : List String) : List String :=
  s2iPaths.foldl
    (fun rmPaths s2iPath =>
      delSrcRelPaths.foldl
        (fun rmPaths delRelPath => rmPaths ++ [filepathJoin [s2iPath, delRelPath]])
        rmPaths)
    []

/-- Method `(c *Client) PropagateDeletes(targetPodName, delSrcRelPaths, s2iPaths)`. -/
def PropagateDeletes (c : Client) (targetPodName : String) (delSrcRelPaths : List String)
    (s2iPaths : List String) : List Call × Option String :=
  if s2iPaths.length = 0 ∨ delSrcRelPaths.length = 0 then
    ([], some ("Failed to propagate deletions: s2iPaths: " ++ fmtStrings s2iPaths ++
      " and delSrcRelPaths: " ++ fmtStrings delSrcRelPaths))
  else
    let rmPaths := rmPathsOf s2iPaths delSrcRelPaths
    let cmdArr := ["rm", "-rf"] ++ rmPaths
    ExecCMDInContainer c targetPodName cmdArr true true true false

/-! ## `GetS2IMetaInfoFromBuilderImg` -/

/-- Library function `strings.HasPrefix`. -/
def stringsHasPrefix (s : String) (pre : String) : Bool := pre.data.isPrefixOf s.data

/-- Library function `strings.TrimPrefix`. -/
def stringsTrimPrefix (s : String) (pre : String) : String :=
  if stringsHasPrefix s pre then ⟨s.data.drop pre.data.length⟩ else s

/-- Constant `S2IScriptsURLLabel`. -/
def S2IScriptsURLLabel : String := "io.openshift.s2i.scripts-url"

/-- Constant `S2IBuilderImageName`. -/
def S2IBuilderImageName : String := "name"

/-- Constant `S2ISrcOrBinLabel`. -/
def S2ISrcOrBinLabel : String := "io.openshift.s2i.destination"

/-- Constant `DefaultS2ISrcOrBinPath`. -/
def DefaultS2ISrcOrBinPath : String := "/tmp"

/-- Constant `DefaultS2ISrcBackupDir`. -/
def DefaultS2ISrcBackupDir : String := "/opt/app-root/src-backup"

/-- Variable `S2IDeploymentsDir`, at its initial value. -/
def S2IDeploymentsDir : List String :=
  ["com.redhat.deployments-dir", "org.jboss.deployments-dir",
    "org.jboss.container.deployments-dir"]

/-- Type `S2IPaths`; the default value is the Go zero value `S2IPaths{}`. -/
structure S2IPaths where
  ScriptsPathProtocol : String := ""
  ScriptsPath : String := ""
  SrcOrBinPath : String := ""
  DeploymentDir : String := ""
  WorkingDir : String := ""
  SrcBackupPath : String := ""
  BuilderImgName : String := ""
  deriving DecidableEq, Repr

/-- Local type `ContainerConfig` of `GetS2IMetaInfoFromBuilderImg`; `Labels` is `none` for a
nil map. -/
structure ContainerConfig where
  Labels : Option (GoMap String)
  WorkingDir : String

/-- Local type `DockerImageMetaDataRaw` of `GetS2IMetaInfoFromBuilderImg`. -/
structure DockerImageMetaDataRaw where
  ContainerConfig : ContainerConfig

/-- A lookup `labels[key]` whose second result is not taken: the empty string when the key
is absent. -/
def labelValue (labels : GoMap String) (key : String) : String := (labels.get key).getD ""

/-- Function `getS2ILabelValue(labels, expectedLabelsSet)`. -/
def getS2ILabelValue (labels : GoMap String) : List String → String
  | [] => ""
  | label :: rest =>
    match labels.get label with
    | some retVal => retVal
    | none => getS2ILabelValue labels rest

/-- Function `GetS2IMetaInfoFromBuilderImg(builderImage)`; `unmarshalled` is the outcome of
`json.Unmarshal` on `builderImage.Image.DockerImageMetadata.Raw`. -/
def GetS2IMetaInfoFromBuilderImg (unmarshalled : Except String DockerImageMetaDataRaw) :
    S2IPaths × Option String :=
  match unmarshalled with
  | .error err => ({}, some (wrapErr err "unable to bootstrap supervisord"))
  | .ok dimdr =>
    match dimdr.ContainerConfig.Labels with
    | none => ({}, none)
    | some labels =>
      let s2iScriptsURL := labelValue labels S2IScriptsURLLabel
      let s2iSrcOrBinPath := labelValue labels S2ISrcOrBinLabel
      let s2iBuilderImgName := labelValue labels S2IBuilderImageName
      let s2iSrcOrBinPath :=
        if s2iSrcOrBinPath = "" then DefaultS2ISrcOrBinPath else s2iSrcOrBinPath
      let s2iDestinationDir := getS2ILabelValue labels S2IDeploymentsDir
      let done (s2iScriptsProtocol s2iScriptsPath : String) : S2IPaths × Option String :=
        ({ ScriptsPathProtocol := s2iScriptsProtocol
           ScriptsPath := s2iScriptsPath
           SrcOrBinPath := s2iSrcOrBinPath
           DeploymentDir := s2iDestinationDir
           WorkingDir := dimdr.ContainerConfig.WorkingDir
           SrcBackupPath := DefaultS2ISrcBackupDir
           BuilderImgName := s2iBuilderImgName }, none)
      if stringsHasPrefix s2iScriptsURL "image://" then
        done "image://" (stringsTrimPrefix s2iScriptsURL "image://")
      else if stringsHasPrefix s2iScriptsURL "file://" then
        done "file://" (stringsTrimPrefix s2iScriptsURL "file://")
      else if stringsHasPrefix s2iScriptsURL "http(s)://" then
        done "http(s)://" s2iScriptsURL
      else ({}, some ("Unknown scripts url " ++ s2iScriptsURL))

/-! ## `updateEnvVar` -/

/-- Function `updateEnvVar(dc, envVars)`: the DC after the call and the returned error. -/
def updateEnvVar (dc : DeploymentConfig) (envVars : List EnvVar) :
    DeploymentConfig × Option String :=
  let numContainers := dc.Spec.Template.Spec.Containers.length
  if numContainers ≠ 1 then
    (dc, some ("expected exactly one container in Deployment Config " ++ dc.ObjectMeta.Name ++
      ", got " ++ toString numContainers))
  else
    ({ dc with
        Spec := { dc.Spec with
          Template := { dc.Spec.Template with
            Spec := { dc.Spec.Template.Spec with
              Containers :=
                dc.Spec.Template.Spec.Containers.modifyHead
                  (fun container => { container with Env := envVars }) } } } },
      none)

/-! ## More of `path/filepath`, and `strings.Replace` -/

/-- Library function `filepath.Dir`: everything up to the last `/`, cleaned. -/
def filepathDir (path : String) : String :=
  filepathClean ⟨(path.data.reverse.dropWhile (fun c => c != '/')).reverse⟩

/-- Library function `filepath.Base`: the last element of the path, after trailing slashes
are removed; `.` for the empty path and `/` for a path of slashes only. -/
def filepathBase (path : String) : String :=
  if path = "" then "."
  else
    let stripped := path.data.reverse.dropWhile (fun c => c == '/')
    let last := (stripped.takeWhile (fun c => c != '/')).reverse
    if last = [] then "/" else ⟨last⟩

/-- The call `strings.Replace(s, "\\", "/", -1)`: every backslash becomes a forward slash. -/
def backslashesToSlashes (s : String) : String :=
  ⟨s.data.map (fun c => if c = '\\' then '/' else c)⟩

/-! ## The local file system and the tar writer -/

/-- What `os.Lstat` tells `recursiveTar` about a path: a directory, a symbolic link, or a
regular file or other file type; `unsupported` is a file type for which
`tar.FileInfoHeader` fails. -/
inductive FileKind where
  | dir
  | symlink
  | regular
  | unsupported
  deriving DecidableEq, Repr

/-- A header written with `tw.WriteHeader` and the bytes copied after it. `statPath` is the
path whose `Lstat` result the header was made from. -/
structure TarEntry where
  Name : String
  Typeflag : FileKind
  Linkname : String := ""
  statPath : String
  Body : String := ""
  deriving DecidableEq, Repr

/-- The operating system and library calls of `makeTar`, `recursiveTar` and
`IsGlobExpMatch`, as answers to their arguments. -/
structure Sys where
  /-- Library function `filepath.Glob(pattern)`. -/
  glob : String → Except String (List String)
  /-- Outcome of `glob.Compile(globExp)` followed by `pattern.Match(strToMatch)`. -/
  compileMatch : String → String → Except String Bool
  /-- Call `os.Lstat(path)`. -/
  lstat : String → Except String FileKind
  /-- Call `ioutil.ReadDir(path)`: the names of the entries, sorted. -/
  readDir : String → Except String (List String)
  /-- Call `os.Readlink(path)`. -/
  readlink : String → Except String String
  /-- Calls `os.Open(path)` and `io.Copy(tw, f)`: the bytes copied, or the first error. -/
  readFile : String → Except String String
  /-- Error of the final `f.Close()`. -/
  closeErr : String → Option String
  /-- Function `checkFileExist(fileName)`. -/
  fileExists : String → Bool
  /-- Library function `filepath.Rel(basepath, targpath)`. -/
  rel : String → String → Except String String
  /-- Error of `tw.WriteHeader(hdr)` for the header named `name`. -/
  writeHeaderErr : String → Option String

/-- Function `util.IsGlobExpMatch(strToMatch, globExps)`. -/
def IsGlobExpMatch (sys : Sys) (strToMatch : String) : List String → Except String Bool
  | [] => .ok false
  | globExp :: rest =>
    match sys.compileMatch (backslashesToSlashes globExp) (backslashesToSlashes strToMatch) with
    | .error err => .error err
    | .ok true => .ok true
    | .ok false => IsGlobExpMatch sys strToMatch rest

/-- What a tar-writing function leaves behind: the entries in the stream, and the returned
error; the second component is `none` when the recursion bound of the embedding was reached
before the function returned. -/
abbrev TarOutcome : Type := List TarEntry × Option (Option String)

/-- The first loop of `recursiveTar`, "checking the files which are allowed by glob
matching": the matched paths that match no exclusion glob, in order. -/
def allowedPaths (sys : Sys) (globExps : List String) :
    List String → List String → Except String (List String)
  | [], matchedPaths => .ok matchedPaths
  | path :: rest, matchedPaths =>
    match IsGlobExpMatch sys path globExps with
    | .error err => .error err
    | .ok matched =>
      allowedPaths sys globExps rest (if !matched then matchedPaths ++ [path] else matchedPaths)

/-- The loop `for _, f := range files` of `recursiveTar`; `recur srcFile destFile tw` is the
recursive call on a child. -/
def tarDirEntries (recur : String → String → List TarEntry → TarOutcome)
    (srcFile destFile : String) : List String → List TarEntry → TarOutcome
  | [], tw => (tw, some none)
  | f :: files, tw =>
    match recur (filepathJoin [srcFile, f]) (filepathJoin [destFile, f]) tw with
    | (tw, some none) => tarDirEntries recur srcFile destFile files tw
    | stopped => stopped

/-- The second loop of `recursiveTar`, "adding the files for taring", over the allowed
matched paths. A directory is archived and ends the loop; a symbolic link is archived and the
loop goes on; any other file is archived with its bytes and ends the loop. -/
def tarMatchedPaths (sys : Sys) (recur : String → String → List TarEntry → TarOutcome)
    (joinedPath srcFile destFile : String) : List String → List TarEntry → TarOutcome
  | [], tw => (tw, some none)
  | matchedPath :: rest, tw =>
    match sys.lstat matchedPath with
    | .error err => (tw, some (some err))
    | .ok FileKind.dir =>
      match sys.readDir matchedPath with
      | .error err => (tw, some (some err))
      | .ok files =>
        if files.length = 0 then
          match sys.writeHeaderErr destFile with
          | some err => (tw, some (some err))
          | none =>
            tarDirEntries recur srcFile destFile files
              (tw ++ [{ Name := destFile, Typeflag := FileKind.dir, statPath := matchedPath }])
        else tarDirEntries recur srcFile destFile files tw
    | .ok FileKind.symlink =>
      match sys.readlink joinedPath with
      | .error err => (tw, some (some err))
      | .ok target =>
        match sys.writeHeaderErr destFile with
        | some err => (tw, some (some err))
        | none =>
          tarMatchedPaths sys recur joinedPath srcFile destFile rest
            (tw ++ [{ Name := destFile, Typeflag := FileKind.symlink, Linkname := target,
                      statPath := matchedPath }])
    | .ok FileKind.unsupported => (tw, some (some "archive/tar: unknown file mode"))
    | .ok FileKind.regular =>
      match sys.writeHeaderErr destFile with
      | some err => (tw, some (some err))
      | none =>
        match sys.readFile joinedPath with
        | .error err =>
          (tw ++ [{ Name := destFile, Typeflag := FileKind.regular, statPath := matchedPath }],
            some (some err))
        | .ok body =>
          (tw ++ [{ Name := destFile, Typeflag := FileKind.regular, statPath := matchedPath,
                    Body := body }],
            some (sys.closeErr joinedPath))

/-- Function `recursiveTar(srcBase, srcFile, destBase, destFile, tw, globExps)` on a Unix
host (`filepath.ToSlash` changes nothing). `fuel` bounds the depth of the recursion. -/
def recursiveTar (sys : Sys) : Nat → String → String → String → String → List TarEntry →
    List String → TarOutcome
  | 0, _, _, _, _, tw, _ => (tw, none)
  | fuel + 1, srcBase, srcFile, destBase, destFile, tw, globExps =>
    let joinedPath := filepathJoin [srcBase, srcFile]
    match sys.glob joinedPath with
    | .error err => (tw, some (some err))
    | .ok matchedPathsDir =>
      match allowedPaths sys globExps matchedPathsDir [] with
      | .error err => (tw, some (some err))
      | .ok matchedPaths =>
        tarMatchedPaths sys
          (fun srcFile destFile tw =>
            recursiveTar sys fuel srcBase srcFile destBase destFile tw globExps)
          joinedPath srcFile destFile matchedPaths tw

/-- The loop `for _, fileName := range files` of `makeTar` (the changed files of a watch). -/
def makeTarFiles (sys : Sys) (fuel : Nat) (srcPath destPath : String) (globExps : List String) :
    List String → List TarEntry → TarOutcome
  | [], tw => (tw, some none)
  | fileName :: files, tw =>
    if sys.fileExists fileName then
      match sys.rel srcPath fileName with
      | .error err => (tw, some (some err))
      | .ok srcFile =>
        let srcFile := filepathJoin [filepathBase srcPath, srcFile]
        match recursiveTar sys fuel (filepathDir srcPath) srcFile (filepathDir destPath) srcFile
            tw globExps with
        | (tw, some none) => makeTarFiles sys fuel srcPath destPath globExps files tw
        | stopped => stopped
    else makeTarFiles sys fuel srcPath destPath globExps files tw

/-- Function `makeTar(srcPath, destPath, writer, files, globExps)`: the entries written to
`writer` and the returned error. -/
def makeTar (sys : Sys) (fuel : Nat) (srcPath destPath : String) (files : List String)
    (globExps : List String) : TarOutcome :=
  let srcPath := filepathClean srcPath
  let destPath := filepathClean destPath
  if files.length ≠ 0 then makeTarFiles sys fuel srcPath destPath globExps files []
  else
    recursiveTar sys fuel (filepathDir srcPath) (filepathBase srcPath) (filepathDir destPath)
      (filepathBase destPath) [] globExps

/-- The calls `recursiveTar(srcBase, srcFile, destBase, destFile, ...)` that a call on
`rootSrc`, `rootDest` leads to through directories that match no exclusion glob: the call on
the roots, and for every call reached whose joined path matches no exclusion glob and is a
directory, the call on each entry of that directory, with the entry's name joined to the
source file and to the destination file alike. -/
inductive Visits (sys : Sys) (globExps : List String) (srcBase : String)
    (rootSrc rootDest : String) : String → String → Prop where
  | root : Visits sys globExps srcBase rootSrc rootDest rootSrc rootDest
  | child (srcFile destFile : String) (files : List String) (f : String) :
      Visits sys globExps srcBase rootSrc rootDest srcFile destFile →
      IsGlobExpMatch sys (filepathJoin [srcBase, srcFile]) globExps = .ok false →
      sys.lstat (filepathJoin [srcBase, srcFile]) = .ok FileKind.dir →
      sys.readDir (filepathJoin [srcBase, srcFile]) = .ok files →
      f ∈ files →
      Visits sys globExps srcBase rootSrc rootDest
        (filepathJoin [srcFile, f]) (filepathJoin [destFile, f])

/-- An entry as the call `recursiveTar(srcBase, srcFile, destBase, destFile, ...)` writes it
for its joined path: the header is named `destFile`, the joined path matches no exclusion
glob, the type of the header is the file type of the joined path, a directory header stands
for a directory without entries, the link target is that of the joined path, and the bytes
are those read from the joined path (none when the read fails after the header). -/
def WrittenFor (sys : Sys) (globExps : List String) (srcBase srcFile destFile : String)
    (e : TarEntry) : Prop :=
  e.Name = destFile ∧
  e.statPath = filepathJoin [srcBase, srcFile] ∧
  IsGlobExpMatch sys (filepathJoin [srcBase, srcFile]) globExps = .ok false ∧
  sys.lstat (filepathJoin [srcBase, srcFile]) = .ok e.Typeflag ∧
  (e.Typeflag = FileKind.dir → sys.readDir (filepathJoin [srcBase, srcFile]) = .ok []) ∧
  (e.Typeflag = FileKind.symlink →
    sys.readlink (filepathJoin [srcBase, srcFile]) = .ok e.Linkname) ∧
  (e.Typeflag = FileKind.regular →
    sys.readFile (filepathJoin [srcBase, srcFile]) = .ok e.Body ∨
      (e.Body = "" ∧ ∃ err, sys.readFile (filepathJoin [srcBase, srcFile]) = .error err))

/-- The roots of the walks of `makeTar`, as source file and destination file: the base names
of the source path and of the destination path when no files are listed; and for each listed
file that exists, its path relative to the source path, under the base name of the source
path, for both. -/
def WalkRoot (sys : Sys) (srcPath destPath : String) (files : List String)
    (rootSrc rootDest : String) : Prop :=
  (files = [] ∧ rootSrc = filepathBase (filepathClean srcPath) ∧
    rootDest = filepathBase (filepathClean destPath)) ∨
  ∃ fileName srcFile, fileName ∈ files ∧ sys.fileExists fileName = true ∧
    sys.rel (filepathClean srcPath) fileName = .ok srcFile ∧
    rootSrc = filepathJoin [filepathBase (filepathClean srcPath), srcFile] ∧
    rootDest = filepathJoin [filepathBase (filepathClean srcPath), srcFile]

/-- The path reached from `root` by joining the entry names `names` one after the other, as
the recursive calls of `recursiveTar` do with `filepath.Join`. -/
def joinNames (root : String) (names : List String) : String :=
  names.foldl (fun acc f => filepathJoin [acc, f]) root

/-- The answers of `filepath.Glob` in a file tree none of whose paths holds a glob
metacharacter: the only path that a pattern can yield is the pattern itself. -/
def GlobYieldsPattern (sys : Sys) : Prop :=
  ∀ pattern paths, sys.glob pattern = .ok paths → ∀ p ∈ paths, p = pattern

/-! ## `injectS2IPaths` -/

/-- Constant `EnvS2IScriptsURL`. -/
def EnvS2IScriptsURL : String := "ODO_S2I_SCRIPTS_URL"

/-- Constant `EnvS2IScriptsProtocol`. -/
def EnvS2IScriptsProtocol : String := "ODO_S2I_SCRIPTS_PROTOCOL"

/-- Constant `EnvS2ISrcOrBinPath`. -/
def EnvS2ISrcOrBinPath : String := "ODO_S2I_SRC_BIN_PATH"

/-- Constant `EnvS2IDeploymentDir`. -/
def EnvS2IDeploymentDir : String := "ODO_S2I_DEPLOYMENT_DIR"

/-- Constant `EnvS2IWorkingDir`. -/
def EnvS2IWorkingDir : String := "ODO_S2I_WORKING_DIR"

/-- Constant `EnvS2IBuilderImageName`. -/
def EnvS2IBuilderImageName : String := "ODO_S2I_BUILDER_IMG"

/-- The six variables that `injectS2IPaths` passes to `uniqueAppendOrOverwriteEnvVars`. -/
def s2iEnvVars (s2iPaths : S2IPaths) : List EnvVar :=
  [{ Name := EnvS2IScriptsURL, Value := s2iPaths.ScriptsPath },
   { Name := EnvS2IScriptsProtocol, Value := s2iPaths.ScriptsPathProtocol },
   { Name := EnvS2ISrcOrBinPath, Value := s2iPaths.SrcOrBinPath },
   { Name := EnvS2IDeploymentDir, Value := s2iPaths.DeploymentDir },
   { Name := EnvS2IWorkingDir, Value := s2iPaths.WorkingDir },
   { Name := EnvS2IBuilderImageName, Value := s2iPaths.BuilderImgName }]

/-- Function `injectS2IPaths(existingVars, s2iPaths)`. -/
def injectS2IPaths (existingVars : List EnvVar) (s2iPaths : S2IPaths) : List EnvVar :=
  uniqueAppendOrOverwriteEnvVars existingVars (s2iEnvVars s2iPaths)

/-- Every value of the map is stored under its own name. -/
def KeyedByName (m : GoMap EnvVar) : Prop := ∀ k v, m.get k = some v → v.Name = k

/-! ## `ParseImageName` -/

/-- Library function `strings.Split(s, sep)` for a separator of one character, on the
characters of `s`: the pieces between the separators; one empty piece for the empty string. -/
def splitChar (sep : Char) : List Char → List (List Char)
  | [] => [[]]
  | c :: cs =>
    if c = sep then [] :: splitChar sep cs
    else
      match splitChar sep cs with
      | [] => [[c]]
      | head :: tail => (c :: head) :: tail

/-- Library function `strings.Split(s, sep)` for a separator of one character. -/
def stringsSplit (s : String) (sep : Char) : List String :=
  (splitChar sep s.data).map String.mk

/-- Function `ParseImageName(image)`: namespace, name, tag, digest and error. -/
def ParseImageName (image : String) : String × String × String × String × Option String :=
  let invalid : String × String × String × String × Option String :=
    ("", "", "", "", some ("invalid image reference " ++ image))
  match stringsSplit image '@' with
  | [name, digest] =>
    if name ≠ "" ∧ digest ≠ "" then
      match stringsSplit name '/' with
      | [ns, imageName] => (ns, imageName, "", digest, none)
      | imangeNameParts => ("", imangeNameParts.headD "", "", digest, none)
    else invalid
  | [whole] =>
    if whole ≠ "" then
      match stringsSplit image ':' with
      | [name, tag] =>
        if name ≠ "" then
          match stringsSplit name '/' with
          | [ns, imageName] => (ns, imageName, tag, "", none)
          | _ => ("", name, tag, "", none)
        else invalid
      | [name] =>
        match stringsSplit name '/' with
        | [ns, imageName] => (ns, imageName, "latest", "", none)
        | _ => ("", name, "latest", "", none)
      | _ => invalid
    else invalid
  | _ => invalid

/-! ## `GetInputEnvVarsFromStrings` -/

/-- The text before the first `sep` of `s` (all of `s` when there is none). -/
def textBefore (sep : Char) (s : String) : String := ⟨s.data.takeWhile (fun c => c != sep)⟩

/-- The text after the first `sep` of `s` (empty when there is none). -/
def textAfter (sep : Char) (s : String) : String :=
  ⟨(s.data.dropWhile (fun c => c != sep)).drop 1⟩

/-- Library function `strings.SplitN(s, sep, 2)` for a separator of one character: `s` alone
when it has no separator, else the text before and the text after the first separator. -/
def stringsSplitN2 (s : String) (sep : Char) : List String :=
  if s.data.dropWhile (fun c => c != sep) = [] then [s]
  else [textBefore sep s, textAfter sep s]

/-- The loop of `GetInputEnvVarsFromStrings` with its two local variables. -/
def inputEnvVarsLoop : List String → GoMap Nat → List EnvVar → List EnvVar × Option String
  | [], _, inputEnvVars => (inputEnvVars, none)
  | env :: rest, keys, inputEnvVars =>
    match stringsSplitN2 env '=' with
    | [name, value] =>
      match keys.get name with
      | some _ => ([], some ("multiple values found for VariableName: " ++ name))
      | none =>
        inputEnvVarsLoop rest (keys.set name 1)
          (inputEnvVars ++ [{ Name := name, Value := value }])
    | _ =>
      ([], some "invalid syntax for env, please specify a VariableName=Value pair")

/-- Function `GetInputEnvVarsFromStrings(envVars)`. -/
def GetInputEnvVarsFromStrings (envVars : List String) : List EnvVar × Option String :=
  inputEnvVarsLoop envVars GoMap.empty []

/-- A non-empty string without `/`, `:` and `@`: a namespace, an image name or a tag. -/
def plainPart (s : String) : Prop :=
  s ≠ "" ∧ '/' ∉ s.data ∧ ':' ∉ s.data ∧ '@' ∉ s.data

/-! ## Functions of `util`: truncation, namespacing, DNS names, random names, parameters

Where the code measures or slices a string by bytes (`TruncateString` and its callers), the
string is the list of its bytes. -/

/-- The bytes of a string of ASCII characters. -/
def bytesOf (s : String) : List UInt8 := s.data.map (fun c => c.toNat.toUInt8)

/-- Function `TruncateString(str, maxLen)` on the units of the string (bytes in Go). The
result is `none` when the slice expression `str[:maxLen]` panics, which it does for a
negative `maxLen` other than `-1`. -/
def TruncateString {α : Type} (str : List α) (maxLen : Int) : Option (List α) :=
  if maxLen = -1 then some str
  else if (str.length : Int) > maxLen then
    if maxLen < 0 then none else some (str.take maxLen.toNat)
  else some str

/-- Constant `maxAllowedNamespacedStringLength = 63 - len("-s2idata") - 1`. -/
def maxAllowedNamespacedStringLength : Int := 63 - ((bytesOf "-s2idata").length : Int) - 1

/-- Function `NamespaceOpenShiftObject(componentName, applicationName)` on the bytes of its
arguments: the returned name and error; `none` if the call panicked. -/
def NamespaceOpenShiftObject (componentName applicationName : List UInt8) :
    Option (List UInt8 × Option String) :=
  if componentName = [] then some ([], some "namespacing: component name cannot be blank")
  else if applicationName = [] then
    some ([], some "namespacing: application name cannot be blank")
  else
    let originalName :=
      componentName.map (fun b => if b = 47 then 45 else b) ++ [45] ++ applicationName
    match TruncateString originalName maxAllowedNamespacedStringLength with
    | none => none
    | some truncatedName => some (truncatedName, none)

/-- The class `[a-zA-Z0-9]` of the regular expressions of `util`. -/
def isAlnumChar (c : Char) : Bool := c.isAlphanum

/-- The class `[a-zA-Z0-9_-]` of `nonAllowedCharsRegex`. -/
def isAllowedChar (c : Char) : Bool := c.isAlphanum || c == '_' || c == '-'

/-- The call `nonAllowedCharsRegex.ReplaceAllString(str, "-")`: every maximal run of
characters outside `[a-zA-Z0-9_-]` becomes one `-`; `inRun` tells that the character before
was part of such a run. -/
def replaceNonAllowedRuns : Bool → List Char → List Char
  | _, [] => []
  | inRun, c :: cs =>
    if isAllowedChar c then c :: replaceNonAllowedRuns false cs
    else if inRun then replaceNonAllowedRuns true cs
    else '-' :: replaceNonAllowedRuns true cs

/-- The call `strings.Replace(s, "--", "-", -1)`: from left to right, each `--` that does not
overlap an earlier one becomes `-`. -/
def replaceDoubleHyphen : List Char → List Char
  | '-' :: '-' :: cs => '-' :: replaceDoubleHyphen cs
  | c :: cs => c :: replaceDoubleHyphen cs
  | [] => []

/-- Function `removeNonAlphaPrefix(input)`: the expression `^[^a-zA-Z0-9]+(.*)$` matches
when the input starts outside `[a-zA-Z0-9]` and what follows the leading run has no newline;
the input is then replaced by what follows the run. -/
def removeNonAlphaPrefix (input : List Char) : List Char :=
  let rest := input.dropWhile (fun c => !isAlnumChar c)
  if rest.length < input.length ∧ '\n' ∉ rest then rest else input

/-- Function `removeNonAlphaSuffix(input)`: the expression `^(.*?)[^a-zA-Z0-9]+$` matches
when the input ends outside `[a-zA-Z0-9]` and what precedes the trailing run has no newline;
the result is then what precedes the run, else the input. -/
def removeNonAlphaSuffix (input : List Char) : List Char :=
  let kept := (input.reverse.dropWhile (fun c => !isAlnumChar c)).reverse
  if kept.length < input.length ∧ '\n' ∉ kept then kept else input

/-- Function `GetDNS1123Name(str)`. -/
def GetDNS1123Name (str : String) : String :=
  ⟨removeNonAlphaSuffix
    (removeNonAlphaPrefix (replaceDoubleHyphen (replaceNonAllowedRuns false str.data)))⟩

/-- The loop `for ok { ... }` of `GetRandomName`: `trial` counts the names generated so far
in the loop, `rand i` is the result of the `i`-th call of `GenerateRandomString(4)` after the
first. The result is `none` only if `bound` iterations did not end the loop. -/
def randomNameLoop (rand : Nat → String) (existingNames : GoMap Bool) (name : String)
    (retries : Int) : Nat → Nat → Option (String × Option String)
  | 0, _ => none
  | bound + 1, trial =>
    let trial := trial + 1
    let prevName := name ++ "-" ++ rand trial
    let ok := (existingNames.get prevName).isSome
    if (trial : Int) ≥ retries then
      some ("", some ("failed to generate a unique name even after " ++ toString retries ++
        " retrials"))
    else if ok then randomNameLoop rand existingNames name retries bound trial
    else some (prevName, none)

/-- Function `GetRandomName(prefix, prefixMaxLen, existList, retries)`. `toLower` is the
library function `strings.ToLower`, `rand i` the result of the `i`-th call of
`GenerateRandomString(4)`, counted from 0. The result is `none` if `TruncateString`
panicked. -/
def GetRandomName (toLower : String → String) (rand : Nat → String) (namePrefix : String)
    (prefixMaxLen : Int) (existList : List String) (retries : Int) :
    Option (String × Option String) :=
  match TruncateString (GetDNS1123Name (toLower namePrefix)).data prefixMaxLen with
  | none => none
  | some truncated =>
    let name := String.mk truncated ++ "-" ++ rand 0
    let existingNames : GoMap Bool :=
      existList.foldl (fun m existingName => m.set existingName true) GoMap.empty
    if (existingNames.get name).isSome then
      randomNameLoop rand existingNames name retries (retries.toNat + 1) 0
    else some (name, none)

/-- Function `ConvertKeyValueStringToMap(params)`, the loop with its map. The result is
`none` when `glog.Fatalf` was called: it logs the message and ends the process with
`os.Exit(255)`. -/
def convertKeyValueLoop : List String → GoMap String → Option (GoMap String)
  | [], result => some result
  | param :: rest, result =>
    match stringsSplit param '=' with
    | [key, value] => convertKeyValueLoop rest (result.set key value)
    | _ => none

/-- Function `ConvertKeyValueStringToMap(params)`. -/
def ConvertKeyValueStringToMap (params : List String) : Option (GoMap String) :=
  convertKeyValueLoop params GoMap.empty

/-! ## `GetImageStream` -/

/-- Constant `OpenShiftNameSpace`. -/
def OpenShiftNameSpace : String := "openshift"

/-- Function `isTagInImageStream(is, imageTag)`. -/
def isTagInImageStream (is : ImageStream) (imageTag : String) : Bool :=
  is.Status.Tags.any (fun tag => tag.Tag = imageTag)

/-- The second half of the branch `imageNS == ""` of `GetImageStream`: the lookup in the
`openshift` namespace, with `err` as the first lookup left it (`none` is a nil error). -/
def getImageStreamFromOpenShift (c : Client) (imageName imageTag : String)
    (err : Option String) : GoOutcome (Option ImageStream × Option String) :=
  match c.imageStreamGet OpenShiftNameSpace imageName with
  | .error e =>
    match err with
    | none => GoOutcome.panicked "invalid memory address or nil pointer dereference"
    | some message =>
      GoOutcome.returned (none, some (wrapErr e
        (message ++ "\n.no match found for : " ++ imageName ++ " in namespace " ++
          OpenShiftNameSpace)))
  | .ok openshiftNSImageStream =>
    if isTagInImageStream openshiftNSImageStream imageTag then
      GoOutcome.returned (some openshiftNSImageStream, none)
    else
      GoOutcome.returned (none, some ("image stream " ++ imageName ++ " with tag " ++
        imageTag ++ " not found in openshift and " ++ c.Namespace ++ " namespaces"))

/-- Method `(c *Client) GetImageStream(imageNS, imageName, imageTag)`. -/
def GetImageStream (c : Client) (imageNS imageName imageTag : String) :
    GoOutcome (Option ImageStream × Option String) :=
  let currentProjectName := c.Namespace
  if imageNS = "" then
    match c.imageStreamGet currentProjectName imageName with
    | .error e =>
      getImageStreamFromOpenShift c imageName imageTag
        (some (wrapErr e ("no match found for : " ++ imageName ++ " in namespace " ++
          currentProjectName)))
    | .ok currentNSImageStream =>
      if isTagInImageStream currentNSImageStream imageTag then
        GoOutcome.returned (some currentNSImageStream, none)
      else getImageStreamFromOpenShift c imageName imageTag none
  else
    match c.imageStreamGet imageNS imageName with
    | .error err =>
      GoOutcome.returned (none, some (wrapErr err
        ("no match found for " ++ imageName ++ " in namespace " ++ imageNS)))
    | .ok imageStream =>
      if !isTagInImageStream imageStream imageTag then
        GoOutcome.returned (none, some ("image stream " ++ imageName ++ " with tag " ++
          imageTag ++ " not found in " ++ currentProjectName ++ " namespaces"))
      else GoOutcome.returned (some imageStream, none)

/-! ## Sample collaborators, used to instantiate the statements below -/

/-- A live DC at revision 2 with one container `app`. -/
def sampleLiveDC : DeploymentConfig :=
  { ObjectMeta :=
      { Name := "app", Namespace := "myproject", UID := "u-1", ResourceVersion := "41",
        Generation := 7, Labels := [("app", "old")], Annotations := [("k", "old")] }
    Spec := { Template := { Spec := { Containers := [{ Name := "app", Image := "img:1" }] } } }
    Status := { LatestVersion := 2 } }

/-- A freshly generated DC for the same component with a new image. -/
def sampleNewDC : DeploymentConfig :=
  { ObjectMeta := { Name := "app", Labels := [("app", "new")], Annotations := [("k", "new")] }
    Spec := { Template := { Spec := { Containers := [{ Name := "app", Image := "img:2" }] } } } }

/-- A freshly generated DC whose template equals the live one. -/
def sampleSameDC : DeploymentConfig :=
  { ObjectMeta := { Name := "app", Labels := [("app", "new")], Annotations := [("k", "new")] }
    Spec := sampleLiveDC.Spec }

/-- The rollout condition "the observed revision has reached the desired one". -/
def sampleWaitCond : dcRollOutWait :=
  fun e desiredRevision => decide (desiredRevision ≤ e.Status.LatestVersion)

/-- Watch events of a rollout: the DC is seen at revision 2, then 3, then 4. -/
def sampleRecvs : List Recv :=
  [Recv.event ⟨"MODIFIED", WatchObject.deploymentConfig { sampleLiveDC with Status := { LatestVersion := 2 } }⟩,
   Recv.event ⟨"MODIFIED", WatchObject.other "Status"⟩,
   Recv.event ⟨"MODIFIED", WatchObject.deploymentConfig { sampleLiveDC with Status := { LatestVersion := 3 } }⟩,
   Recv.event ⟨"MODIFIED", WatchObject.deploymentConfig { sampleLiveDC with Status := { LatestVersion := 4 } }⟩]

/-- A client whose update returns the submitted object, whose instantiate succeeds and
whose watch delivers `sampleRecvs`. -/
def sampleClient : Client :=
  { Namespace := "myproject"
    dcUpdate := fun _ dc => .ok dc
    dcInstantiate := fun _ name _ => .ok { ObjectMeta := { Name := name } }
    dcWatch := fun _ _ => (⟨fun _ => sampleRecvs⟩, none) }

/-- A client like `sampleClient` whose update returns the submitted object at revision 5. -/
def sampleRevisedClient : Client :=
  { sampleClient with
    dcUpdate := fun _ dc => .ok { dc with Status := { LatestVersion := 5 } } }

/-- Collaborators that succeed and leave the DC as it is, and a `reflect.DeepEqual` that
finds two sample templates equal when they are the same value. -/
def sampleDeps : PatchDeps :=
  { addOrRemoveVolumeAndVolumeMount := fun _ dc _ _ => .ok dc
    jsonMarshal := fun _ => .ok ""
    reflectDeepEqual := fun updated current => decide (updated = current) }

/-- The live component container handed to `PatchCurrentDC`. -/
def sampleContainer : Container := { Name := "app", Image := "img:1" }

/-- Update parameters for the live DC `sampleLiveDC`. -/
def sampleUcp : UpdateComponentParams :=
  { CommonObjectMeta := { Name := "app" }
    ExistingDC := sampleLiveDC
    DcRollOutWaitCond := sampleWaitCond }

/-- A client whose DeploymentConfig watch delivers revision 2 and is then closed by the
server: every later receive finds the channel closed. -/
def sampleClosedClient : Client :=
  { Namespace := "myproject"
    dcUpdate := fun _ dc => .ok dc
    dcInstantiate := fun _ name _ => .ok { ObjectMeta := { Name := name } }
    dcWatch := fun _ _ =>
      (⟨fun _ =>
        [Recv.event ⟨"MODIFIED", WatchObject.deploymentConfig sampleLiveDC⟩,
         Recv.closed, Recv.closed, Recv.closed]⟩, none)
    buildWatch := fun _ _ =>
      ([Recv.event ⟨"MODIFIED", WatchObject.build
          { ObjectMeta := { Name := "app-1" }, Status := { Phase := "Running" } }⟩,
        Recv.closed], none) }

/-- Pod watch events: the pod is seen `Pending` twice, then `Running`, then `Failed`. -/
def samplePodRecvs : List Recv :=
  [Recv.event ⟨"ADDED", WatchObject.pod
      { ObjectMeta := { Name := "app-1-abcde" }, Status := { Phase := "Pending" } }⟩,
   Recv.event ⟨"MODIFIED", WatchObject.pod
      { ObjectMeta := { Name := "app-1-abcde" }, Status := { Phase := "Pending" } }⟩,
   Recv.event ⟨"MODIFIED", WatchObject.pod
      { ObjectMeta := { Name := "app-1-abcde" }, Status := { Phase := "Running" } }⟩,
   Recv.event ⟨"MODIFIED", WatchObject.pod
      { ObjectMeta := { Name := "app-1-abcde" }, Status := { Phase := "Failed" } }⟩]

/-- A client whose pod watch delivers `samplePodRecvs`. -/
def samplePodClient : Client :=
  { Namespace := "myproject"
    dcUpdate := fun _ dc => .ok dc
    dcInstantiate := fun _ name _ => .ok { ObjectMeta := { Name := name } }
    dcWatch := fun _ _ => (⟨fun _ => []⟩, none)
    podWatch := fun _ _ => (⟨fun _ => samplePodRecvs⟩, none) }

/-- Builder labels of an image that announces its scripts under `image://`. -/
def sampleLabels : GoMap String :=
  (GoMap.empty.set "io.openshift.s2i.scripts-url" "image:///usr/libexec/s2i").set
    "io.openshift.s2i.destination" "/tmp"

/-- Builder labels without a scripts URL. -/
def sampleLabelsNoURL : GoMap String :=
  GoMap.empty.set "io.openshift.s2i.destination" "/tmp"

/-- A glob matcher for patterns of literal characters, `?` and `*`, where `*` takes any
sequence of characters: the behaviour of `glob.Compile(p).Match(s)` on such patterns. -/
def wildcardMatch : List Char → List Char → Bool
  | [], s => s.isEmpty
  | '*' :: pattern, s => s.tails.any (fun tail => wildcardMatch pattern tail)
  | '?' :: pattern, _ :: s => wildcardMatch pattern s
  | '?' :: _, [] => false
  | p :: pattern, c :: s => p == c && wildcardMatch pattern s
  | _ :: _, [] => false

/-- The kind of each path of the tree `build/out.bin`, `src/main.go` under the working
directory. -/
def sampleTreeKind (path : String) : Option FileKind :=
  if path = "." ∨ path = "build" ∨ path = "src" then some FileKind.dir
  else if path = "build/out.bin" ∨ path = "src/main.go" then some FileKind.regular
  else none

/-- The answers of the operating system and the libraries for the tree `build/out.bin`,
`src/main.go` under the working directory `.`; no path of the tree has a glob
metacharacter, so `filepath.Glob` of an existing path is that path. -/
def sampleSys : Sys :=
  { glob := fun pattern =>
      match sampleTreeKind pattern with
      | some _ => .ok [pattern]
      | none => .ok []
    compileMatch := fun globExp strToMatch => .ok (wildcardMatch globExp.data strToMatch.data)
    lstat := fun path =>
      match sampleTreeKind path with
      | some kind => .ok kind
      | none => .error ("lstat " ++ path ++ ": no such file or directory")
    readDir := fun path =>
      if path = "." then .ok ["build", "src"]
      else if path = "build" then .ok ["out.bin"]
      else if path = "src" then .ok ["main.go"]
      else .error ("open " ++ path ++ ": not a directory")
    readlink := fun path => .error ("readlink " ++ path ++ ": invalid argument")
    readFile := fun path =>
      if path = "build/out.bin" then .ok "ELF"
      else if path = "src/main.go" then .ok "package main"
      else .error ("open " ++ path ++ ": no such file or directory")
    closeErr := fun _ => none
    fileExists := fun path => (sampleTreeKind path).isSome
    rel := fun basepath targpath =>
      if basepath = "." then .ok targpath
      else .error ("Rel: can't make " ++ targpath ++ " relative to " ++ basepath)
    writeHeaderErr := fun _ => none }

/-- A client whose current namespace `myproject` has the image stream `nodejs` with the tag
`8` only, and for which no image stream is found in the `openshift` namespace. -/
def sampleImageClient : Client :=
  { Namespace := "myproject"
    dcUpdate := fun _ dc => .ok dc
    dcInstantiate := fun _ name _ => .ok { ObjectMeta := { Name := name } }
    dcWatch := fun _ _ => (⟨fun _ => []⟩, none)
    imageStreamGet := fun ns name =>
      if ns = "myproject" ∧ name = "nodejs" then
        .ok { ObjectMeta := { Name := "nodejs", Namespace := "myproject" },
              Status := { Tags := [{ Tag := "8" }] } }
      else .error ("imagestreams.image.openshift.io \"" ++ name ++ "\" not found") }

/-- A `strings.ToLower` for ASCII strings. -/
def asciiToLower (s : String) : String := ⟨s.data.map Char.toLower⟩

/-- Random suffixes `aaaa`, `bbbb`, `cccc`, then `zzzz`. -/
def sampleRand (i : Nat) : String :=
  if i = 0 then "aaaa" else if i = 1 then "bbbb" else if i = 2 then "cccc" else "zzzz"

/-- Builder labels whose scripts URL begins with `http(s)://`. -/
def sampleLabelsHTTP : GoMap String :=
  GoMap.empty.set "io.openshift.s2i.scripts-url" "http(s)://example.com/s2i"

/-- The kind of each path of the tree `dir/a*`, `dir/abc` under the working directory; the
first file is named by the two characters `a` and `*`. -/
def sampleStarTreeKind (path : String) : Option FileKind :=
  if path = "." ∨ path = "dir" then some FileKind.dir
  else if path = "dir/a*" ∨ path = "dir/abc" then some FileKind.regular
  else none

/-- The answers of the operating system and the libraries for the tree `dir/a*`, `dir/abc`
under the working directory `.`: `filepath.Glob` of `dir/a*` yields both files. -/
def sampleStarSys : Sys :=
  { sampleSys with
    glob := fun pattern =>
      if pattern = "dir/a*" then .ok ["dir/a*", "dir/abc"]
      else
        match sampleStarTreeKind pattern with
        | some _ => .ok [pattern]
        | none => .ok []
    lstat := fun path =>
      match sampleStarTreeKind path with
      | some kind => .ok kind
      | none => .error ("lstat " ++ path ++ ": no such file or directory")
    readDir := fun path =>
      if path = "." then .ok ["dir"]
      else if path = "dir" then .ok ["a*", "abc"]
      else .error ("open " ++ path ++ ": not a directory")
    readFile := fun path =>
      if path = "dir/a*" then .ok "SECRET"
      else if path = "dir/abc" then .ok "public"
      else .error ("open " ++ path ++ ": no such file or directory")
    fileExists := fun path => (sampleStarTreeKind path).isSome }

/-! ## Lemmas on Go maps and the environment merge -/

theorem GoMap.get_set {β : Type} (m : GoMap β) (k k' : String) (v : β) :
    (m.set k v).get k' = if k' = k then some v else m.get k' := rfl

theorem GoMap.get_delete {β : Type} (m : GoMap β) (k k' : String) :
    (m.delete k).get k' = if k' = k then none else m.get k' := rfl

theorem envsIntoMap_cons (m : GoMap EnvVar) (e : EnvVar) (envs : List EnvVar) :
    envsIntoMap m (e :: envs) = envsIntoMap (m.set e.Name e) envs := rfl

theorem envsIntoMap_get_of_not_mem (envs : List EnvVar) (m : GoMap EnvVar) (k : String)
    (hk : k ∉ envs.map EnvVar.Name) : (envsIntoMap m envs).get k = m.get k := by
  induction envs generalizing m with
  | nil => rfl
  | cons e rest ih =>
    simp only [List.map_cons, List.mem_cons, not_or] at hk
    rw [envsIntoMap_cons, ih _ hk.2, GoMap.get_set, if_neg hk.1]

theorem envsIntoMap_get_of_mem (envs : List EnvVar) (m : GoMap EnvVar) (e : EnvVar)
    (hnd : (envs.map EnvVar.Name).Nodup) (he : e ∈ envs) :
    (envsIntoMap m envs).get e.Name = some e := by
  induction envs generalizing m with
  | nil => simp at he
  | cons a rest ih =>
    simp only [List.map_cons, List.nodup_cons] at hnd
    rw [envsIntoMap_cons]
    rcases List.mem_cons.1 he with h | h
    · subst h
      rw [envsIntoMap_get_of_not_mem _ _ _ hnd.1, GoMap.get_set, if_pos rfl]
    · exact ih _ hnd.2 h

theorem emitExisting_cons (e : EnvVar) (rest : List EnvVar) (st : List EnvVar × GoMap EnvVar) :
    emitExisting (e :: rest) st =
      emitExisting rest
        (match st.2.get e.Name with
          | some val => (st.1 ++ [val], st.2.delete e.Name)
          | none => st) := rfl

/-- With pairwise distinct names, the third loop emits, for every existing variable, the
value the map holds under its name, and leaves every other name of the map alone. -/
theorem emitExisting_nodup (l : List EnvVar) (r : List EnvVar) (m : GoMap EnvVar)
    (hnd : (l.map EnvVar.Name).Nodup) :
    (emitExisting l (r, m)).1 = r ++ l.filterMap (fun e => m.get e.Name) ∧
      ∀ k, (emitExisting l (r, m)).2.get k = if k ∈ l.map EnvVar.Name then none else m.get k := by
  induction l generalizing r m with
  | nil => simp [emitExisting]
  | cons e rest ih =>
    simp only [List.map_cons, List.nodup_cons] at hnd
    rw [emitExisting_cons]
    have hfm : ∀ m' : GoMap EnvVar, (∀ k, k ≠ e.Name → m'.get k = m.get k) →
        rest.filterMap (fun x => m'.get x.Name) = rest.filterMap (fun x => m.get x.Name) := by
      intro m' hm'
      apply List.filterMap_congr
      intro x hx
      apply hm'
      intro hxe
      exact hnd.1 (hxe ▸ List.mem_map_of_mem EnvVar.Name hx)
    cases hget : m.get e.Name with
    | none =>
      simp only []
      obtain ⟨h1, h2⟩ := ih r m hnd.2
      refine ⟨?_, ?_⟩
      · rw [h1, List.filterMap_cons, hget]
      · intro k
        rw [h2 k]
        by_cases hk : k = e.Name
        · subst hk; simp [hget]
        · simp [hk]
    | some val =>
      simp only []
      obtain ⟨h1, h2⟩ := ih (r ++ [val]) (m.delete e.Name) hnd.2
      refine ⟨?_, ?_⟩
      · rw [h1, List.filterMap_cons, hget,
          hfm (m.delete e.Name) (fun k hk => by rw [GoMap.get_delete, if_neg hk])]
        simp
      · intro k
        rw [h2 k, GoMap.get_delete]
        by_cases hk : k = e.Name
        · subst hk; simp
        · simp [hk]

theorem emitNew_single (m : GoMap EnvVar) (v : EnvVar) (r : List EnvVar) :
    emitNew m [v] r = match m.get v.Name with
      | some val => r ++ [val]
      | none => r := rfl

/-- Overwriting a name already present, as a map over the existing list. -/
theorem uniqueAppendOrOverwriteEnvVars_overwrite (existing : List EnvVar) (v : EnvVar)
    (hnd : (existing.map EnvVar.Name).Nodup) (hv : v.Name ∈ existing.map EnvVar.Name) :
    uniqueAppendOrOverwriteEnvVars existing [v] =
      existing.map (fun e => if e.Name = v.Name then v else e) := by
  unfold uniqueAppendOrOverwriteEnvVars
  simp only []
  obtain ⟨h1, h2⟩ := emitExisting_nodup existing []
    (envsIntoMap (envsIntoMap GoMap.empty existing) [v]) hnd
  rw [emitNew_single, h2 v.Name, if_pos hv, h1]
  simp only [List.nil_append]
  rw [← List.filterMap_eq_map]
  apply List.filterMap_congr
  intro e he
  show (envsIntoMap (envsIntoMap GoMap.empty existing) [v]).get e.Name = _
  rw [envsIntoMap_cons]
  show ((envsIntoMap GoMap.empty existing).set v.Name v).get e.Name = _
  rw [GoMap.get_set]
  by_cases h : e.Name = v.Name
  · simp [h]
  · simp [h, envsIntoMap_get_of_mem existing GoMap.empty e hnd he]

/-! ## Claims on `uniqueAppendOrOverwriteEnvVars` -/

/-- C1: for an existing list with pairwise distinct names and a variable `v` whose name
occurs in it, `uniqueAppendOrOverwriteEnvVars(existing, v)` has the length of `existing`,
carries the same name at every index, holds `v` at the index where the name of `v` occurred,
and leaves every other entry unchanged. -/
theorem C1_overwrite_in_place (existing : List EnvVar) (v : EnvVar)
    (hnd : (existing.map EnvVar.Name).Nodup) (hv : v.Name ∈ existing.map EnvVar.Name) :
    (uniqueAppendOrOverwriteEnvVars existing [v]).length = existing.length ∧
    (∀ (i : Nat) (e : EnvVar), existing[i]? = some e →
      ∃ o, (uniqueAppendOrOverwriteEnvVars existing [v])[i]? = some o ∧ o.Name = e.Name) ∧
    (∀ (i : Nat) (e : EnvVar), existing[i]? = some e → e.Name = v.Name →
      (uniqueAppendOrOverwriteEnvVars existing [v])[i]? = some v) ∧
    (∀ (i : Nat) (e : EnvVar), existing[i]? = some e → e.Name ≠ v.Name →
      (uniqueAppendOrOverwriteEnvVars existing [v])[i]? = some e) := by
  rw [uniqueAppendOrOverwriteEnvVars_overwrite existing v hnd hv]
  refine ⟨by simp, ?_, ?_, ?_⟩
  · intro i e hi
    refine ⟨if e.Name = v.Name then v else e, by simp [List.getElem?_map, hi], ?_⟩
    by_cases h : e.Name = v.Name
    · simp [h]
    · simp [h]
  · intro i e hi h
    simp [List.getElem?_map, hi, h]
  · intro i e hi h
    simp [List.getElem?_map, hi, h]

/-- Witness of C1: `[A=1, B=2]` overwritten with `B=9`. -/
theorem C1_overwrite_in_place_witness :
    (([⟨"A", "1", none⟩, ⟨"B", "2", none⟩] : List EnvVar).map EnvVar.Name).Nodup ∧
    (⟨"B", "9", none⟩ : EnvVar).Name ∈
      ([⟨"A", "1", none⟩, ⟨"B", "2", none⟩] : List EnvVar).map EnvVar.Name ∧
    (uniqueAppendOrOverwriteEnvVars [⟨"A", "1", none⟩, ⟨"B", "2", none⟩]
        [⟨"B", "9", none⟩])[1]? = some ⟨"B", "9", none⟩ :=
  ⟨by decide, by decide,
    (C1_overwrite_in_place [⟨"A", "1", none⟩, ⟨"B", "2", none⟩] ⟨"B", "9", none⟩
      (by decide) (by decide)).2.2.1 1 ⟨"B", "2", none⟩ (by decide) (by decide)⟩

/-- C2: for an existing list with pairwise distinct names and a variable `v` whose name does
not occur in it, `uniqueAppendOrOverwriteEnvVars(existing, v)` is `existing` followed by `v`. -/
theorem C2_append_new_name (existing : List EnvVar) (v : EnvVar)
    (hnd : (existing.map EnvVar.Name).Nodup) (hv : v.Name ∉ existing.map EnvVar.Name) :
    uniqueAppendOrOverwriteEnvVars existing [v] = existing ++ [v] := by
  unfold uniqueAppendOrOverwriteEnvVars
  simp only []
  obtain ⟨h1, h2⟩ := emitExisting_nodup existing []
    (envsIntoMap (envsIntoMap GoMap.empty existing) [v]) hnd
  have hmap : ∀ k, (envsIntoMap (envsIntoMap GoMap.empty existing) [v]).get k =
      if k = v.Name then some v else (envsIntoMap GoMap.empty existing).get k := fun _ => rfl
  rw [emitNew_single, h2 v.Name, if_neg hv, hmap v.Name, if_pos rfl, h1]
  simp only [List.nil_append]
  congr 1
  have hsome : existing.filterMap
      (fun e => (envsIntoMap (envsIntoMap GoMap.empty existing) [v]).get e.Name) =
      existing.filterMap some := by
    apply List.filterMap_congr
    intro e he
    have hne : e.Name ≠ v.Name := fun h => hv (h ▸ List.mem_map_of_mem EnvVar.Name he)
    rw [hmap, if_neg hne, envsIntoMap_get_of_mem existing GoMap.empty e hnd he]
  rw [hsome, List.filterMap_some]

/-- Witness of C2: `[A=1, B=2]` extended with `C=3`. -/
theorem C2_append_new_name_witness :
    (([⟨"A", "1", none⟩, ⟨"B", "2", none⟩] : List EnvVar).map EnvVar.Name).Nodup ∧
    (⟨"C", "3", none⟩ : EnvVar).Name ∉
      ([⟨"A", "1", none⟩, ⟨"B", "2", none⟩] : List EnvVar).map EnvVar.Name ∧
    uniqueAppendOrOverwriteEnvVars [⟨"A", "1", none⟩, ⟨"B", "2", none⟩] [⟨"C", "3", none⟩] =
      [⟨"A", "1", none⟩, ⟨"B", "2", none⟩] ++ [⟨"C", "3", none⟩] :=
  ⟨by decide, by decide,
    C2_append_new_name [⟨"A", "1", none⟩, ⟨"B", "2", none⟩] ⟨"C", "3", none⟩
      (by decide) (by decide)⟩

/-- C3 as stated fails when the variables to append repeat a name: appending `B=1, B=2` to
the empty list returns `B=2` twice, so the returned list holds two entries with the same
name. -/
theorem C3_repeated_new_name_emitted_twice :
    uniqueAppendOrOverwriteEnvVars [] [⟨"B", "1", none⟩, ⟨"B", "2", none⟩] =
      [⟨"B", "2", none⟩, ⟨"B", "2", none⟩] ∧
    ¬ ((uniqueAppendOrOverwriteEnvVars [] [⟨"B", "1", none⟩, ⟨"B", "2", none⟩]).map
        EnvVar.Name).Nodup := by
  decide

/-! ## Lemmas on the volume and volume-mount carry-forward -/

theorem volumeNamesMap_get (volumes : List Volume) (k : String) :
    (volumeNamesMap volumes).get k =
      if k ∈ volumes.map Volume.Name then some true else none := by
  have key : ∀ (l : List Volume) (m : GoMap Bool),
      (l.foldl (fun m volume => m.set volume.Name true) m).get k =
        if k ∈ l.map Volume.Name then some true else m.get k := by
    intro l
    induction l with
    | nil => intro m; simp
    | cons a rest ih =>
      intro m
      rw [List.foldl_cons, ih, GoMap.get_set]
      by_cases h1 : k ∈ rest.map Volume.Name
      · simp [h1]
      · by_cases h2 : k = a.Name
        · simp [h2]
        · simp [h1, h2]
  rw [volumeNamesMap, key]
  rfl

theorem volumeMountNamesMap_get (mounts : List VolumeMount) (k : String) :
    (volumeMountNamesMap mounts).get k =
      if k ∈ mounts.map VolumeMount.Name then some true else none := by
  have key : ∀ (l : List VolumeMount) (m : GoMap Bool),
      (l.foldl (fun m volumeMount => m.set volumeMount.Name true) m).get k =
        if k ∈ l.map VolumeMount.Name then some true else m.get k := by
    intro l
    induction l with
    | nil => intro m; simp
    | cons a rest ih =>
      intro m
      rw [List.foldl_cons, ih, GoMap.get_set]
      by_cases h1 : k ∈ rest.map VolumeMount.Name
      · simp [h1]
      · by_cases h2 : k = a.Name
        · simp [h2]
        · simp [h1, h2]
  rw [volumeMountNamesMap, key]
  rfl

/-- The volume loop appends, in live order, the live volumes that pass both tests. -/
theorem appendMissingVolumes_eq (m : GoMap Bool) (live volumes : List Volume) :
    appendMissingVolumes m live volumes =
      volumes ++ live.filter
        (fun v => decide (v.Name ≠ supervisordVolumeName) && (m.get v.Name).isNone) := by
  induction live generalizing volumes with
  | nil => simp [appendMissingVolumes]
  | cons a rest ih =>
    have step : appendMissingVolumes m (a :: rest) volumes =
        appendMissingVolumes m rest
          (if a.Name = supervisordVolumeName then volumes
            else match m.get a.Name with
              | none => volumes ++ [a]
              | some _ => volumes) := rfl
    rw [step, ih]
    by_cases h : a.Name = supervisordVolumeName
    · simp [h]
    · cases hg : m.get a.Name with
      | none => simp [h, hg]
      | some b => simp [h, hg]

/-- The mount loop appends, in live order, the live mounts that pass both tests. -/
theorem appendMissingVolumeMounts_eq (m : GoMap Bool) (live mounts : List VolumeMount) :
    appendMissingVolumeMounts m live mounts =
      mounts ++ live.filter
        (fun v => decide (v.Name ≠ supervisordVolumeName) && (m.get v.Name).isNone) := by
  induction live generalizing mounts with
  | nil => simp [appendMissingVolumeMounts]
  | cons a rest ih =>
    have step : appendMissingVolumeMounts m (a :: rest) mounts =
        appendMissingVolumeMounts m rest
          (if a.Name = supervisordVolumeName then mounts
            else match m.get a.Name with
              | none => mounts ++ [a]
              | some _ => mounts) := rfl
    rw [step, ih]
    by_cases h : a.Name = supervisordVolumeName
    · simp [h]
    · cases hg : m.get a.Name with
      | none => simp [h, hg]
      | some b => simp [h, hg]

/-- If some container carries the live container's name, the first such container is in the
result with the missing mounts appended. -/
theorem copyVolumeMounts_mem (matchingContainer : Container) (containers : List Container)
    (h : ∃ c ∈ containers, c.Name = matchingContainer.Name) :
    ∃ c ∈ containers, c.Name = matchingContainer.Name ∧
      { c with
          VolumeMounts :=
            appendMissingVolumeMounts (volumeMountNamesMap c.VolumeMounts)
              matchingContainer.VolumeMounts c.VolumeMounts } ∈
        copyVolumeMounts matchingContainer containers := by
  induction containers with
  | nil => simp at h
  | cons a rest ih =>
    by_cases ha : a.Name = matchingContainer.Name
    · exact ⟨a, List.mem_cons_self _ _, ha, by simp [copyVolumeMounts, ha]⟩
    · have h' : ∃ c ∈ rest, c.Name = matchingContainer.Name := by
        obtain ⟨c, hc, hn⟩ := h
        rcases List.mem_cons.1 hc with rfl | hc'
        · exact absurd hn ha
        · exact ⟨c, hc', hn⟩
      obtain ⟨c, hc, hn, hmem⟩ := ih h'
      exact ⟨c, List.mem_cons_of_mem _ hc, hn, by simp [copyVolumeMounts, ha, hmem]⟩

/-! ## Claims on `copyVolumesAndVolumeMounts` -/

/-- C4: after `copyVolumesAndVolumeMounts` the volume list of the new spec is its original
volume list followed by, in live order, exactly the live volumes whose name is neither the
reserved name `odo-supervisord-shared-data` nor among the original names of the new spec; an
entry whose name the new spec already had is the new spec's entry. Live `[A, B, bootstrap]`
and new `[A, C]` merge to `[A, C, B]`. -/
theorem C4_volumes_merge (dc currentDC : DeploymentConfig) (matchingContainer : Container) :
    (copyVolumesAndVolumeMounts dc currentDC matchingContainer).Spec.Template.Spec.Volumes =
      dc.Spec.Template.Spec.Volumes ++
        currentDC.Spec.Template.Spec.Volumes.filter
          (fun v => decide (v.Name ≠ supervisordVolumeName) &&
            decide (v.Name ∉ dc.Spec.Template.Spec.Volumes.map Volume.Name)) ∧
    (∀ v ∈ (copyVolumesAndVolumeMounts dc currentDC matchingContainer).Spec.Template.Spec.Volumes,
      v.Name ∈ dc.Spec.Template.Spec.Volumes.map Volume.Name →
        v ∈ dc.Spec.Template.Spec.Volumes) ∧
    (copyVolumesAndVolumeMounts
        { Spec := { Template := { Spec := { Volumes := [⟨"A", "new"⟩, ⟨"C", "new"⟩] } } } }
        { Spec := { Template := { Spec := { Volumes :=
            [⟨"A", "live"⟩, ⟨"B", "live"⟩, ⟨"odo-supervisord-shared-data", "live"⟩] } } } }
        { Name := "app" }).Spec.Template.Spec.Volumes =
      [⟨"A", "new"⟩, ⟨"C", "new"⟩, ⟨"B", "live"⟩] := by
  have hvol : (copyVolumesAndVolumeMounts dc currentDC matchingContainer).Spec.Template.Spec.Volumes =
      dc.Spec.Template.Spec.Volumes ++
        currentDC.Spec.Template.Spec.Volumes.filter
          (fun v => decide (v.Name ≠ supervisordVolumeName) &&
            decide (v.Name ∉ dc.Spec.Template.Spec.Volumes.map Volume.Name)) := by
    show appendMissingVolumes _ _ _ = _
    rw [appendMissingVolumes_eq]
    congr 1
    apply List.filter_congr
    intro v _
    rw [volumeNamesMap_get]
    by_cases h : v.Name ∈ dc.Spec.Template.Spec.Volumes.map Volume.Name
    · simp only [if_pos h]; simp [h]
    · simp only [if_neg h]; simp [h]
  refine ⟨hvol, ?_, by decide⟩
  intro v hv hname
  rw [hvol] at hv
  rcases List.mem_append.1 hv with h | h
  · exact h
  · have := (List.mem_filter.1 h).2
    simp only [Bool.and_eq_true, decide_eq_true_eq] at this
    exact absurd hname this.2

/-- C5 as stated fails: with a new spec whose only container is named `app-new` and a live
container `app` mounting `data`, no container of the merged spec has a mount named `data`. -/
theorem C5_mount_lost_without_matching_container :
    ¬ (∀ vm ∈ ({ Name := "app", VolumeMounts := [{ Name := "data" }] } : Container).VolumeMounts,
        vm.Name ≠ supervisordVolumeName →
        ∃ c ∈ (copyVolumesAndVolumeMounts
            { Spec := { Template := { Spec := { Containers := [{ Name := "app-new" }] } } } }
            {}
            { Name := "app", VolumeMounts := [{ Name := "data" }] }).Spec.Template.Spec.Containers,
          ∃ m ∈ c.VolumeMounts, m.Name = vm.Name) := by
  decide

/-- C5, amended: when the new spec has a container with the live container's name, every
volume mount of the live container whose name is not `odo-supervisord-shared-data` is present
by name among the mounts of a container of the merged spec that carries that name. -/
theorem C5_mounts_survive (dc currentDC : DeploymentConfig) (matchingContainer : Container)
    (hmatch : ∃ c ∈ dc.Spec.Template.Spec.Containers, c.Name = matchingContainer.Name) :
    ∀ vm ∈ matchingContainer.VolumeMounts, vm.Name ≠ supervisordVolumeName →
      ∃ c ∈ (copyVolumesAndVolumeMounts dc currentDC
          matchingContainer).Spec.Template.Spec.Containers,
        c.Name = matchingContainer.Name ∧ ∃ m ∈ c.VolumeMounts, m.Name = vm.Name := by
  intro vm hvm hne
  obtain ⟨c, _, hn, hmem⟩ := copyVolumeMounts_mem matchingContainer _ hmatch
  refine ⟨_, hmem, hn, ?_⟩
  show ∃ m ∈ appendMissingVolumeMounts _ _ _, m.Name = vm.Name
  rw [appendMissingVolumeMounts_eq]
  by_cases hin : vm.Name ∈ c.VolumeMounts.map VolumeMount.Name
  · obtain ⟨m, hm, hmn⟩ := List.mem_map.1 hin
    exact ⟨m, List.mem_append_left _ hm, hmn⟩
  · refine ⟨vm, List.mem_append_right _ (List.mem_filter.2 ⟨hvm, ?_⟩), rfl⟩
    rw [volumeMountNamesMap_get, if_neg hin]
    simp [hne]

/-- Witness of C5 amended: new container `app` mounting `src`, live container `app`
mounting `data` and the supervisord volume. -/
theorem C5_mounts_survive_witness :
    (∃ c ∈ ({ Spec := { Template := { Spec := { Containers :=
          [{ Name := "app", VolumeMounts := [{ Name := "src" }] }] } } } } :
          DeploymentConfig).Spec.Template.Spec.Containers,
        c.Name = ({ Name := "app", VolumeMounts :=
          [{ Name := "data" }, { Name := "odo-supervisord-shared-data" }] } : Container).Name) ∧
    ∀ vm ∈ ({ Name := "app", VolumeMounts :=
          [{ Name := "data" }, { Name := "odo-supervisord-shared-data" }] } :
          Container).VolumeMounts,
      vm.Name ≠ supervisordVolumeName →
      ∃ c ∈ (copyVolumesAndVolumeMounts
          { Spec := { Template := { Spec := { Containers :=
            [{ Name := "app", VolumeMounts := [{ Name := "src" }] }] } } } }
          {}
          { Name := "app", VolumeMounts :=
            [{ Name := "data" }, { Name := "odo-supervisord-shared-data" }] }
          ).Spec.Template.Spec.Containers,
        c.Name = ({ Name := "app", VolumeMounts :=
          [{ Name := "data" }, { Name := "odo-supervisord-shared-data" }] } : Container).Name ∧
        ∃ m ∈ c.VolumeMounts, m.Name = vm.Name :=
  ⟨by decide, C5_mounts_survive _ _ _ (by decide)⟩

/-! ## Lemmas on `WaitAndGetDC`, `StartDeployment` and the tail of `PatchCurrentDC` -/

/-- After a successful `Watch` the calls are the watch and its `Stop`, and the loop decides
what is returned. -/
theorem WaitAndGetDC_opened (c : Client) (name : String) (desiredRevision : Int) (timeout : Nat)
    (waitCond : dcRollOutWait)
    (hopen : (c.dcWatch c.Namespace ("metadata.name=" ++ name)).2 = none) :
    WaitAndGetDC c name desiredRevision timeout waitCond =
      ([Call.dcWatch c.Namespace ("metadata.name=" ++ name), Call.watchStop],
        GoOutcome.returned (waitAndGetDCLoop desiredRevision waitCond
          ((c.dcWatch c.Namespace ("metadata.name=" ++ name)).1.results timeout))) := by
  unfold WaitAndGetDC
  simp only [hopen]

/-- After a failed `Watch` the only call is the watch, and the wait panics. -/
theorem WaitAndGetDC_failed (c : Client) (name : String) (desiredRevision : Int) (timeout : Nat)
    (waitCond : dcRollOutWait) (err : String)
    (hfail : (c.dcWatch c.Namespace ("metadata.name=" ++ name)).2 = some err) :
    WaitAndGetDC c name desiredRevision timeout waitCond =
      ([Call.dcWatch c.Namespace ("metadata.name=" ++ name)],
        GoOutcome.panicked nilDereference) := by
  unfold WaitAndGetDC
  simp only [hfail]

/-- One invocation of `WaitAndGetDC` opens one watch and issues no update. -/
theorem WaitAndGetDC_calls (c : Client) (name : String) (desiredRevision : Int) (timeout : Nat)
    (waitCond : dcRollOutWait) :
    (WaitAndGetDC c name desiredRevision timeout waitCond).1.filter Call.isWatch =
        [Call.dcWatch c.Namespace ("metadata.name=" ++ name)] ∧
      (WaitAndGetDC c name desiredRevision timeout waitCond).1.filter Call.isUpdate = [] := by
  cases h : (c.dcWatch c.Namespace ("metadata.name=" ++ name)).2 with
  | none =>
    rw [WaitAndGetDC_opened c name desiredRevision timeout waitCond h]
    exact ⟨rfl, rfl⟩
  | some err =>
    rw [WaitAndGetDC_failed c name desiredRevision timeout waitCond err h]
    exact ⟨rfl, rfl⟩

theorem StartDeployment_no_watch (c : Client) (deploymentName : String) :
    (StartDeployment c deploymentName).1.any Call.isWatch = false ∧
      (StartDeployment c deploymentName).1.any Call.isUpdate = false := by
  unfold StartDeployment
  split
  · simp
  · simp only []
    split <;> simp [Call.isWatch, Call.isUpdate]

theorem StartDeployment_filter (c : Client) (deploymentName : String) :
    (StartDeployment c deploymentName).1.filter Call.isWatch = [] ∧
      (StartDeployment c deploymentName).1.filter Call.isUpdate = [] := by
  have h := StartDeployment_no_watch c deploymentName
  rw [List.any_eq_false, List.any_eq_false] at h
  refine ⟨?_, ?_⟩
  · rw [List.filter_eq_nil_iff]
    intro a ha
    exact h.1 a ha
  · rw [List.filter_eq_nil_iff]
    intro a ha
    exact h.2 a ha

theorem patchWait_calls (c : Client) (ucp : UpdateComponentParams) (calls : List Call) :
    (patchWait c ucp calls).calls =
      calls ++ (WaitAndGetDC c ucp.CommonObjectMeta.Name
        (int64Add ucp.ExistingDC.Status.LatestVersion 1) OcUpdateTimeout
        ucp.DcRollOutWaitCond).1 := by
  unfold patchWait
  simp only []
  split <;> rfl

theorem patchWait_existingDC (c : Client) (ucp : UpdateComponentParams) (calls : List Call) :
    (patchWait c ucp calls).existingDC = ucp.ExistingDC := by
  unfold patchWait
  simp only []
  split <;> rfl

/-- The tail returns the wrapped error of the wait, returns nil after a wait without error,
and panics when the wait panics. -/
theorem patchWait_outcome (c : Client) (ucp : UpdateComponentParams) (calls : List Call) :
    (∀ obj err,
      (WaitAndGetDC c ucp.CommonObjectMeta.Name
        (int64Add ucp.ExistingDC.Status.LatestVersion 1) OcUpdateTimeout
        ucp.DcRollOutWaitCond).2 = GoOutcome.returned (obj, some err) →
      (patchWait c ucp calls).err =
          some (wrapErr err
            ("unable to wait for DeploymentConfig " ++ ucp.CommonObjectMeta.Name ++
              " to update")) ∧
        (patchWait c ucp calls).panicked = none) ∧
    (∀ obj,
      (WaitAndGetDC c ucp.CommonObjectMeta.Name
        (int64Add ucp.ExistingDC.Status.LatestVersion 1) OcUpdateTimeout
        ucp.DcRollOutWaitCond).2 = GoOutcome.returned (obj, none) →
      (patchWait c ucp calls).err = none ∧ (patchWait c ucp calls).panicked = none) ∧
    (∀ message,
      (WaitAndGetDC c ucp.CommonObjectMeta.Name
        (int64Add ucp.ExistingDC.Status.LatestVersion 1) OcUpdateTimeout
        ucp.DcRollOutWaitCond).2 = GoOutcome.panicked message →
      (patchWait c ucp calls).err = none ∧
        (patchWait c ucp calls).panicked = some message) := by
  refine ⟨?_, ?_, ?_⟩
  · intro obj err h
    simp [patchWait, h]
  · intro obj h
    simp [patchWait, h]
  · intro message h
    simp [patchWait, h]

/-- Wrapping with one message keeps different causes apart. -/
theorem wrapErr_inj (e1 e2 message : String) (h : wrapErr e1 message = wrapErr e2 message) :
    e1 = e2 := by
  unfold wrapErr at h
  have hd := congrArg String.data h
  simp only [String.data_append] at hd
  exact String.ext (List.append_cancel_left hd)

/-- In 64-bit range below the maximum, Go's `+ 1` is the successor. -/
theorem int64Add_one (a : Int) (h0 : -2 ^ 63 ≤ a) (h1 : a < 2 ^ 63 - 1) :
    int64Add a 1 = a + 1 := by
  unfold int64Add
  rw [Int.emod_eq_of_lt (by omega) (by omega)]
  omega

/-! ## Claims on `PatchCurrentDC` -/

/-- C6: in a non-git reconcile in which the optional transform, the volume step and the
update call succeed and `reflect.DeepEqual` finds the template returned by the update equal
to the live object's template, `PatchCurrentDC` returns no error, does not panic, and its only
call is the update: no watch is opened (`WaitAndGetDC` is not called) and no rollout is
instantiated. -/
theorem C6_unchanged_template_skips_wait (deps : PatchDeps) (c : Client)
    (dc : DeploymentConfig) (prePatchDCHandler : Option dcStructUpdater)
    (existingCmpContainer : Container) (ucp : UpdateComponentParams)
    (dc1 dc2 updatedDc : DeploymentConfig)
    (h1 : runPrePatch prePatchDCHandler
      (copyVolumesAndVolumeMounts dc ucp.ExistingDC existingCmpContainer) = .ok dc1)
    (h2 : deps.addOrRemoveVolumeAndVolumeMount c dc1 ucp.StorageToBeMounted
      ucp.StorageToBeUnMounted = .ok dc2)
    (h3 : c.dcUpdate c.Namespace (patchModifiedDC ucp.ExistingDC dc2) = .ok updatedDc)
    (h4 : deps.reflectDeepEqual updatedDc.Spec.Template ucp.ExistingDC.Spec.Template = true) :
    (PatchCurrentDC deps c dc prePatchDCHandler existingCmpContainer ucp false).err = none ∧
    (PatchCurrentDC deps c dc prePatchDCHandler existingCmpContainer ucp false).panicked =
      none ∧
    (PatchCurrentDC deps c dc prePatchDCHandler existingCmpContainer ucp false).calls =
      [Call.dcUpdate c.Namespace (patchModifiedDC ucp.ExistingDC dc2)] ∧
    (PatchCurrentDC deps c dc prePatchDCHandler existingCmpContainer ucp false).calls.any
      Call.isWatch = false ∧
    (PatchCurrentDC deps c dc prePatchDCHandler existingCmpContainer ucp false).calls.any
      Call.isInstantiate = false := by
  simp [PatchCurrentDC, h1, h2, h3, h4, Call.isWatch, Call.isInstantiate]

/-- Witness of C6: the regenerated DC has the live template, the update echoes it and
`reflect.DeepEqual` finds the two templates equal. -/
theorem C6_unchanged_template_skips_wait_witness :
    sampleDeps.reflectDeepEqual
        (patchModifiedDC sampleUcp.ExistingDC
          (copyVolumesAndVolumeMounts sampleSameDC sampleUcp.ExistingDC
            sampleContainer)).Spec.Template sampleUcp.ExistingDC.Spec.Template = true ∧
    (PatchCurrentDC sampleDeps sampleClient sampleSameDC none sampleContainer
      sampleUcp false).err = none ∧
    (PatchCurrentDC sampleDeps sampleClient sampleSameDC none sampleContainer
      sampleUcp false).panicked = none ∧
    (PatchCurrentDC sampleDeps sampleClient sampleSameDC none sampleContainer
      sampleUcp false).calls =
      [Call.dcUpdate sampleClient.Namespace (patchModifiedDC sampleUcp.ExistingDC
        (copyVolumesAndVolumeMounts sampleSameDC sampleUcp.ExistingDC sampleContainer))] ∧
    (PatchCurrentDC sampleDeps sampleClient sampleSameDC none sampleContainer
      sampleUcp false).calls.any Call.isWatch = false ∧
    (PatchCurrentDC sampleDeps sampleClient sampleSameDC none sampleContainer
      sampleUcp false).calls.any Call.isInstantiate = false :=
  ⟨by decide,
    C6_unchanged_template_skips_wait sampleDeps sampleClient sampleSameDC none
      sampleContainer sampleUcp
      (copyVolumesAndVolumeMounts sampleSameDC sampleUcp.ExistingDC sampleContainer)
      (copyVolumesAndVolumeMounts sampleSameDC sampleUcp.ExistingDC sampleContainer)
      (patchModifiedDC sampleUcp.ExistingDC
        (copyVolumesAndVolumeMounts sampleSameDC sampleUcp.ExistingDC sampleContainer))
      rfl rfl rfl (by decide)⟩

/-- C7: let the optional transform, the volume step and the update call of a run of
`PatchCurrentDC` succeed, and let the run be image-driven (`isGit`) with a successful rollout
instantiation, or not image-driven with templates that `reflect.DeepEqual` finds different
(and a template that can be marshalled for the log line). Then the run reaches the wait: its
calls are the update call, the instantiate call if image-driven, and then the calls of one
invocation of `WaitAndGetDC` with `ucp`'s name, the live object's `Status.LatestVersion + 1`
(in `int64` arithmetic, whatever revision the updated object carries), `OcUpdateTimeout` and
the caller's rollout condition. Exactly one watch is opened and exactly one update is issued.
The run returns an error exactly when that invocation returns an error (the error is the
wrapped error of the wait), returns nil exactly when it returns without error, and panics
exactly when it panics. -/
theorem C7_wait_once_on_live_revision (deps : PatchDeps) (c : Client)
    (dc : DeploymentConfig) (prePatchDCHandler : Option dcStructUpdater)
    (existingCmpContainer : Container) (ucp : UpdateComponentParams) (isGit : Bool)
    (dc1 dc2 updatedDc : DeploymentConfig)
    (h1 : runPrePatch prePatchDCHandler
      (copyVolumesAndVolumeMounts dc ucp.ExistingDC existingCmpContainer) = .ok dc1)
    (h2 : deps.addOrRemoveVolumeAndVolumeMount c dc1 ucp.StorageToBeMounted
      ucp.StorageToBeUnMounted = .ok dc2)
    (h3 : c.dcUpdate c.Namespace (patchModifiedDC ucp.ExistingDC dc2) = .ok updatedDc)
    (hreach :
      (isGit = true ∧ (StartDeployment c updatedDc.ObjectMeta.Name).2.2 = none) ∨
      (isGit = false ∧
        deps.reflectDeepEqual updatedDc.Spec.Template ucp.ExistingDC.Spec.Template = false ∧
        ∃ bytes, deps.jsonMarshal updatedDc.Spec.Template = .ok bytes)) :
    (PatchCurrentDC deps c dc prePatchDCHandler existingCmpContainer ucp isGit).calls =
      Call.dcUpdate c.Namespace (patchModifiedDC ucp.ExistingDC dc2) ::
        (if isGit = true then (StartDeployment c updatedDc.ObjectMeta.Name).1 else []) ++
          (WaitAndGetDC c ucp.CommonObjectMeta.Name
            (int64Add ucp.ExistingDC.Status.LatestVersion 1) OcUpdateTimeout
            ucp.DcRollOutWaitCond).1 ∧
    (PatchCurrentDC deps c dc prePatchDCHandler existingCmpContainer ucp
        isGit).calls.filter Call.isWatch =
      [Call.dcWatch c.Namespace ("metadata.name=" ++ ucp.CommonObjectMeta.Name)] ∧
    ((PatchCurrentDC deps c dc prePatchDCHandler existingCmpContainer ucp
      isGit).calls.filter Call.isUpdate).length = 1 ∧
    (∀ err,
      (PatchCurrentDC deps c dc prePatchDCHandler existingCmpContainer ucp isGit).err =
          some (wrapErr err
            ("unable to wait for DeploymentConfig " ++ ucp.CommonObjectMeta.Name ++
              " to update")) ↔
        ∃ obj, (WaitAndGetDC c ucp.CommonObjectMeta.Name
          (int64Add ucp.ExistingDC.Status.LatestVersion 1) OcUpdateTimeout
          ucp.DcRollOutWaitCond).2 = GoOutcome.returned (obj, some err)) ∧
    ((PatchCurrentDC deps c dc prePatchDCHandler existingCmpContainer ucp
        isGit).err.isSome = true ↔
      ∃ obj err, (WaitAndGetDC c ucp.CommonObjectMeta.Name
        (int64Add ucp.ExistingDC.Status.LatestVersion 1) OcUpdateTimeout
        ucp.DcRollOutWaitCond).2 = GoOutcome.returned (obj, some err)) ∧
    ((PatchCurrentDC deps c dc prePatchDCHandler existingCmpContainer ucp isGit).err = none ∧
        (PatchCurrentDC deps c dc prePatchDCHandler existingCmpContainer ucp
          isGit).panicked = none ↔
      ∃ obj, (WaitAndGetDC c ucp.CommonObjectMeta.Name
        (int64Add ucp.ExistingDC.Status.LatestVersion 1) OcUpdateTimeout
        ucp.DcRollOutWaitCond).2 = GoOutcome.returned (obj, none)) ∧
    (∀ message,
      (PatchCurrentDC deps c dc prePatchDCHandler existingCmpContainer ucp
          isGit).panicked = some message ↔
        (WaitAndGetDC c ucp.CommonObjectMeta.Name
          (int64Add ucp.ExistingDC.Status.LatestVersion 1) OcUpdateTimeout
          ucp.DcRollOutWaitCond).2 = GoOutcome.panicked message) := by
  have hP : PatchCurrentDC deps c dc prePatchDCHandler existingCmpContainer ucp isGit =
      patchWait c ucp (Call.dcUpdate c.Namespace (patchModifiedDC ucp.ExistingDC dc2) ::
        (if isGit = true then (StartDeployment c updatedDc.ObjectMeta.Name).1 else [])) := by
    rcases hreach with ⟨hgit, hstart⟩ | ⟨hgit, hdiff, bytes, hbytes⟩
    · subst hgit
      simp [PatchCurrentDC, h1, h2, h3, hstart]
    · subst hgit
      simp [PatchCurrentDC, h1, h2, h3, hdiff, hbytes]
  have hstart := StartDeployment_filter c updatedDc.ObjectMeta.Name
  have hwait := WaitAndGetDC_calls c ucp.CommonObjectMeta.Name
    (int64Add ucp.ExistingDC.Status.LatestVersion 1) OcUpdateTimeout ucp.DcRollOutWaitCond
  have hout := patchWait_outcome c ucp
    (Call.dcUpdate c.Namespace (patchModifiedDC ucp.ExistingDC dc2) ::
      (if isGit = true then (StartDeployment c updatedDc.ObjectMeta.Name).1 else []))
  rw [hP]
  refine ⟨?_, ?_, ?_, ?_, ?_, ?_, ?_⟩
  · rw [patchWait_calls]
  · rw [patchWait_calls, List.filter_append, hwait.1]
    cases isGit with
    | true => simp [List.filter_cons, Call.isWatch, hstart.1]
    | false => simp [List.filter_cons, Call.isWatch]
  · rw [patchWait_calls, List.filter_append, hwait.2]
    cases isGit with
    | true => simp [List.filter_cons, Call.isUpdate, hstart.2]
    | false => simp [List.filter_cons, Call.isUpdate]
  · intro err
    cases hw : (WaitAndGetDC c ucp.CommonObjectMeta.Name
        (int64Add ucp.ExistingDC.Status.LatestVersion 1) OcUpdateTimeout
        ucp.DcRollOutWaitCond).2 with
    | panicked message =>
      rw [(hout.2.2 message hw).1]
      simp
    | returned value =>
      obtain ⟨obj, e⟩ := value
      cases e with
      | none =>
        rw [(hout.2.1 obj hw).1]
        simp
      | some e =>
        rw [(hout.1 obj e hw).1]
        constructor
        · intro h
          have he : e = err := wrapErr_inj e err _ (Option.some.inj h)
          exact ⟨obj, by rw [he]⟩
        · rintro ⟨obj2, h⟩
          have he : e = err := by
            have h2 := GoOutcome.returned.inj h
            exact Option.some.inj (Prod.mk.inj h2).2
          rw [he]
  · cases hw : (WaitAndGetDC c ucp.CommonObjectMeta.Name
        (int64Add ucp.ExistingDC.Status.LatestVersion 1) OcUpdateTimeout
        ucp.DcRollOutWaitCond).2 with
    | panicked message =>
      rw [(hout.2.2 message hw).1]
      simp
    | returned value =>
      obtain ⟨obj, e⟩ := value
      cases e with
      | none =>
        rw [(hout.2.1 obj hw).1]
        simp
      | some e =>
        rw [(hout.1 obj e hw).1]
        simp
  · cases hw : (WaitAndGetDC c ucp.CommonObjectMeta.Name
        (int64Add ucp.ExistingDC.Status.LatestVersion 1) OcUpdateTimeout
        ucp.DcRollOutWaitCond).2 with
    | panicked message =>
      rw [(hout.2.2 message hw).2]
      simp
    | returned value =>
      obtain ⟨obj, e⟩ := value
      cases e with
      | none =>
        rw [(hout.2.1 obj hw).1, (hout.2.1 obj hw).2]
        simp
      | some e =>
        rw [(hout.1 obj e hw).1]
        simp
  · intro message
    cases hw : (WaitAndGetDC c ucp.CommonObjectMeta.Name
        (int64Add ucp.ExistingDC.Status.LatestVersion 1) OcUpdateTimeout
        ucp.DcRollOutWaitCond).2 with
    | panicked m =>
      rw [(hout.2.2 m hw).2]
      simp
    | returned value =>
      obtain ⟨obj, e⟩ := value
      cases e with
      | none =>
        rw [(hout.2.1 obj hw).2]
        simp
      | some e =>
        rw [(hout.1 obj e hw).2]
        simp

/-- Witness of C7: a non-git reconcile with a changed image. The live object is at
revision 2 and the update returns an object at revision 5; the run waits for revision 3, the
watch delivers revisions 2, 3 and 4, and the run returns nil. -/
theorem C7_wait_once_on_live_revision_witness :
    sampleDeps.reflectDeepEqual
        ({ patchModifiedDC sampleUcp.ExistingDC
            (copyVolumesAndVolumeMounts sampleNewDC sampleUcp.ExistingDC sampleContainer) with
          Status := { LatestVersion := 5 } } : DeploymentConfig).Spec.Template
        sampleUcp.ExistingDC.Spec.Template = false ∧
    int64Add sampleUcp.ExistingDC.Status.LatestVersion 1 = 3 ∧
    WaitAndGetDC sampleRevisedClient sampleUcp.CommonObjectMeta.Name 3 OcUpdateTimeout
        sampleUcp.DcRollOutWaitCond =
      ([Call.dcWatch "myproject" "metadata.name=app", Call.watchStop],
        GoOutcome.returned
          (some { sampleLiveDC with Status := { LatestVersion := 3 } }, none)) ∧
    (PatchCurrentDC sampleDeps sampleRevisedClient sampleNewDC none sampleContainer sampleUcp
        false).calls.filter Call.isWatch =
      [Call.dcWatch sampleRevisedClient.Namespace
        ("metadata.name=" ++ sampleUcp.CommonObjectMeta.Name)] ∧
    ((PatchCurrentDC sampleDeps sampleRevisedClient sampleNewDC none sampleContainer sampleUcp
        false).err = none ∧
      (PatchCurrentDC sampleDeps sampleRevisedClient sampleNewDC none sampleContainer sampleUcp
        false).panicked = none) :=
  ⟨by decide, by decide, by decide,
    (C7_wait_once_on_live_revision sampleDeps sampleRevisedClient sampleNewDC none
      sampleContainer sampleUcp false
      (copyVolumesAndVolumeMounts sampleNewDC sampleUcp.ExistingDC sampleContainer)
      (copyVolumesAndVolumeMounts sampleNewDC sampleUcp.ExistingDC sampleContainer)
      { patchModifiedDC sampleUcp.ExistingDC
          (copyVolumesAndVolumeMounts sampleNewDC sampleUcp.ExistingDC sampleContainer) with
        Status := { LatestVersion := 5 } }
      rfl rfl rfl (Or.inr ⟨rfl, by decide, "", rfl⟩)).2.1,
    (C7_wait_once_on_live_revision sampleDeps sampleRevisedClient sampleNewDC none
      sampleContainer sampleUcp false
      (copyVolumesAndVolumeMounts sampleNewDC sampleUcp.ExistingDC sampleContainer)
      (copyVolumesAndVolumeMounts sampleNewDC sampleUcp.ExistingDC sampleContainer)
      { patchModifiedDC sampleUcp.ExistingDC
          (copyVolumesAndVolumeMounts sampleNewDC sampleUcp.ExistingDC sampleContainer) with
        Status := { LatestVersion := 5 } }
      rfl rfl rfl (Or.inr ⟨rfl, by decide, "", rfl⟩)).2.2.2.2.2.1.2
      ⟨some { sampleLiveDC with Status := { LatestVersion := 3 } }, by decide⟩⟩

/-- C8: when the transform and the volume step succeed with merged spec `merged`, the first
and only update call of `PatchCurrentDC` submits an object whose spec, annotations and labels
are those of `merged` and whose name, namespace, UID, resource version, generation and status
are those of the live object; the live object `*ucp.ExistingDC` is the same at return. -/
theorem C8_submitted_object_frame (deps : PatchDeps) (c : Client)
    (dc : DeploymentConfig) (prePatchDCHandler : Option dcStructUpdater)
    (existingCmpContainer : Container) (ucp : UpdateComponentParams) (isGit : Bool)
    (dc1 merged : DeploymentConfig)
    (h1 : runPrePatch prePatchDCHandler
      (copyVolumesAndVolumeMounts dc ucp.ExistingDC existingCmpContainer) = .ok dc1)
    (h2 : deps.addOrRemoveVolumeAndVolumeMount c dc1 ucp.StorageToBeMounted
      ucp.StorageToBeUnMounted = .ok merged) :
    ∃ submitted,
      (PatchCurrentDC deps c dc prePatchDCHandler existingCmpContainer ucp isGit).calls.head? =
        some (Call.dcUpdate c.Namespace submitted) ∧
      ((PatchCurrentDC deps c dc prePatchDCHandler existingCmpContainer ucp
        isGit).calls.filter Call.isUpdate).length = 1 ∧
      submitted =
        { ucp.ExistingDC with
            Spec := merged.Spec
            ObjectMeta :=
              { ucp.ExistingDC.ObjectMeta with
                  Annotations := merged.ObjectMeta.Annotations
                  Labels := merged.ObjectMeta.Labels } } ∧
      submitted.Spec = merged.Spec ∧
      submitted.ObjectMeta.Annotations = merged.ObjectMeta.Annotations ∧
      submitted.ObjectMeta.Labels = merged.ObjectMeta.Labels ∧
      submitted.ObjectMeta.Name = ucp.ExistingDC.ObjectMeta.Name ∧
      submitted.ObjectMeta.Namespace = ucp.ExistingDC.ObjectMeta.Namespace ∧
      submitted.ObjectMeta.UID = ucp.ExistingDC.ObjectMeta.UID ∧
      submitted.ObjectMeta.ResourceVersion = ucp.ExistingDC.ObjectMeta.ResourceVersion ∧
      submitted.ObjectMeta.Generation = ucp.ExistingDC.ObjectMeta.Generation ∧
      submitted.Status = ucp.ExistingDC.Status ∧
      (PatchCurrentDC deps c dc prePatchDCHandler existingCmpContainer ucp isGit).existingDC =
        ucp.ExistingDC := by
  refine ⟨patchModifiedDC ucp.ExistingDC merged, ?_, ?_, rfl, rfl, rfl, rfl, rfl, rfl, rfl, rfl,
    rfl, rfl, ?_⟩
  all_goals
    cases h3 : c.dcUpdate c.Namespace (patchModifiedDC ucp.ExistingDC merged) with
    | error e => simp [PatchCurrentDC, h1, h2, h3, Call.isUpdate]
    | ok updatedDc =>
      have hf := (StartDeployment_filter c updatedDc.ObjectMeta.Name).2
      have hw := (WaitAndGetDC_calls c ucp.CommonObjectMeta.Name
        (int64Add ucp.ExistingDC.Status.LatestVersion 1) OcUpdateTimeout
        ucp.DcRollOutWaitCond).2
      cases isGit with
      | true =>
        cases h4 : (StartDeployment c updatedDc.ObjectMeta.Name).2.2 with
        | some e => simp [PatchCurrentDC, h1, h2, h3, h4, Call.isUpdate, List.filter_cons, hf]
        | none =>
          simp [PatchCurrentDC, h1, h2, h3, h4, patchWait_calls, patchWait_existingDC,
            hw, Call.isUpdate, List.filter_cons, List.filter_append, hf]
      | false =>
        cases h4 : deps.reflectDeepEqual updatedDc.Spec.Template
            ucp.ExistingDC.Spec.Template with
        | true => simp [PatchCurrentDC, h1, h2, h3, h4, Call.isUpdate]
        | false =>
          cases h5 : deps.jsonMarshal updatedDc.Spec.Template with
          | error e => simp [PatchCurrentDC, h1, h2, h3, h4, h5, Call.isUpdate]
          | ok bytes =>
            simp [PatchCurrentDC, h1, h2, h3, h4, h5, patchWait_calls, patchWait_existingDC,
              hw, Call.isUpdate, List.filter_cons, List.filter_append]

/-- Witness of C8: the object submitted for `sampleNewDC` keeps the live UID and resource
version and carries the new labels. -/
theorem C8_submitted_object_frame_witness :
    runPrePatch none (copyVolumesAndVolumeMounts sampleNewDC sampleUcp.ExistingDC
        sampleContainer) =
      .ok (copyVolumesAndVolumeMounts sampleNewDC sampleUcp.ExistingDC sampleContainer) ∧
    sampleDeps.addOrRemoveVolumeAndVolumeMount sampleClient
        (copyVolumesAndVolumeMounts sampleNewDC sampleUcp.ExistingDC sampleContainer)
        sampleUcp.StorageToBeMounted sampleUcp.StorageToBeUnMounted =
      .ok (copyVolumesAndVolumeMounts sampleNewDC sampleUcp.ExistingDC sampleContainer) ∧
    ∃ submitted,
      (PatchCurrentDC sampleDeps sampleClient sampleNewDC none sampleContainer sampleUcp
          true).calls.head? = some (Call.dcUpdate sampleClient.Namespace submitted) ∧
      submitted.ObjectMeta.UID = "u-1" ∧
      submitted.ObjectMeta.ResourceVersion = "41" ∧
      submitted.ObjectMeta.Labels = [("app", "new")] ∧
      submitted.Status = sampleLiveDC.Status :=
  ⟨rfl, rfl,
    (C8_submitted_object_frame sampleDeps sampleClient sampleNewDC none sampleContainer
      sampleUcp true
      (copyVolumesAndVolumeMounts sampleNewDC sampleUcp.ExistingDC sampleContainer)
      (copyVolumesAndVolumeMounts sampleNewDC sampleUcp.ExistingDC sampleContainer)
      rfl rfl).elim
      (fun submitted h =>
        ⟨submitted, h.1, h.2.2.2.2.2.2.2.2.1, h.2.2.2.2.2.2.2.2.2.1, h.2.2.2.2.2.1,
          h.2.2.2.2.2.2.2.2.2.2.2.1⟩)⟩

/-- C9: if the optional pre-patch transform fails, or it succeeds and the volume
mount/unmount step fails, `PatchCurrentDC` returns an error and issues no call at all: no
update, no rollout instantiation, no watch. -/
theorem C9_early_failure_applies_nothing (deps : PatchDeps) (c : Client)
    (dc : DeploymentConfig) (prePatchDCHandler : Option dcStructUpdater)
    (existingCmpContainer : Container) (ucp : UpdateComponentParams) (isGit : Bool)
    (hfail :
      (∃ e, runPrePatch prePatchDCHandler
        (copyVolumesAndVolumeMounts dc ucp.ExistingDC existingCmpContainer) = .error e) ∨
      (∃ dc1 e, runPrePatch prePatchDCHandler
          (copyVolumesAndVolumeMounts dc ucp.ExistingDC existingCmpContainer) = .ok dc1 ∧
        deps.addOrRemoveVolumeAndVolumeMount c dc1 ucp.StorageToBeMounted
          ucp.StorageToBeUnMounted = .error e)) :
    (PatchCurrentDC deps c dc prePatchDCHandler existingCmpContainer ucp isGit).err.isSome =
      true ∧
    (PatchCurrentDC deps c dc prePatchDCHandler existingCmpContainer ucp isGit).calls = [] ∧
    (PatchCurrentDC deps c dc prePatchDCHandler existingCmpContainer ucp isGit).calls.any
      Call.isUpdate = false ∧
    (PatchCurrentDC deps c dc prePatchDCHandler existingCmpContainer ucp isGit).calls.any
      Call.isInstantiate = false ∧
    (PatchCurrentDC deps c dc prePatchDCHandler existingCmpContainer ucp isGit).calls.any
      Call.isWatch = false := by
  rcases hfail with ⟨e, h1⟩ | ⟨dc1, e, h1, h2⟩
  · simp [PatchCurrentDC, h1]
  · simp [PatchCurrentDC, h1, h2]

/-- Witness of C9: a transform that fails, in a git reconcile. -/
theorem C9_early_failure_applies_nothing_witness :
    ((∃ e, runPrePatch (some (fun _ => .error "cannot strip"))
        (copyVolumesAndVolumeMounts sampleNewDC sampleUcp.ExistingDC sampleContainer) =
          .error e) ∨
      (∃ dc1 e, runPrePatch (some (fun _ => .error "cannot strip"))
          (copyVolumesAndVolumeMounts sampleNewDC sampleUcp.ExistingDC sampleContainer) =
            .ok dc1 ∧
        sampleDeps.addOrRemoveVolumeAndVolumeMount sampleClient dc1
          sampleUcp.StorageToBeMounted sampleUcp.StorageToBeUnMounted = .error e)) ∧
    (PatchCurrentDC sampleDeps sampleClient sampleNewDC (some (fun _ => .error "cannot strip"))
      sampleContainer sampleUcp true).err.isSome = true ∧
    (PatchCurrentDC sampleDeps sampleClient sampleNewDC (some (fun _ => .error "cannot strip"))
      sampleContainer sampleUcp true).calls = [] :=
  ⟨Or.inl ⟨"cannot strip", rfl⟩,
    (C9_early_failure_applies_nothing sampleDeps sampleClient sampleNewDC
      (some (fun _ => .error "cannot strip")) sampleContainer sampleUcp true
      (Or.inl ⟨"cannot strip", rfl⟩)).1,
    (C9_early_failure_applies_nothing sampleDeps sampleClient sampleNewDC
      (some (fun _ => .error "cannot strip")) sampleContainer sampleUcp true
      (Or.inl ⟨"cannot strip", rfl⟩)).2.1⟩

/-! ## Claims on `WaitAndGetDC` -/

/-- A list with a matching receive splits at its first matching receive. -/
theorem exists_first_match (desiredRevision : Int) (waitCond : dcRollOutWait)
    (recvs : List Recv) (h : ∃ x ∈ recvs, recvMatches desiredRevision waitCond x = true) :
    ∃ before eventType e after,
      recvs = before ++ Recv.event ⟨eventType, WatchObject.deploymentConfig e⟩ :: after ∧
      (∀ x ∈ before, recvMatches desiredRevision waitCond x = false) ∧
      waitCond e desiredRevision = true := by
  induction recvs with
  | nil => simp at h
  | cons a rest ih =>
    cases ha : recvMatches desiredRevision waitCond a with
    | true =>
      match a, ha with
      | Recv.event ⟨eventType, WatchObject.deploymentConfig e⟩, ha =>
        exact ⟨[], eventType, e, rest, rfl, by simp, ha⟩
      | Recv.event ⟨_, WatchObject.other _⟩, ha => simp [recvMatches] at ha
      | Recv.event ⟨_, WatchObject.pod _⟩, ha => simp [recvMatches] at ha
      | Recv.event ⟨_, WatchObject.build _⟩, ha => simp [recvMatches] at ha
      | Recv.closed, ha => simp [recvMatches] at ha
    | false =>
      have h' : ∃ x ∈ rest, recvMatches desiredRevision waitCond x = true := by
        obtain ⟨x, hx, hm⟩ := h
        rcases List.mem_cons.1 hx with rfl | hx'
        · rw [ha] at hm; exact absurd hm (by decide)
        · exact ⟨x, hx', hm⟩
      obtain ⟨before, eventType, e, after, hsplit, hnone, he⟩ := ih h'
      refine ⟨a :: before, eventType, e, after, by rw [hsplit]; rfl, ?_, he⟩
      intro x hx
      rcases List.mem_cons.1 hx with rfl | hx'
      · exact ha
      · exact hnone x hx'

/-- The loop skips receives that do not match and returns at the first that does. -/
theorem waitAndGetDCLoop_first_match (desiredRevision : Int) (waitCond : dcRollOutWait)
    (before : List Recv) (eventType : String) (e : DeploymentConfig) (after : List Recv)
    (hnone : ∀ x ∈ before, recvMatches desiredRevision waitCond x = false)
    (he : waitCond e desiredRevision = true) :
    waitAndGetDCLoop desiredRevision waitCond
      (before ++ Recv.event ⟨eventType, WatchObject.deploymentConfig e⟩ :: after) =
        (some e, none) := by
  induction before with
  | nil => simp [waitAndGetDCLoop, he]
  | cons a rest ih =>
    have hrest := ih (fun x hx => hnone x (List.mem_cons_of_mem _ hx))
    have ha := hnone a (List.mem_cons_self _ _)
    match a, ha with
    | Recv.closed, _ => simpa [waitAndGetDCLoop] using hrest
    | Recv.event ⟨_, WatchObject.other _⟩, _ => simpa [waitAndGetDCLoop] using hrest
    | Recv.event ⟨_, WatchObject.pod _⟩, _ => simpa [waitAndGetDCLoop] using hrest
    | Recv.event ⟨_, WatchObject.build _⟩, _ => simpa [waitAndGetDCLoop] using hrest
    | Recv.event ⟨_, WatchObject.deploymentConfig d⟩, ha =>
      have hd : waitCond d desiredRevision = false := ha
      simpa [waitAndGetDCLoop, hd] using hrest

/-- C10: when the watch opens and, among the receives taken before the timer, some
DeploymentConfig event satisfies the condition at the desired revision, `WaitAndGetDC`
returns without error the first such event object in receipt order: every receive before it
fails the condition. -/
theorem C10_returns_first_match (c : Client) (name : String) (desiredRevision : Int)
    (timeout : Nat) (waitCond : dcRollOutWait)
    (hopen : (c.dcWatch c.Namespace ("metadata.name=" ++ name)).2 = none)
    (hsome : ∃ x ∈ (c.dcWatch c.Namespace ("metadata.name=" ++ name)).1.results timeout,
      recvMatches desiredRevision waitCond x = true) :
    ∃ before eventType e after,
      (c.dcWatch c.Namespace ("metadata.name=" ++ name)).1.results timeout =
        before ++ Recv.event ⟨eventType, WatchObject.deploymentConfig e⟩ :: after ∧
      (∀ x ∈ before, recvMatches desiredRevision waitCond x = false) ∧
      waitCond e desiredRevision = true ∧
      (WaitAndGetDC c name desiredRevision timeout waitCond).2 =
        GoOutcome.returned (some e, none) := by
  obtain ⟨before, eventType, e, after, hsplit, hnone, he⟩ :=
    exists_first_match desiredRevision waitCond _ hsome
  refine ⟨before, eventType, e, after, hsplit, hnone, he, ?_⟩
  rw [WaitAndGetDC_opened c name desiredRevision timeout waitCond hopen]
  simp only [hsplit]
  rw [waitAndGetDCLoop_first_match desiredRevision waitCond before eventType e after hnone he]

/-- Witness of C10: with revisions 2, 3, 4 observed and desired revision 3, the object at
revision 3 is returned, not the one at revision 4. -/
theorem C10_returns_first_match_witness :
    (sampleClient.dcWatch sampleClient.Namespace ("metadata.name=" ++ "app")).2 = none ∧
    (∃ x ∈ (sampleClient.dcWatch sampleClient.Namespace
        ("metadata.name=" ++ "app")).1.results OcUpdateTimeout,
      recvMatches 3 sampleWaitCond x = true) ∧
    ∃ before eventType e after,
      (sampleClient.dcWatch sampleClient.Namespace
          ("metadata.name=" ++ "app")).1.results OcUpdateTimeout =
        before ++ Recv.event ⟨eventType, WatchObject.deploymentConfig e⟩ :: after ∧
      (∀ x ∈ before, recvMatches 3 sampleWaitCond x = false) ∧
      sampleWaitCond e 3 = true ∧
      (WaitAndGetDC sampleClient "app" 3 OcUpdateTimeout sampleWaitCond).2 =
        GoOutcome.returned (some e, none) :=
  ⟨rfl, by decide,
    C10_returns_first_match sampleClient "app" 3 OcUpdateTimeout sampleWaitCond rfl
      (by decide)⟩

/-! ## Claims on the timeout and closure behaviour of the waits -/

/-- Without a matching receive the loop of `WaitAndGetDC` ends in the timer case. -/
theorem waitAndGetDCLoop_no_match (desiredRevision : Int) (waitCond : dcRollOutWait)
    (recvs : List Recv)
    (hnone : ∀ x ∈ recvs, recvMatches desiredRevision waitCond x = false) :
    waitAndGetDCLoop desiredRevision waitCond recvs =
      (none, some "Timed out waiting for annotation to update") := by
  induction recvs with
  | nil => rfl
  | cons a rest ih =>
    have hrest := ih (fun x hx => hnone x (List.mem_cons_of_mem _ hx))
    have ha := hnone a (List.mem_cons_self _ _)
    match a, ha with
    | Recv.closed, _ => simpa [waitAndGetDCLoop] using hrest
    | Recv.event ⟨_, WatchObject.other _⟩, _ => simpa [waitAndGetDCLoop] using hrest
    | Recv.event ⟨_, WatchObject.pod _⟩, _ => simpa [waitAndGetDCLoop] using hrest
    | Recv.event ⟨_, WatchObject.build _⟩, _ => simpa [waitAndGetDCLoop] using hrest
    | Recv.event ⟨_, WatchObject.deploymentConfig d⟩, ha =>
      have hd : waitCond d desiredRevision = false := ha
      simpa [waitAndGetDCLoop, hd] using hrest

/-- C11: when the watch opens and none of the receives taken before the timer case delivers
a DeploymentConfig satisfying the condition, `WaitAndGetDC` returns a nil object with the
error `Timed out waiting for annotation to update`, and its calls are the opening of one
watch followed by one `Stop`. -/
theorem C11_timeout_without_match (c : Client) (name : String) (desiredRevision : Int)
    (timeout : Nat) (waitCond : dcRollOutWait)
    (hopen : (c.dcWatch c.Namespace ("metadata.name=" ++ name)).2 = none)
    (hnone : ∀ x ∈ (c.dcWatch c.Namespace ("metadata.name=" ++ name)).1.results timeout,
      recvMatches desiredRevision waitCond x = false) :
    (WaitAndGetDC c name desiredRevision timeout waitCond).2 =
      GoOutcome.returned (none, some "Timed out waiting for annotation to update") ∧
    (WaitAndGetDC c name desiredRevision timeout waitCond).1 =
      [Call.dcWatch c.Namespace ("metadata.name=" ++ name), Call.watchStop] ∧
    ((WaitAndGetDC c name desiredRevision timeout waitCond).1.filter Call.isStop).length = 1 ∧
    ((WaitAndGetDC c name desiredRevision timeout waitCond).1.filter Call.isWatch).length = 1 := by
  rw [WaitAndGetDC_opened c name desiredRevision timeout waitCond hopen]
  refine ⟨?_, rfl, rfl, rfl⟩
  simp only []
  rw [waitAndGetDCLoop_no_match desiredRevision waitCond _ hnone]

/-- Witness of C11: revisions 2, 3 and 4 are observed while revision 9 is awaited. -/
theorem C11_timeout_without_match_witness :
    (sampleClient.dcWatch sampleClient.Namespace ("metadata.name=" ++ "app")).2 = none ∧
    (∀ x ∈ (sampleClient.dcWatch sampleClient.Namespace
        ("metadata.name=" ++ "app")).1.results OcUpdateTimeout,
      recvMatches 9 sampleWaitCond x = false) ∧
    (WaitAndGetDC sampleClient "app" 9 OcUpdateTimeout sampleWaitCond).2 =
      GoOutcome.returned (none, some "Timed out waiting for annotation to update") ∧
    ((WaitAndGetDC sampleClient "app" 9 OcUpdateTimeout sampleWaitCond).1.filter
      Call.isStop).length = 1 :=
  ⟨rfl, by decide,
    (C11_timeout_without_match sampleClient "app" 9 OcUpdateTimeout sampleWaitCond rfl
      (by decide)).1,
    (C11_timeout_without_match sampleClient "app" 9 OcUpdateTimeout sampleWaitCond rfl
      (by decide)).2.2.1⟩

/-- C12, at the failing input: a receive on the closed channel leaves the loop of
`WaitAndGetDC` where it was (the `break` ends the `select` only), so a watch that delivers
one non-matching DeploymentConfig and is then closed makes `WaitAndGetDC` return the timeout
error `Timed out waiting for annotation to update`, after the timer fired. -/
theorem C12_closure_runs_to_timeout :
    (∀ (desiredRevision : Int) (waitCond : dcRollOutWait) (rest : List Recv),
      waitAndGetDCLoop desiredRevision waitCond (Recv.closed :: rest) =
        waitAndGetDCLoop desiredRevision waitCond rest) ∧
    WaitAndGetDC sampleClosedClient "app" 3 OcUpdateTimeout sampleWaitCond =
      ([Call.dcWatch "myproject" "metadata.name=app", Call.watchStop],
        GoOutcome.returned (none, some "Timed out waiting for annotation to update")) :=
  ⟨fun _ _ _ => rfl, by decide⟩

/-- C13, at the failing input: when the build watch delivers a `Running` build and is then
closed, or is closed at once, `WaitForBuildToFinish` returns `nil` although no build in phase
`Complete` was observed. -/
theorem C13_closure_reported_as_success :
    WaitForBuildToFinish sampleClosedClient "app-1" =
      ([Call.buildWatch "myproject" "metadata.name=app-1", Call.watchStop], some none) ∧
    waitForBuildLoop [Recv.closed] = some none :=
  ⟨by decide, rfl⟩

/-- While the goroutine of `WaitAndGetPod` sees only pods that are still waiting, the
outcome is decided by the receives that follow. -/
theorem waitAndGetPodLoop_skip (desiredPhase selector : String) (before rest : List Recv)
    (hbefore : ∀ x ∈ before, podStillWaiting desiredPhase x = true) :
    waitAndGetPodLoop desiredPhase selector (before ++ rest) =
      waitAndGetPodLoop desiredPhase selector rest := by
  induction before with
  | nil => rfl
  | cons a tail ih =>
    have htail := ih (fun x hx => hbefore x (List.mem_cons_of_mem _ hx))
    have ha := hbefore a (List.mem_cons_self _ _)
    match a, ha with
    | Recv.event ⟨_, WatchObject.pod e⟩, ha =>
      have he : e.Status.Phase ≠ desiredPhase ∧ e.Status.Phase ≠ PodFailed ∧
          e.Status.Phase ≠ PodUnknown := by simpa [podStillWaiting] using ha
      simp [waitAndGetPodLoop, he.1, he.2.1, he.2.2, htail]

/-- C14: let the desired phase be neither `Failed` nor `Unknown`, let the pod watch open,
and let the receives taken before the timer be pods still waiting (`before`) followed by a
receive `next`. If `next` delivers a pod in the desired phase, `WaitAndGetPod` returns that
pod without error; if it delivers a pod in phase `Failed` or `Unknown`, it returns the error
`pod <name> status <phase>`; if it finds the channel closed, it returns the error
`watch channel was closed`. -/
theorem C14_pod_wait_outcomes (c : Client) (selector desiredPhase : String)
    (before after : List Recv) (next : Recv)
    (hdesired : desiredPhase ≠ PodFailed ∧ desiredPhase ≠ PodUnknown)
    (hopen : (c.podWatch c.Namespace selector).2 = none)
    (hrecvs : (c.podWatch c.Namespace selector).1.results waitForPodTimeOut =
      before ++ next :: after)
    (hbefore : ∀ x ∈ before, podStillWaiting desiredPhase x = true) :
    (∀ eventType e, next = Recv.event ⟨eventType, WatchObject.pod e⟩ →
      e.Status.Phase = desiredPhase →
      (WaitAndGetPod c selector desiredPhase).2 = (some e, none)) ∧
    (∀ eventType e, next = Recv.event ⟨eventType, WatchObject.pod e⟩ →
      (e.Status.Phase = PodFailed ∨ e.Status.Phase = PodUnknown) →
      (WaitAndGetPod c selector desiredPhase).2 =
        (none, some ("pod " ++ e.ObjectMeta.Name ++ " status " ++ e.Status.Phase))) ∧
    (next = Recv.closed →
      (WaitAndGetPod c selector desiredPhase).2 = (none, some "watch channel was closed")) := by
  have hrun : (WaitAndGetPod c selector desiredPhase).2 =
      waitAndGetPodLoop desiredPhase selector (next :: after) := by
    unfold WaitAndGetPod
    simp only [hopen, hrecvs]
    exact waitAndGetPodLoop_skip desiredPhase selector before _ hbefore
  refine ⟨?_, ?_, ?_⟩
  · intro eventType e hnext hphase
    rw [hrun, hnext]
    simp [waitAndGetPodLoop, hphase]
  · intro eventType e hnext hphase
    have hne : e.Status.Phase ≠ desiredPhase := by
      rcases hphase with h | h
      · rw [h]; exact fun h' => hdesired.1 h'.symm
      · rw [h]; exact fun h' => hdesired.2 h'.symm
    rw [hrun, hnext]
    simp [waitAndGetPodLoop, hne, hphase]
  · intro hnext
    rw [hrun, hnext]
    rfl

/-- Witness of C14: after two `Pending` events the `Running` pod is returned, not the later
`Failed` one. -/
theorem C14_pod_wait_outcomes_witness :
    ("Running" ≠ PodFailed ∧ "Running" ≠ PodUnknown) ∧
    (samplePodClient.podWatch samplePodClient.Namespace "app=app").2 = none ∧
    (samplePodClient.podWatch samplePodClient.Namespace "app=app").1.results waitForPodTimeOut =
      samplePodRecvs.take 2 ++ Recv.event ⟨"MODIFIED", WatchObject.pod
        { ObjectMeta := { Name := "app-1-abcde" }, Status := { Phase := "Running" } }⟩ ::
        samplePodRecvs.drop 3 ∧
    (∀ x ∈ samplePodRecvs.take 2, podStillWaiting "Running" x = true) ∧
    (WaitAndGetPod samplePodClient "app=app" "Running").2 =
      (some { ObjectMeta := { Name := "app-1-abcde" }, Status := { Phase := "Running" } },
        none) :=
  ⟨by decide, rfl, rfl, by decide,
    (C14_pod_wait_outcomes samplePodClient "app=app" "Running" (samplePodRecvs.take 2)
      (samplePodRecvs.drop 3)
      (Recv.event ⟨"MODIFIED", WatchObject.pod
        { ObjectMeta := { Name := "app-1-abcde" }, Status := { Phase := "Running" } }⟩)
      (by decide) rfl rfl (by decide)).1 "MODIFIED" _ rfl rfl⟩

/-! ## Claims on `PropagateDeletes` -/

theorem foldl_append_singleton {α β : Type} (f : α → β) (l : List α) (acc : List β) :
    l.foldl (fun acc a => acc ++ [f a]) acc = acc ++ l.map f := by
  induction l generalizing acc with
  | nil => simp
  | cons a rest ih => simp [List.foldl_cons, ih]

/-- The nested loops list, root by root, the join of the root with every deleted path. -/
theorem rmPathsOf_eq (s2iPaths delSrcRelPaths : List String) :
    rmPathsOf s2iPaths delSrcRelPaths =
      s2iPaths.flatMap (fun root => delSrcRelPaths.map (fun rel => filepathJoin [root, rel])) := by
  have key : ∀ (roots : List String) (acc : List String),
      roots.foldl
        (fun rmPaths s2iPath =>
          delSrcRelPaths.foldl
            (fun rmPaths delRelPath => rmPaths ++ [filepathJoin [s2iPath, delRelPath]])
            rmPaths)
        acc =
      acc ++ roots.flatMap
        (fun root => delSrcRelPaths.map (fun rel => filepathJoin [root, rel])) := by
    intro roots
    induction roots with
    | nil => intro acc; simp
    | cons r rest ih =>
      intro acc
      rw [List.foldl_cons, ih, foldl_append_singleton (fun rel => filepathJoin [r, rel])]
      simp [List.flatMap_cons]
  rw [rmPathsOf, key]
  simp

theorem length_flatMap_const {α β : Type} (l : List α) (f : α → List β) (n : Nat)
    (h : ∀ a ∈ l, (f a).length = n) : (l.flatMap f).length = l.length * n := by
  induction l with
  | nil => simp
  | cons a rest ih =>
    rw [List.flatMap_cons, List.length_append, h a (List.mem_cons_self _ _),
      ih (fun b hb => h b (List.mem_cons_of_mem _ hb)), List.length_cons]
    ring

/-- C15: for non-empty lists of roots and of deleted relative paths, `PropagateDeletes` is
one invocation of `ExecCMDInContainer` whose argument vector is `rm`, `-rf` and then
`filepath.Join(root, rel)` for every root and every deleted path in root-major order, which
makes `2 + |roots| * |deleted|` arguments; at most one remote command is streamed, and it is
exactly that one when the client configuration and the executor are obtained. When either
list is empty it returns an error and issues no call. -/
theorem C15_one_rm_command (c : Client) (targetPodName : String)
    (delSrcRelPaths s2iPaths : List String)
    (hroots : s2iPaths ≠ []) (hdeleted : delSrcRelPaths ≠ []) :
    PropagateDeletes c targetPodName delSrcRelPaths s2iPaths =
      ExecCMDInContainer c targetPodName
        (["rm", "-rf"] ++ s2iPaths.flatMap
          (fun root => delSrcRelPaths.map (fun rel => filepathJoin [root, rel])))
        true true true false ∧
    (["rm", "-rf"] ++ s2iPaths.flatMap
      (fun root => delSrcRelPaths.map (fun rel => filepathJoin [root, rel]))).length =
      2 + s2iPaths.length * delSrcRelPaths.length ∧
    ((PropagateDeletes c targetPodName delSrcRelPaths s2iPaths).1.filter Call.isExec).length
      ≤ 1 ∧
    (c.clientConfigErr = none → c.spdyExecutorErr = none →
      (PropagateDeletes c targetPodName delSrcRelPaths s2iPaths).1 =
        [Call.execStream c.Namespace targetPodName
          (["rm", "-rf"] ++ s2iPaths.flatMap
            (fun root => delSrcRelPaths.map (fun rel => filepathJoin [root, rel])))
          true true true false]) ∧
    (PropagateDeletes c targetPodName [] s2iPaths).1 = [] ∧
    (PropagateDeletes c targetPodName [] s2iPaths).2.isSome = true ∧
    (PropagateDeletes c targetPodName delSrcRelPaths []).1 = [] ∧
    (PropagateDeletes c targetPodName delSrcRelPaths []).2.isSome = true := by
  have hrun : PropagateDeletes c targetPodName delSrcRelPaths s2iPaths =
      ExecCMDInContainer c targetPodName
        (["rm", "-rf"] ++ s2iPaths.flatMap
          (fun root => delSrcRelPaths.map (fun rel => filepathJoin [root, rel])))
        true true true false := by
    unfold PropagateDeletes
    have h1 : ¬ (s2iPaths.length = 0 ∨ delSrcRelPaths.length = 0) := by
      simp [List.length_eq_zero, hroots, hdeleted]
    rw [if_neg h1, rmPathsOf_eq]
  refine ⟨hrun, ?_, ?_, ?_, by simp [PropagateDeletes], by simp [PropagateDeletes],
    by simp [PropagateDeletes], by simp [PropagateDeletes]⟩
  · rw [List.length_append, length_flatMap_const _ _ delSrcRelPaths.length (by simp)]
    rfl
  · rw [hrun]
    unfold ExecCMDInContainer
    split
    · simp
    · split
      · simp
      · split <;> simp [Call.isExec]
  · intro hconfig hexecutor
    rw [hrun]
    unfold ExecCMDInContainer
    simp only [hconfig, hexecutor]
    split <;> rfl

/-- Witness of C15: deleted `foo.txt` under the roots `/app/src` and `/app/bin` gives the one
command `rm -rf /app/src/foo.txt /app/bin/foo.txt`. -/
theorem C15_one_rm_command_witness :
    (["/app/src", "/app/bin"] : List String) ≠ [] ∧ (["foo.txt"] : List String) ≠ [] ∧
    PropagateDeletes sampleClient "app-1-abcde" ["foo.txt"] ["/app/src", "/app/bin"] =
      ([Call.execStream "myproject" "app-1-abcde"
          ["rm", "-rf", "/app/src/foo.txt", "/app/bin/foo.txt"] true true true false], none) ∧
    ((PropagateDeletes sampleClient "app-1-abcde" ["foo.txt"]
      ["/app/src", "/app/bin"]).1.filter Call.isExec).length ≤ 1 :=
  ⟨by decide, by decide, by decide,
    (C15_one_rm_command sampleClient "app-1-abcde" ["foo.txt"] ["/app/src", "/app/bin"]
      (by decide) (by decide)).2.2.1⟩

/-! ## Claims on `GetS2IMetaInfoFromBuilderImg`, `updateEnvVar` and `isSubDir` -/

/-- C18 as stated fails: for metadata that carries no labels at all (a nil label map)
`GetS2IMetaInfoFromBuilderImg` returns the zero `S2IPaths` with a nil error. -/
theorem C18_no_labels_is_not_an_error :
    GetS2IMetaInfoFromBuilderImg (.ok ⟨⟨none, "/opt/app-root/src"⟩⟩) = ({}, none) ∧
    ¬ ((GetS2IMetaInfoFromBuilderImg (.ok ⟨⟨none, "/opt/app-root/src"⟩⟩)).2.isSome = true) := by
  decide

/-- C18, amended: for metadata with a label map in which the scripts-URL label
`io.openshift.s2i.scripts-url` is absent, or present with a value that begins with none of
`image://`, `file://` and `http(s)://`, `GetS2IMetaInfoFromBuilderImg` returns a non-nil
error; for metadata without a label map it returns the zero `S2IPaths` and a nil error. -/
theorem C18_unrecognised_scripts_url (labels : GoMap String) (workingDir : String)
    (hurl : labels.get S2IScriptsURLLabel = none ∨
      ∃ url, labels.get S2IScriptsURLLabel = some url ∧
        stringsHasPrefix url "image://" = false ∧ stringsHasPrefix url "file://" = false ∧
        stringsHasPrefix url "http(s)://" = false) :
    (GetS2IMetaInfoFromBuilderImg (.ok ⟨⟨some labels, workingDir⟩⟩)).2.isSome = true ∧
    GetS2IMetaInfoFromBuilderImg (.ok ⟨⟨none, workingDir⟩⟩) = ({}, none) := by
  refine ⟨?_, rfl⟩
  have hno : stringsHasPrefix (labelValue labels S2IScriptsURLLabel) "image://" = false ∧
      stringsHasPrefix (labelValue labels S2IScriptsURLLabel) "file://" = false ∧
      stringsHasPrefix (labelValue labels S2IScriptsURLLabel) "http(s)://" = false := by
    rcases hurl with h | ⟨url, h, h1, h2, h3⟩
    · have : labelValue labels S2IScriptsURLLabel = "" := by simp [labelValue, h]
      rw [this]
      decide
    · have : labelValue labels S2IScriptsURLLabel = url := by simp [labelValue, h]
      rw [this]
      exact ⟨h1, h2, h3⟩
  simp [GetS2IMetaInfoFromBuilderImg, hno.1, hno.2.1, hno.2.2]

/-- Witness of C18 amended: labels without a scripts URL. -/
theorem C18_unrecognised_scripts_url_witness :
    (sampleLabelsNoURL.get S2IScriptsURLLabel = none ∨
      ∃ url, sampleLabelsNoURL.get S2IScriptsURLLabel = some url ∧
        stringsHasPrefix url "image://" = false ∧ stringsHasPrefix url "file://" = false ∧
        stringsHasPrefix url "http(s)://" = false) ∧
    (GetS2IMetaInfoFromBuilderImg
      (.ok ⟨⟨some sampleLabelsNoURL, "/opt/app-root/src"⟩⟩)).2.isSome = true :=
  ⟨Or.inl (by decide),
    (C18_unrecognised_scripts_url sampleLabelsNoURL "/opt/app-root/src"
      (Or.inl (by decide))).1⟩

/-- C19: `updateEnvVar` returns an error exactly when the DC does not have exactly one
container; on error the DC is unchanged; on success the DC is the old one except that its
single container has the supplied environment list. -/
theorem C19_updateEnvVar (dc : DeploymentConfig) (envVars : List EnvVar) :
    ((updateEnvVar dc envVars).2.isSome = true ↔
      dc.Spec.Template.Spec.Containers.length ≠ 1) ∧
    ((updateEnvVar dc envVars).2.isSome = true → (updateEnvVar dc envVars).1 = dc) ∧
    ((updateEnvVar dc envVars).2 = none →
      ∃ container, dc.Spec.Template.Spec.Containers = [container] ∧
        (updateEnvVar dc envVars).1 =
          { dc with
              Spec := { dc.Spec with
                Template := { dc.Spec.Template with
                  Spec := { dc.Spec.Template.Spec with
                    Containers := [{ container with Env := envVars }] } } } }) := by
  by_cases h : dc.Spec.Template.Spec.Containers.length = 1
  · obtain ⟨container, hc⟩ := List.length_eq_one.1 h
    refine ⟨by simp [updateEnvVar, h], by simp [updateEnvVar, h], ?_⟩
    intro _
    refine ⟨container, hc, ?_⟩
    simp [updateEnvVar, hc]
  · refine ⟨by simp [updateEnvVar, h], by simp [updateEnvVar, h], ?_⟩
    intro hnone
    simp [updateEnvVar, h] at hnone

/-- C20, at the failing input: `isSubDir` holds for the application root and for a
directory directly beneath it, but not for `/opt/app-root/src/target`, two levels beneath
it, so the guard of the deployment-directory mount is true for that directory. -/
theorem C20_nested_directory_not_recognised :
    isSubDir DefaultAppRootDir "/opt/app-root" = true ∧
    isSubDir DefaultAppRootDir "/opt/app-root/src" = true ∧
    isSubDir DefaultAppRootDir "/opt/app-root/src/target" = false ∧
    addsDeploymentDirVolumeMount "/opt/app-root/src/target" = true := by
  decide

/-! ## Lemmas on `recursiveTar` and `makeTar` -/

/-- Every path the first loop lets through was let through before or is a matched path that
matches no exclusion glob. -/
theorem allowedPaths_mem (sys : Sys) (globExps : List String) (paths acc out : List String)
    (h : allowedPaths sys globExps paths acc = .ok out) :
    ∀ p ∈ out, p ∈ acc ∨ (p ∈ paths ∧ IsGlobExpMatch sys p globExps = .ok false) := by
  induction paths generalizing acc with
  | nil =>
    intro p hp
    simp only [allowedPaths, Except.ok.injEq] at h
    exact Or.inl (h ▸ hp)
  | cons a rest ih =>
    intro p hp
    unfold allowedPaths at h
    cases hm : IsGlobExpMatch sys a globExps with
    | error err => rw [hm] at h; simp at h
    | ok matched =>
      rw [hm] at h
      simp only [] at h
      rcases ih _ h p hp with hacc | ⟨hrest, hno⟩
      · cases matched with
        | true => simp at hacc; exact Or.inl hacc
        | false =>
          simp at hacc
          rcases hacc with hacc | rfl
          · exact Or.inl hacc
          · exact Or.inr ⟨List.mem_cons_self _ _, hm⟩
      · exact Or.inr ⟨List.mem_cons_of_mem _ hrest, hno⟩

/-- The loop over the entries of a directory keeps a property of the written entries that
the recursive calls keep. -/
theorem tarDirEntries_inv (Q : TarEntry → Prop)
    (recur : String → String → List TarEntry → TarOutcome) (srcFile destFile : String)
    (files : List String) (tw : List TarEntry)
    (hrec : ∀ f ∈ files, ∀ tw : List TarEntry, (∀ e ∈ tw, Q e) →
      ∀ e ∈ (recur (filepathJoin [srcFile, f]) (filepathJoin [destFile, f]) tw).1, Q e)
    (htw : ∀ e ∈ tw, Q e) :
    ∀ e ∈ (tarDirEntries recur srcFile destFile files tw).1, Q e := by
  induction files generalizing tw with
  | nil => exact htw
  | cons f rest ih =>
    have hstep := hrec f (List.mem_cons_self _ _) tw htw
    have hrest : ∀ g ∈ rest, ∀ tw : List TarEntry, (∀ e ∈ tw, Q e) →
        ∀ e ∈ (recur (filepathJoin [srcFile, g]) (filepathJoin [destFile, g]) tw).1, Q e :=
      fun g hg => hrec g (List.mem_cons_of_mem _ hg)
    unfold tarDirEntries
    rcases hr : recur (filepathJoin [srcFile, f]) (filepathJoin [destFile, f]) tw with
      ⟨tw1, result⟩
    rw [hr] at hstep
    match result with
    | none => exact hstep
    | some (some err) => exact hstep
    | some none => exact ih tw1 hrest hstep

/-- The loop over the allowed matched paths keeps a property that holds of every entry made
for one of these paths under the name `destFile`, with the link target and the bytes of the
joined path, and that the recursive calls on directory entries keep. -/
theorem tarMatchedPaths_inv (Q : TarEntry → Prop) (sys : Sys)
    (recur : String → String → List TarEntry → TarOutcome)
    (joinedPath srcFile destFile : String) (matched : List String) (tw : List TarEntry)
    (hQ : ∀ p ∈ matched, ∀ e : TarEntry, e.Name = destFile → e.statPath = p →
      sys.lstat p = .ok e.Typeflag →
      (e.Typeflag = FileKind.dir → sys.readDir p = .ok []) →
      (e.Typeflag = FileKind.symlink → sys.readlink joinedPath = .ok e.Linkname) →
      (e.Typeflag = FileKind.regular →
        sys.readFile joinedPath = .ok e.Body ∨
          (e.Body = "" ∧ ∃ err, sys.readFile joinedPath = .error err)) →
      Q e)
    (hrec : ∀ p ∈ matched, sys.lstat p = .ok FileKind.dir →
      ∀ files, sys.readDir p = .ok files → ∀ f ∈ files, ∀ tw : List TarEntry,
        (∀ e ∈ tw, Q e) →
        ∀ e ∈ (recur (filepathJoin [srcFile, f]) (filepathJoin [destFile, f]) tw).1, Q e)
    (htw : ∀ e ∈ tw, Q e) :
    ∀ e ∈ (tarMatchedPaths sys recur joinedPath srcFile destFile matched tw).1, Q e := by
  induction matched generalizing tw with
  | nil => exact htw
  | cons p rest ih =>
    have hp := hQ p (List.mem_cons_self _ _)
    have hadd : ∀ e : TarEntry, Q e → ∀ x ∈ tw ++ [e], Q x := by
      intro e he x hx
      rcases List.mem_append.1 hx with h | h
      · exact htw x h
      · rw [List.mem_singleton.1 h]; exact he
    unfold tarMatchedPaths
    cases hl : sys.lstat p with
    | error err => exact htw
    | ok kind =>
      cases kind with
      | dir =>
        simp only []
        cases hd : sys.readDir p with
        | error err => exact htw
        | ok files =>
          simp only []
          have hchildren := hrec p (List.mem_cons_self _ _) hl files hd
          split
          · rename_i hlen
            have hnil : files = [] := List.length_eq_zero.1 hlen
            cases hw : sys.writeHeaderErr destFile with
            | some err => exact htw
            | none =>
              exact tarDirEntries_inv Q recur srcFile destFile files _ hchildren
                (hadd _ (hp _ rfl rfl hl (fun _ => hnil ▸ hd) (fun h => by cases h)
                  (fun h => by cases h)))
          · exact tarDirEntries_inv Q recur srcFile destFile files tw hchildren htw
      | symlink =>
        simp only []
        cases hr : sys.readlink joinedPath with
        | error err => exact htw
        | ok target =>
          simp only []
          cases hw : sys.writeHeaderErr destFile with
          | some err => exact htw
          | none =>
            exact ih _ (fun q hq => hQ q (List.mem_cons_of_mem _ hq))
              (fun q hq => hrec q (List.mem_cons_of_mem _ hq))
              (hadd _ (hp _ rfl rfl hl (fun h => by cases h) (fun _ => hr)
                (fun h => by cases h)))
      | unsupported => exact htw
      | regular =>
        simp only []
        cases hw : sys.writeHeaderErr destFile with
        | some err => exact htw
        | none =>
          simp only []
          cases hf : sys.readFile joinedPath with
          | error err =>
            exact hadd _ (hp _ rfl rfl hl (fun h => by cases h) (fun h => by cases h)
              (fun _ => Or.inr ⟨rfl, err, hf⟩))
          | ok body =>
            exact hadd _ (hp _ rfl rfl hl (fun h => by cases h) (fun h => by cases h)
              (fun _ => Or.inl hf))

/-- Where `filepath.Glob` yields the pattern only, a walk keeps every property that holds of
the entries written for the calls it reaches. -/
theorem recursiveTar_inv (Q : TarEntry → Prop) (sys : Sys) (globExps : List String)
    (srcBase destBase rootSrc rootDest : String) (hglob : GlobYieldsPattern sys)
    (hQ : ∀ srcFile destFile e, Visits sys globExps srcBase rootSrc rootDest srcFile destFile →
      WrittenFor sys globExps srcBase srcFile destFile e → Q e) (fuel : Nat) :
    ∀ (srcFile destFile : String) (tw : List TarEntry),
      Visits sys globExps srcBase rootSrc rootDest srcFile destFile → (∀ e ∈ tw, Q e) →
      ∀ e ∈ (recursiveTar sys fuel srcBase srcFile destBase destFile tw globExps).1, Q e := by
  induction fuel with
  | zero =>
    intro srcFile destFile tw _ htw
    exact htw
  | succ fuel ih =>
    intro srcFile destFile tw hvisit htw
    unfold recursiveTar
    simp only []
    cases hg : sys.glob (filepathJoin [srcBase, srcFile]) with
    | error err => exact htw
    | ok paths =>
      simp only []
      cases ha : allowedPaths sys globExps paths [] with
      | error err => exact htw
      | ok matched =>
        simp only []
        have hmatched : ∀ p ∈ matched,
            p = filepathJoin [srcBase, srcFile] ∧
              IsGlobExpMatch sys (filepathJoin [srcBase, srcFile]) globExps = .ok false := by
          intro p hp
          rcases allowedPaths_mem sys globExps paths [] matched ha p hp with h | h
          · simp at h
          · have heq := hglob _ paths hg p h.1
            exact ⟨heq, heq ▸ h.2⟩
        apply tarMatchedPaths_inv Q sys _ _ srcFile destFile matched tw
        · intro p hp e hname hstat hkind hdir hlink hbody
          have heq := (hmatched p hp).1
          apply hQ srcFile destFile e hvisit
          exact ⟨hname, hstat.trans heq, (hmatched p hp).2, heq ▸ hkind,
            fun h => heq ▸ hdir h, hlink, hbody⟩
        · intro p hp hdir files hfiles f hf tw1 htw1
          have heq := (hmatched p hp).1
          exact ih _ _ tw1
            (Visits.child srcFile destFile files f hvisit (hmatched p hp).2 (heq ▸ hdir)
              (heq ▸ hfiles) hf) htw1
        · exact htw

/-- The loop over the listed files keeps a property of the written entries that the walk
from each listed existing file keeps. -/
theorem makeTarFiles_inv (Q : TarEntry → Prop) (sys : Sys) (fuel : Nat)
    (srcPath destPath : String) (globExps : List String) (files : List String)
    (tw : List TarEntry)
    (hwalk : ∀ fileName ∈ files, sys.fileExists fileName = true →
      ∀ srcFile, sys.rel srcPath fileName = .ok srcFile →
      ∀ tw : List TarEntry, (∀ e ∈ tw, Q e) →
      ∀ e ∈ (recursiveTar sys fuel (filepathDir srcPath)
          (filepathJoin [filepathBase srcPath, srcFile]) (filepathDir destPath)
          (filepathJoin [filepathBase srcPath, srcFile]) tw globExps).1, Q e)
    (htw : ∀ e ∈ tw, Q e) :
    ∀ e ∈ (makeTarFiles sys fuel srcPath destPath globExps files tw).1, Q e := by
  induction files generalizing tw with
  | nil => exact htw
  | cons fileName rest ih =>
    have hrest := fun tw1 h1 =>
      ih tw1 (fun g hg => hwalk g (List.mem_cons_of_mem _ hg)) h1
    unfold makeTarFiles
    by_cases hex : sys.fileExists fileName = true
    · rw [if_pos hex]
      cases hrel : sys.rel srcPath fileName with
      | error err => exact htw
      | ok srcFile =>
        simp only []
        have hstep := hwalk fileName (List.mem_cons_self _ _) hex srcFile hrel tw htw
        rcases hr : recursiveTar sys fuel (filepathDir srcPath)
          (filepathJoin [filepathBase srcPath, srcFile]) (filepathDir destPath)
          (filepathJoin [filepathBase srcPath, srcFile]) tw globExps with ⟨tw1, result⟩
        rw [hr] at hstep
        match result with
        | none => exact hstep
        | some (some err) => exact hstep
        | some none => exact hrest tw1 hstep
    · rw [if_neg hex]
      exact hrest tw htw

/-- The source file and the destination file of a call reached by a walk extend the two
roots by the same entry names. -/
theorem Visits_joinNames (sys : Sys) (globExps : List String)
    (srcBase rootSrc rootDest srcFile destFile : String)
    (h : Visits sys globExps srcBase rootSrc rootDest srcFile destFile) :
    ∃ names, srcFile = joinNames rootSrc names ∧ destFile = joinNames rootDest names := by
  induction h with
  | root => exact ⟨[], rfl, rfl⟩
  | child srcFile destFile files f _ _ _ _ _ ih =>
    obtain ⟨names, hs, hd⟩ := ih
    refine ⟨names ++ [f], ?_, ?_⟩
    · rw [hs]; simp [joinNames, List.foldl_append]
    · rw [hd]; simp [joinNames, List.foldl_append]

/-- Where `filepath.Glob` yields the pattern only, every entry of `makeTar` is written for
a call that a walk from one of the roots reaches. -/
theorem makeTar_written (sys : Sys) (fuel : Nat) (srcPath destPath : String)
    (files globExps : List String) (hglob : GlobYieldsPattern sys) :
    ∀ e ∈ (makeTar sys fuel srcPath destPath files globExps).1,
      ∃ rootSrc rootDest srcFile destFile,
        WalkRoot sys srcPath destPath files rootSrc rootDest ∧
        Visits sys globExps (filepathDir (filepathClean srcPath)) rootSrc rootDest
          srcFile destFile ∧
        WrittenFor sys globExps (filepathDir (filepathClean srcPath)) srcFile destFile e := by
  have hgood : ∀ rootSrc rootDest, WalkRoot sys srcPath destPath files rootSrc rootDest →
      ∀ srcFile destFile e,
      Visits sys globExps (filepathDir (filepathClean srcPath)) rootSrc rootDest
        srcFile destFile →
      WrittenFor sys globExps (filepathDir (filepathClean srcPath)) srcFile destFile e →
      ∃ rootSrc rootDest srcFile destFile,
        WalkRoot sys srcPath destPath files rootSrc rootDest ∧
        Visits sys globExps (filepathDir (filepathClean srcPath)) rootSrc rootDest
          srcFile destFile ∧
        WrittenFor sys globExps (filepathDir (filepathClean srcPath)) srcFile destFile e :=
    fun rootSrc rootDest hroot srcFile destFile _ hvisit hw =>
      ⟨rootSrc, rootDest, srcFile, destFile, hroot, hvisit, hw⟩
  unfold makeTar
  simp only []
  by_cases hfiles : files.length ≠ 0
  · rw [if_pos hfiles]
    apply makeTarFiles_inv
      (fun e => ∃ rootSrc rootDest srcFile destFile,
        WalkRoot sys srcPath destPath files rootSrc rootDest ∧
        Visits sys globExps (filepathDir (filepathClean srcPath)) rootSrc rootDest
          srcFile destFile ∧
        WrittenFor sys globExps (filepathDir (filepathClean srcPath)) srcFile destFile e)
      sys fuel (filepathClean srcPath) (filepathClean destPath) globExps files []
    · intro fileName hmem hex srcFile hrel tw htw
      exact recursiveTar_inv
        (fun e => ∃ rootSrc rootDest srcFile destFile,
          WalkRoot sys srcPath destPath files rootSrc rootDest ∧
          Visits sys globExps (filepathDir (filepathClean srcPath)) rootSrc rootDest
            srcFile destFile ∧
          WrittenFor sys globExps (filepathDir (filepathClean srcPath)) srcFile destFile e)
        sys globExps (filepathDir (filepathClean srcPath))
        (filepathDir (filepathClean destPath))
        (filepathJoin [filepathBase (filepathClean srcPath), srcFile])
        (filepathJoin [filepathBase (filepathClean srcPath), srcFile]) hglob
        (hgood _ _ (Or.inr ⟨fileName, srcFile, hmem, hex, hrel, rfl, rfl⟩)) fuel _ _ tw
        Visits.root htw
    · intro e he
      simp at he
  · rw [if_neg hfiles]
    have hnil : files = [] := by
      cases files with
      | nil => rfl
      | cons a rest => simp at hfiles
    apply recursiveTar_inv
      (fun e => ∃ rootSrc rootDest srcFile destFile,
        WalkRoot sys srcPath destPath files rootSrc rootDest ∧
        Visits sys globExps (filepathDir (filepathClean srcPath)) rootSrc rootDest
          srcFile destFile ∧
        WrittenFor sys globExps (filepathDir (filepathClean srcPath)) srcFile destFile e)
      sys globExps (filepathDir (filepathClean srcPath))
      (filepathDir (filepathClean destPath)) (filepathBase (filepathClean srcPath))
      (filepathBase (filepathClean destPath)) hglob
      (hgood _ _ (Or.inl ⟨hnil, rfl, rfl⟩)) fuel _ _ [] Visits.root
    intro e he
    simp at he

/-! ## Claims on `makeTar` and `recursiveTar` -/

/-- C16 as stated fails in the changed-files mode: with the tree `build/out.bin`,
`src/main.go`, the exclusion glob `build` and the listed file `build/out.bin`, the directory
`build` matches the glob, yet `makeTar` writes a header for `build/out.bin` beneath it. -/
theorem C16_listed_file_beneath_excluded_directory :
    sampleSys.lstat "build" = .ok FileKind.dir ∧
    IsGlobExpMatch sampleSys "build" ["build"] = .ok true ∧
    makeTar sampleSys 5 "." "/opt/app-root/src" ["build/out.bin"] ["build"] =
      ([{ Name := "build/out.bin", Typeflag := FileKind.regular, statPath := "build/out.bin",
          Body := "ELF" }], some none) ∧
    ¬ (∀ e ∈ (makeTar sampleSys 5 "." "/opt/app-root/src" ["build/out.bin"] ["build"]).1,
        e.statPath ≠ "build/out.bin") := by
  refine ⟨rfl, rfl, by decide, by decide⟩

/-- A file whose name holds a glob metacharacter: in the tree `dir/a*`, `dir/abc` the path
`dir/a*` matches the exclusion glob `dir/a?` and `dir/abc` does not. `filepath.Glob` of
`dir/a*` yields both paths, the second passes the exclusion test, and `recursiveTar` writes
for it a header named after `dir/a*` with the bytes of `dir/a*`, because the header name is
`destFile` and the bytes are read from the joined path, not from the matched path. -/
theorem makeTar_header_from_other_glob_match :
    IsGlobExpMatch sampleStarSys "dir/a*" ["dir/a?"] = .ok true ∧
    IsGlobExpMatch sampleStarSys "dir/abc" ["dir/a?"] = .ok false ∧
    sampleStarSys.glob "dir/a*" = .ok ["dir/a*", "dir/abc"] ∧
    makeTar sampleStarSys 5 "." "/opt/app-root/src" [] ["dir/a?"] =
      ([{ Name := "src/dir/a*", Typeflag := FileKind.regular, statPath := "dir/abc",
          Body := "SECRET" },
        { Name := "src/dir/abc", Typeflag := FileKind.regular, statPath := "dir/abc",
          Body := "public" }], some none) := by
  refine ⟨rfl, rfl, rfl, by decide⟩

/-- C16, amended: let `filepath.Glob` of a path yield that path only (no path of the tree
holds a glob metacharacter). In both modes every header that `makeTar` writes is written by
a call `recursiveTar(srcBase, srcFile, destBase, destFile, ...)` that a walk reaches from one
of its roots through directories none of which matches an exclusion glob; `srcFile` and
`destFile` extend the source root and the destination root by the same entry names; the
header is named `destFile`; the local path `srcBase/srcFile` it stands for matches no exclusion glob (after
backslashes are turned into forward slashes); its type is the file type of that path, and its
link target and bytes are read from that path. The roots are the source root when no files
are listed, and each listed existing file otherwise. Excluding `build/*` from the tree
`build/out.bin`, `src/main.go` gives a header for `src/main.go` only. -/
theorem C16_headers_for_allowed_paths (sys : Sys) (fuel : Nat) (srcPath destPath : String)
    (files globExps : List String) (hglob : GlobYieldsPattern sys) :
    (∀ e ∈ (makeTar sys fuel srcPath destPath files globExps).1,
      ∃ rootSrc rootDest srcFile destFile,
        WalkRoot sys srcPath destPath files rootSrc rootDest ∧
        Visits sys globExps (filepathDir (filepathClean srcPath)) rootSrc rootDest
          srcFile destFile ∧
        (∃ names, srcFile = joinNames rootSrc names ∧ destFile = joinNames rootDest names) ∧
        e.Name = destFile ∧
        IsGlobExpMatch sys (filepathJoin [filepathDir (filepathClean srcPath), srcFile])
          globExps = .ok false ∧
        sys.lstat (filepathJoin [filepathDir (filepathClean srcPath), srcFile]) =
          .ok e.Typeflag ∧
        (e.Typeflag = FileKind.symlink →
          sys.readlink (filepathJoin [filepathDir (filepathClean srcPath), srcFile]) =
            .ok e.Linkname) ∧
        (e.Typeflag = FileKind.regular →
          sys.readFile (filepathJoin [filepathDir (filepathClean srcPath), srcFile]) =
              .ok e.Body ∨
            (e.Body = "" ∧ ∃ err,
              sys.readFile (filepathJoin [filepathDir (filepathClean srcPath), srcFile]) =
                .error err))) ∧
    makeTar sampleSys 5 "." "/opt/app-root/src" [] ["build/*"] =
      ([{ Name := "src/src/main.go", Typeflag := FileKind.regular, statPath := "src/main.go",
          Body := "package main" }], some none) := by
  refine ⟨?_, by decide⟩
  intro e he
  obtain ⟨rootSrc, rootDest, srcFile, destFile, hroot, hvisit, hw⟩ :=
    makeTar_written sys fuel srcPath destPath files globExps hglob e he
  obtain ⟨hname, _, hno, hkind, _, hlink, hbody⟩ := hw
  exact ⟨rootSrc, rootDest, srcFile, destFile, hroot, hvisit,
    Visits_joinNames sys globExps _ rootSrc rootDest srcFile destFile hvisit, hname, hno,
    hkind, hlink, hbody⟩

/-- Witness of C16 amended: the tree `build/out.bin`, `src/main.go` has no glob
metacharacter in a path; with `build/*` excluded, the one header written is named
`src/src/main.go` and stands for the local path `src/main.go`. -/
theorem C16_headers_for_allowed_paths_witness :
    GlobYieldsPattern sampleSys ∧
    (makeTar sampleSys 5 "." "/opt/app-root/src" [] ["build/*"]).1.map TarEntry.Name =
      ["src/src/main.go"] ∧
    IsGlobExpMatch sampleSys "build/out.bin" ["build/*"] = .ok true ∧
    ∀ e ∈ (makeTar sampleSys 5 "." "/opt/app-root/src" [] ["build/*"]).1,
      ∃ rootSrc rootDest srcFile destFile,
        WalkRoot sampleSys "." "/opt/app-root/src" [] rootSrc rootDest ∧
        Visits sampleSys ["build/*"] (filepathDir (filepathClean ".")) rootSrc rootDest
          srcFile destFile ∧
        (∃ names, srcFile = joinNames rootSrc names ∧ destFile = joinNames rootDest names) ∧
        e.Name = destFile ∧
        IsGlobExpMatch sampleSys (filepathJoin [filepathDir (filepathClean "."), srcFile])
          ["build/*"] = .ok false ∧
        sampleSys.lstat (filepathJoin [filepathDir (filepathClean "."), srcFile]) =
          .ok e.Typeflag ∧
        (e.Typeflag = FileKind.symlink →
          sampleSys.readlink (filepathJoin [filepathDir (filepathClean "."), srcFile]) =
            .ok e.Linkname) ∧
        (e.Typeflag = FileKind.regular →
          sampleSys.readFile (filepathJoin [filepathDir (filepathClean "."), srcFile]) =
              .ok e.Body ∨
            (e.Body = "" ∧ ∃ err,
              sampleSys.readFile (filepathJoin [filepathDir (filepathClean "."), srcFile]) =
                .error err)) :=
  ⟨by
      intro pattern paths h p hp
      cases hk : sampleTreeKind pattern with
      | none =>
        simp [sampleSys, hk] at h
        subst h
        simp at hp
      | some kind =>
        simp [sampleSys, hk] at h
        subst h
        simpa using hp,
    by decide, rfl,
    (C16_headers_for_allowed_paths sampleSys 5 "." "/opt/app-root/src" [] ["build/*"]
      (by
        intro pattern paths h p hp
        cases hk : sampleTreeKind pattern with
        | none =>
          simp [sampleSys, hk] at h
          subst h
          simp at hp
        | some kind =>
          simp [sampleSys, hk] at h
          subst h
          simpa using hp)).1⟩

theorem envsIntoMap_keyed (envs : List EnvVar) (m : GoMap EnvVar) (hm : KeyedByName m) :
    KeyedByName (envsIntoMap m envs) := by
  induction envs generalizing m with
  | nil => exact hm
  | cons e rest ih =>
    rw [envsIntoMap_cons]
    apply ih
    intro k v hk
    rw [GoMap.get_set] at hk
    by_cases h : k = e.Name
    · rw [if_pos h] at hk
      rw [h, ← Option.some.inj hk]
    · rw [if_neg h] at hk
      exact hm k v hk

/-- The third loop, for lists with or without repeated names: among the entries it emits,
those named `k` are the value the map held under `k`, once, if `k` is an existing name. -/
theorem emitExisting_filter (k : String) (l : List EnvVar) (r : List EnvVar)
    (m : GoMap EnvVar) (hm : KeyedByName m) :
    (emitExisting l (r, m)).1.filter (fun e => decide (e.Name = k)) =
        r.filter (fun e => decide (e.Name = k)) ++
          (if k ∈ l.map EnvVar.Name then (m.get k).toList else []) ∧
      (∀ q, (emitExisting l (r, m)).2.get q =
        if q ∈ l.map EnvVar.Name then none else m.get q) := by
  induction l generalizing r m with
  | nil => simp [emitExisting]
  | cons e rest ih =>
    rw [emitExisting_cons]
    cases hget : m.get e.Name with
    | none =>
      simp only []
      obtain ⟨h1, h2⟩ := ih r m hm
      refine ⟨?_, ?_⟩
      · rw [h1]
        by_cases hk : k = e.Name
        · subst hk
          simp [hget]
        · have : ¬ e.Name = k := fun h => hk h.symm
          simp [hk, this]
      · intro q
        rw [h2 q]
        by_cases hq : q = e.Name
        · subst hq; simp [hget]
        · simp [hq]
    | some val =>
      simp only []
      have hval : val.Name = e.Name := hm _ _ hget
      have hm2 : KeyedByName (m.delete e.Name) := by
        intro q v hq
        rw [GoMap.get_delete] at hq
        by_cases h : q = e.Name
        · rw [if_pos h] at hq; exact absurd hq (by simp)
        · rw [if_neg h] at hq; exact hm q v hq
      obtain ⟨h1, h2⟩ := ih (r ++ [val]) (m.delete e.Name) hm2
      refine ⟨?_, ?_⟩
      · rw [h1, GoMap.get_delete]
        by_cases hk : k = e.Name
        · subst hk
          simp [hget, hval]
        · have hne : ¬ val.Name = k := fun h => hk (h.symm.trans hval)
          simp [hk, hne, List.filter_append]
      · intro q
        rw [h2 q, GoMap.get_delete]
        by_cases hq : q = e.Name
        · subst hq; simp
        · simp [hq]

/-- The fourth loop over variables with pairwise distinct names: among the entries it emits,
those named `k` are the value the map holds under `k`, once, if `k` is a new name. -/
theorem emitNew_filter (k : String) (m : GoMap EnvVar) (hm : KeyedByName m)
    (envVars : List EnvVar) (r : List EnvVar) (hnd : (envVars.map EnvVar.Name).Nodup) :
    (emitNew m envVars r).filter (fun e => decide (e.Name = k)) =
      r.filter (fun e => decide (e.Name = k)) ++
        (if k ∈ envVars.map EnvVar.Name then (m.get k).toList else []) := by
  induction envVars generalizing r with
  | nil => simp [emitNew]
  | cons e rest ih =>
    simp only [List.map_cons, List.nodup_cons] at hnd
    have step : emitNew m (e :: rest) r =
        emitNew m rest (match m.get e.Name with
          | some val => r ++ [val]
          | none => r) := rfl
    rw [step, ih _ hnd.2]
    cases hget : m.get e.Name with
    | none =>
      by_cases hk : k = e.Name
      · subst hk; simp [hget]
      · simp [hk]
    | some val =>
      have hval : val.Name = e.Name := hm _ _ hget
      by_cases hk : k = e.Name
      · subst hk
        simp [hget, hval, hnd.1, List.filter_append]
      · have hne : ¬ val.Name = k := fun h => hk (h.symm.trans hval)
        simp [hk, hne, List.filter_append]

/-- Appending variables with pairwise distinct names to any list leaves exactly one entry
under each appended name, the appended variable itself. -/
theorem uniqueAppendOrOverwriteEnvVars_filter (existing envVars : List EnvVar)
    (hnd : (envVars.map EnvVar.Name).Nodup) (v : EnvVar) (hv : v ∈ envVars) :
    (uniqueAppendOrOverwriteEnvVars existing envVars).filter
      (fun e => decide (e.Name = v.Name)) = [v] := by
  unfold uniqueAppendOrOverwriteEnvVars
  simp only []
  have hkeyed : KeyedByName (envsIntoMap (envsIntoMap GoMap.empty existing) envVars) :=
    envsIntoMap_keyed _ _ (envsIntoMap_keyed _ _ (fun k v h => by simp [GoMap.get, GoMap.empty] at h))
  obtain ⟨h1, h2⟩ := emitExisting_filter v.Name existing []
    (envsIntoMap (envsIntoMap GoMap.empty existing) envVars) hkeyed
  have hkeyed2 : KeyedByName
      (emitExisting existing ([], envsIntoMap (envsIntoMap GoMap.empty existing) envVars)).2 := by
    intro q w hq
    rw [h2 q] at hq
    by_cases hmem : q ∈ existing.map EnvVar.Name
    · rw [if_pos hmem] at hq; exact absurd hq (by simp)
    · rw [if_neg hmem] at hq; exact hkeyed q w hq
  have hnew : v.Name ∈ envVars.map EnvVar.Name := List.mem_map_of_mem EnvVar.Name hv
  rw [emitNew_filter v.Name _ hkeyed2 envVars _ hnd, h1, h2 v.Name, if_pos hnew,
    envsIntoMap_get_of_mem envVars _ v hnd hv]
  by_cases hex : v.Name ∈ existing.map EnvVar.Name
  · simp [hex]
  · simp [hex]

/-- Appending variables with pairwise distinct names to any list leaves at most one entry
under every name. -/
theorem uniqueAppendOrOverwriteEnvVars_filter_le (existing envVars : List EnvVar)
    (hnd : (envVars.map EnvVar.Name).Nodup) (k : String) :
    ((uniqueAppendOrOverwriteEnvVars existing envVars).filter
      (fun e => decide (e.Name = k))).length ≤ 1 := by
  unfold uniqueAppendOrOverwriteEnvVars
  simp only []
  have hkeyed : KeyedByName (envsIntoMap (envsIntoMap GoMap.empty existing) envVars) :=
    envsIntoMap_keyed _ _ (envsIntoMap_keyed _ _ (fun k v h => by simp [GoMap.get, GoMap.empty] at h))
  obtain ⟨h1, h2⟩ := emitExisting_filter k existing []
    (envsIntoMap (envsIntoMap GoMap.empty existing) envVars) hkeyed
  have hkeyed2 : KeyedByName
      (emitExisting existing ([], envsIntoMap (envsIntoMap GoMap.empty existing) envVars)).2 := by
    intro q w hq
    rw [h2 q] at hq
    by_cases hmem : q ∈ existing.map EnvVar.Name
    · rw [if_pos hmem] at hq; exact absurd hq (by simp)
    · rw [if_neg hmem] at hq; exact hkeyed q w hq
  rw [emitNew_filter k _ hkeyed2 envVars _ hnd, h1, h2 k]
  by_cases hex : k ∈ existing.map EnvVar.Name
  · rw [if_pos hex, if_pos hex]
    cases (envsIntoMap (envsIntoMap GoMap.empty existing) envVars).get k <;>
      by_cases hnew : k ∈ envVars.map EnvVar.Name <;> simp [hnew]
  · rw [if_neg hex, if_neg hex]
    cases (envsIntoMap (envsIntoMap GoMap.empty existing) envVars).get k <;>
      by_cases hnew : k ∈ envVars.map EnvVar.Name <;> simp [hnew]

/-- C3, amended: for every list `existing`, which may repeat a name, and every list
`envVars` of variables to append whose names are pairwise distinct, the list returned by
`uniqueAppendOrOverwriteEnvVars(existing, envVars...)` holds no two entries with the same
name. -/
theorem C3_unique_names_for_distinct_new (existing envVars : List EnvVar)
    (hnd : (envVars.map EnvVar.Name).Nodup) :
    ((uniqueAppendOrOverwriteEnvVars existing envVars).map EnvVar.Name).Nodup := by
  rw [List.nodup_iff_count_le_one]
  intro k
  have h := uniqueAppendOrOverwriteEnvVars_filter_le existing envVars hnd k
  rw [List.count_eq_countP, List.countP_map, List.countP_eq_length_filter]
  have hfun : ((fun x => x == k) ∘ EnvVar.Name) = (fun e => decide (e.Name = k)) := by
    funext e
    show (e.Name == k) = decide (e.Name = k)
    rfl
  rw [hfun]
  exact h

/-- Witness of C3 amended: the existing list repeats the name `A`; `A=7` and `C=3` are
appended, and the result `[A=7, B=2, C=3]` holds each name once. -/
theorem C3_unique_names_for_distinct_new_witness :
    (([⟨"A", "7", none⟩, ⟨"C", "3", none⟩] : List EnvVar).map EnvVar.Name).Nodup ∧
    ¬ (([⟨"A", "1", none⟩, ⟨"B", "2", none⟩, ⟨"A", "5", none⟩] : List EnvVar).map
        EnvVar.Name).Nodup ∧
    uniqueAppendOrOverwriteEnvVars [⟨"A", "1", none⟩, ⟨"B", "2", none⟩, ⟨"A", "5", none⟩]
        [⟨"A", "7", none⟩, ⟨"C", "3", none⟩] =
      [⟨"A", "7", none⟩, ⟨"B", "2", none⟩, ⟨"C", "3", none⟩] ∧
    ((uniqueAppendOrOverwriteEnvVars [⟨"A", "1", none⟩, ⟨"B", "2", none⟩, ⟨"A", "5", none⟩]
        [⟨"A", "7", none⟩, ⟨"C", "3", none⟩]).map EnvVar.Name).Nodup :=
  ⟨by decide, by decide, by decide,
    C3_unique_names_for_distinct_new [⟨"A", "1", none⟩, ⟨"B", "2", none⟩, ⟨"A", "5", none⟩]
      [⟨"A", "7", none⟩, ⟨"C", "3", none⟩] (by decide)⟩

/-- C21: for every existing environment list and every `S2IPaths` value, the list returned
by `injectS2IPaths` holds, under each of the six names `ODO_S2I_SCRIPTS_URL`,
`ODO_S2I_SCRIPTS_PROTOCOL`, `ODO_S2I_SRC_BIN_PATH`, `ODO_S2I_DEPLOYMENT_DIR`,
`ODO_S2I_WORKING_DIR` and `ODO_S2I_BUILDER_IMG`, exactly one entry, whose value is the
corresponding field of the `S2IPaths`. -/
theorem C21_injectS2IPaths_six_names (existingVars : List EnvVar) (s2iPaths : S2IPaths) :
    (injectS2IPaths existingVars s2iPaths).filter
        (fun e => decide (e.Name = "ODO_S2I_SCRIPTS_URL")) =
      [{ Name := "ODO_S2I_SCRIPTS_URL", Value := s2iPaths.ScriptsPath }] ∧
    (injectS2IPaths existingVars s2iPaths).filter
        (fun e => decide (e.Name = "ODO_S2I_SCRIPTS_PROTOCOL")) =
      [{ Name := "ODO_S2I_SCRIPTS_PROTOCOL", Value := s2iPaths.ScriptsPathProtocol }] ∧
    (injectS2IPaths existingVars s2iPaths).filter
        (fun e => decide (e.Name = "ODO_S2I_SRC_BIN_PATH")) =
      [{ Name := "ODO_S2I_SRC_BIN_PATH", Value := s2iPaths.SrcOrBinPath }] ∧
    (injectS2IPaths existingVars s2iPaths).filter
        (fun e => decide (e.Name = "ODO_S2I_DEPLOYMENT_DIR")) =
      [{ Name := "ODO_S2I_DEPLOYMENT_DIR", Value := s2iPaths.DeploymentDir }] ∧
    (injectS2IPaths existingVars s2iPaths).filter
        (fun e => decide (e.Name = "ODO_S2I_WORKING_DIR")) =
      [{ Name := "ODO_S2I_WORKING_DIR", Value := s2iPaths.WorkingDir }] ∧
    (injectS2IPaths existingVars s2iPaths).filter
        (fun e => decide (e.Name = "ODO_S2I_BUILDER_IMG")) =
      [{ Name := "ODO_S2I_BUILDER_IMG", Value := s2iPaths.BuilderImgName }] := by
  have hnames : (s2iEnvVars s2iPaths).map EnvVar.Name =
      ["ODO_S2I_SCRIPTS_URL", "ODO_S2I_SCRIPTS_PROTOCOL", "ODO_S2I_SRC_BIN_PATH",
        "ODO_S2I_DEPLOYMENT_DIR", "ODO_S2I_WORKING_DIR", "ODO_S2I_BUILDER_IMG"] := rfl
  have hnd : ((s2iEnvVars s2iPaths).map EnvVar.Name).Nodup := by
    rw [hnames]
    decide
  have key := fun v hv =>
    uniqueAppendOrOverwriteEnvVars_filter existingVars (s2iEnvVars s2iPaths) hnd v hv
  refine ⟨key { Name := "ODO_S2I_SCRIPTS_URL", Value := s2iPaths.ScriptsPath } ?_,
    key { Name := "ODO_S2I_SCRIPTS_PROTOCOL", Value := s2iPaths.ScriptsPathProtocol } ?_,
    key { Name := "ODO_S2I_SRC_BIN_PATH", Value := s2iPaths.SrcOrBinPath } ?_,
    key { Name := "ODO_S2I_DEPLOYMENT_DIR", Value := s2iPaths.DeploymentDir } ?_,
    key { Name := "ODO_S2I_WORKING_DIR", Value := s2iPaths.WorkingDir } ?_,
    key { Name := "ODO_S2I_BUILDER_IMG", Value := s2iPaths.BuilderImgName } ?_⟩ <;>
  simp [s2iEnvVars, EnvS2IScriptsURL, EnvS2IScriptsProtocol, EnvS2ISrcOrBinPath,
    EnvS2IDeploymentDir, EnvS2IWorkingDir, EnvS2IBuilderImageName]

/-! ## Claims on `ParseImageName` -/

theorem splitChar_not_mem (sep : Char) (l : List Char) (h : sep ∉ l) :
    splitChar sep l = [l] := by
  induction l with
  | nil => rfl
  | cons c cs ih =>
    simp only [List.mem_cons, not_or] at h
    have hc : ¬ c = sep := fun e => h.1 e.symm
    simp [splitChar, hc, ih h.2]

theorem splitChar_append (sep : Char) (a b : List Char) (h : sep ∉ a) :
    splitChar sep (a ++ sep :: b) = a :: splitChar sep b := by
  induction a with
  | nil => simp [splitChar]
  | cons c cs ih =>
    simp only [List.mem_cons, not_or] at h
    have hc : ¬ c = sep := fun e => h.1 e.symm
    simp [splitChar, hc, ih h.2]

theorem stringsSplit_none (s : String) (sep : Char) (h : sep ∉ s.data) :
    stringsSplit s sep = [s] := by
  simp [stringsSplit, splitChar_not_mem sep s.data h]

theorem stringsSplit_one (a b : String) (sep : Char) (ha : sep ∉ a.data)
    (hb : sep ∉ b.data) : stringsSplit (a ++ ⟨[sep]⟩ ++ b) sep = [a, b] := by
  have hdata : (a ++ ⟨[sep]⟩ ++ b).data = a.data ++ sep :: b.data := by
    simp [String.data_append]
  simp [stringsSplit, hdata, splitChar_append sep a.data b.data ha,
    splitChar_not_mem sep b.data hb]

theorem append_ne_empty (a b : String) (ha : a ≠ "") : a ++ b ≠ "" := by
  intro h
  apply ha
  have hd : (a ++ b).data = [] := by rw [h]
  rw [String.data_append, List.append_eq_nil] at hd
  exact String.ext hd.1

/-- C22: for non-empty `ns`, `name` and `tag` without `/`, `:` and `@`, and a non-empty
`digest` without `@`, `ParseImageName` returns `(ns, name, tag, "", nil)` on `ns/name:tag`,
`("", name, tag, "", nil)` on `name:tag`, `("", name, "latest", "", nil)` on `name`,
`(ns, name, "", digest, nil)` on `ns/name@digest` and `("", name, "", digest, nil)` on
`name@digest`. -/
theorem C22_ParseImageName_inverts_formatting (ns name tag digest : String)
    (hns : plainPart ns) (hname : plainPart name) (htag : plainPart tag)
    (hdigest : digest ≠ "" ∧ '@' ∉ digest.data) :
    ParseImageName (ns ++ "/" ++ name ++ ":" ++ tag) = (ns, name, tag, "", none) ∧
    ParseImageName (name ++ ":" ++ tag) = ("", name, tag, "", none) ∧
    ParseImageName name = ("", name, "latest", "", none) ∧
    ParseImageName (ns ++ "/" ++ name ++ "@" ++ digest) = (ns, name, "", digest, none) ∧
    ParseImageName (name ++ "@" ++ digest) = ("", name, "", digest, none) := by
  obtain ⟨hns0, hns1, hns2, hns3⟩ := hns
  obtain ⟨hname0, hname1, hname2, hname3⟩ := hname
  obtain ⟨htag0, htag1, htag2, htag3⟩ := htag
  obtain ⟨hdigest0, hdigest1⟩ := hdigest
  have hslash : ("/" : String) = ⟨['/']⟩ := rfl
  have hcolon : (":" : String) = ⟨[':']⟩ := rfl
  have hat : ("@" : String) = ⟨['@']⟩ := rfl
  have hnsname_colon : ':' ∉ (ns ++ "/" ++ name).data := by
    simp [String.data_append, hns2, hname2]
  have hnsname_at : '@' ∉ (ns ++ "/" ++ name).data := by
    simp [String.data_append, hns3, hname3]
  have hnsname_ne : ns ++ "/" ++ name ≠ "" :=
    append_ne_empty _ _ (append_ne_empty _ _ hns0)
  have hsplit_nsname : stringsSplit (ns ++ "/" ++ name) '/' = [ns, name] := by
    rw [hslash]; exact stringsSplit_one ns name '/' hns1 hname1
  have hsplit_name : stringsSplit name '/' = [name] := stringsSplit_none name '/' hname1
  refine ⟨?_, ?_, ?_, ?_, ?_⟩
  · have h1 : stringsSplit (ns ++ "/" ++ name ++ ":" ++ tag) '@' =
        [ns ++ "/" ++ name ++ ":" ++ tag] :=
      stringsSplit_none _ _ (by simp [String.data_append, hns3, hname3, htag3])
    have h2 : stringsSplit (ns ++ "/" ++ name ++ ":" ++ tag) ':' = [ns ++ "/" ++ name, tag] := by
      rw [hcolon]; exact stringsSplit_one _ tag ':' hnsname_colon htag2
    have h3 : ns ++ "/" ++ name ++ ":" ++ tag ≠ "" :=
      append_ne_empty _ _ (append_ne_empty _ _ hnsname_ne)
    simp [ParseImageName, h1, h2, h3, hnsname_ne, hsplit_nsname]
  · have h1 : stringsSplit (name ++ ":" ++ tag) '@' = [name ++ ":" ++ tag] :=
      stringsSplit_none _ _ (by simp [String.data_append, hname3, htag3])
    have h2 : stringsSplit (name ++ ":" ++ tag) ':' = [name, tag] := by
      rw [hcolon]; exact stringsSplit_one name tag ':' hname2 htag2
    have h3 : name ++ ":" ++ tag ≠ "" := append_ne_empty _ _ (append_ne_empty _ _ hname0)
    simp [ParseImageName, h1, h2, h3, hname0, hsplit_name]
  · have h1 : stringsSplit name '@' = [name] := stringsSplit_none _ _ hname3
    have h2 : stringsSplit name ':' = [name] := stringsSplit_none _ _ hname2
    simp [ParseImageName, h1, h2, hname0, hsplit_name]
  · have h1 : stringsSplit (ns ++ "/" ++ name ++ "@" ++ digest) '@' =
        [ns ++ "/" ++ name, digest] := by
      rw [hat]; exact stringsSplit_one _ digest '@' hnsname_at hdigest1
    simp [ParseImageName, h1, hnsname_ne, hdigest0, hsplit_nsname]
  · have h1 : stringsSplit (name ++ "@" ++ digest) '@' = [name, digest] := by
      rw [hat]; exact stringsSplit_one name digest '@' hname3 hdigest1
    simp [ParseImageName, h1, hname0, hdigest0, hsplit_name]

/-- Witness of C22: namespace `myproject`, name `nodejs`, tag `8`, digest `sha256:abc`. -/
theorem C22_ParseImageName_inverts_formatting_witness :
    plainPart "myproject" ∧ plainPart "nodejs" ∧ plainPart "8" ∧
    (("sha256:abc" : String) ≠ "" ∧ '@' ∉ ("sha256:abc" : String).data) ∧
    ParseImageName ("myproject" ++ "/" ++ "nodejs" ++ ":" ++ "8") =
      ("myproject", "nodejs", "8", "", none) ∧
    ParseImageName ("myproject" ++ "/" ++ "nodejs" ++ "@" ++ "sha256:abc") =
      ("myproject", "nodejs", "", "sha256:abc", none) :=
  ⟨by unfold plainPart; decide, by unfold plainPart; decide, by unfold plainPart; decide,
    by decide,
    (C22_ParseImageName_inverts_formatting "myproject" "nodejs" "8" "sha256:abc"
      (by unfold plainPart; decide) (by unfold plainPart; decide)
      (by unfold plainPart; decide) (by decide)).1,
    (C22_ParseImageName_inverts_formatting "myproject" "nodejs" "8" "sha256:abc"
      (by unfold plainPart; decide) (by unfold plainPart; decide)
      (by unfold plainPart; decide) (by decide)).2.2.2.1⟩

/-- C23, at the failing input: on `ns/` (and on `ns/:1.0` and `ns/@sha`) `ParseImageName`
returns no error and an empty image name. -/
theorem C23_empty_name_after_namespace_accepted :
    ParseImageName "ns/" = ("ns", "", "latest", "", none) ∧
    ParseImageName "ns/:1.0" = ("ns", "", "1.0", "", none) ∧
    ParseImageName "ns/@sha" = ("ns", "", "", "sha", none) := by
  decide

/-! ## Claims on `GetInputEnvVarsFromStrings` -/

theorem dropWhile_ne_eq_nil (sep : Char) (l : List Char) :
    l.dropWhile (fun c => c != sep) = [] ↔ sep ∉ l := by
  induction l with
  | nil => simp
  | cons c cs ih =>
    by_cases h : c = sep
    · subst h; simp [List.dropWhile_cons]
    · have h2 : ¬ sep = c := fun e => h e.symm
      simp [List.dropWhile_cons, h, h2, ih]

/-- A string with a separator is the text before its first separator, the separator, and the
text after it; the text before has no separator. -/
theorem textBefore_textAfter (sep : Char) (s : String) (h : sep ∈ s.data) :
    s.data = (textBefore sep s).data ++ sep :: (textAfter sep s).data ∧
      sep ∉ (textBefore sep s).data := by
  have key : ∀ l : List Char, sep ∈ l →
      l = l.takeWhile (fun c => c != sep) ++ sep :: (l.dropWhile (fun c => c != sep)).drop 1 ∧
        sep ∉ l.takeWhile (fun c => c != sep) := by
    intro l
    induction l with
    | nil => intro hl; simp at hl
    | cons c cs ih =>
      intro hl
      by_cases hc : c = sep
      · subst hc; simp [List.takeWhile_cons, List.dropWhile_cons]
      · have hcs : sep ∈ cs := by
          rcases List.mem_cons.1 hl with e | e
          · exact absurd e.symm hc
          · exact e
        have h2 : ¬ sep = c := fun e => hc e.symm
        obtain ⟨h3, h4⟩ := ih hcs
        refine ⟨?_, ?_⟩
        · simp only [List.takeWhile_cons, List.dropWhile_cons, bne_iff_ne, ne_eq, hc,
            not_false_eq_true, decide_True, ite_true, List.cons_append]
          rw [← h3]
        · simp [List.takeWhile_cons, hc, h2, h4]
  exact key s.data h

theorem stringsSplitN2_of_mem (s : String) (sep : Char) (h : sep ∈ s.data) :
    stringsSplitN2 s sep = [textBefore sep s, textAfter sep s] := by
  unfold stringsSplitN2
  rw [if_neg]
  rw [dropWhile_ne_eq_nil]
  exact fun hn => hn h

theorem stringsSplitN2_of_not_mem (s : String) (sep : Char) (h : sep ∉ s.data) :
    stringsSplitN2 s sep = [s] := by
  unfold stringsSplitN2
  rw [if_pos ((dropWhile_ne_eq_nil sep s.data).2 h)]

/-- The loop succeeds exactly when every remaining string has a `=` and the remaining names
are pairwise distinct and new; it then appends the parsed variables in order. -/
theorem inputEnvVarsLoop_spec (l : List String) (keys : GoMap Nat) (acc : List EnvVar)
    (seen : List String) (hkeys : ∀ k, keys.get k ≠ none ↔ k ∈ seen) :
    ((inputEnvVarsLoop l keys acc).2 = none ↔
      (∀ s ∈ l, '=' ∈ s.data) ∧ (l.map (textBefore '=')).Nodup ∧
        ∀ s ∈ l, textBefore '=' s ∉ seen) ∧
    ((inputEnvVarsLoop l keys acc).2 = none →
      (inputEnvVarsLoop l keys acc).1 =
        acc ++ l.map (fun s => { Name := textBefore '=' s, Value := textAfter '=' s })) := by
  induction l generalizing keys acc seen with
  | nil => simp [inputEnvVarsLoop]
  | cons env rest ih =>
    by_cases heq : '=' ∈ env.data
    · have hsplit := stringsSplitN2_of_mem env '=' heq
      cases hget : keys.get (textBefore '=' env) with
      | some n =>
        have hseen : textBefore '=' env ∈ seen := (hkeys _).1 (by simp [hget])
        have hrun : (inputEnvVarsLoop (env :: rest) keys acc).2 =
            some ("multiple values found for VariableName: " ++ textBefore '=' env) := by
          simp [inputEnvVarsLoop, hsplit, hget]
        refine ⟨?_, ?_⟩
        · rw [hrun]
          constructor
          · intro h; exact absurd h (by simp)
          · intro h; exact absurd hseen (h.2.2 env (List.mem_cons_self _ _))
        · rw [hrun]; intro h; exact absurd h (by simp)
      | none =>
        have hnot : textBefore '=' env ∉ seen := by
          intro hmem
          exact (hkeys _).2 hmem hget
        have hrun : inputEnvVarsLoop (env :: rest) keys acc =
            inputEnvVarsLoop rest (keys.set (textBefore '=' env) 1)
              (acc ++ [{ Name := textBefore '=' env, Value := textAfter '=' env }]) := by
          simp [inputEnvVarsLoop, hsplit, hget]
        have hkeys2 : ∀ k, (keys.set (textBefore '=' env) 1).get k ≠ none ↔
            k ∈ textBefore '=' env :: seen := by
          intro k
          rw [GoMap.get_set]
          by_cases hk : k = textBefore '=' env
          · simp [hk]
          · simp [hk, hkeys k]
        obtain ⟨h1, h2⟩ := ih (keys.set (textBefore '=' env) 1)
          (acc ++ [{ Name := textBefore '=' env, Value := textAfter '=' env }])
          (textBefore '=' env :: seen) hkeys2
        rw [hrun]
        refine ⟨?_, ?_⟩
        · rw [h1]
          constructor
          · rintro ⟨ha, hb, hc⟩
            refine ⟨?_, ?_, ?_⟩
            · intro s hs
              rcases List.mem_cons.1 hs with rfl | hs
              · exact heq
              · exact ha s hs
            · rw [List.map_cons, List.nodup_cons]
              refine ⟨?_, hb⟩
              intro hmem
              obtain ⟨s, hs, hname⟩ := List.mem_map.1 hmem
              exact hc s hs (by rw [hname]; exact List.mem_cons_self _ _)
            · intro s hs
              rcases List.mem_cons.1 hs with rfl | hs
              · exact hnot
              · exact fun hmem => hc s hs (List.mem_cons_of_mem _ hmem)
          · rintro ⟨ha, hb, hc⟩
            rw [List.map_cons, List.nodup_cons] at hb
            refine ⟨fun s hs => ha s (List.mem_cons_of_mem _ hs), hb.2, ?_⟩
            intro s hs hmem
            rcases List.mem_cons.1 hmem with e | e
            · exact hb.1 (e ▸ List.mem_map_of_mem _ hs)
            · exact hc s (List.mem_cons_of_mem _ hs) e
        · intro h
          rw [h2 h]
          simp
    · have hsplit := stringsSplitN2_of_not_mem env '=' heq
      have hrun : (inputEnvVarsLoop (env :: rest) keys acc).2 =
          some "invalid syntax for env, please specify a VariableName=Value pair" := by
        simp [inputEnvVarsLoop, hsplit]
      refine ⟨?_, ?_⟩
      · rw [hrun]
        constructor
        · intro h; exact absurd h (by simp)
        · intro h; exact absurd (h.1 env (List.mem_cons_self _ _)) heq
      · rw [hrun]; intro h; exact absurd h (by simp)

/-- C25: `GetInputEnvVarsFromStrings` returns no error exactly when every input string has a
`=` and the texts before the first `=` are pairwise distinct; it then returns, in input
order, for each input the variable named by the text before its first `=` with the text
after it as value. Each such input is its name, a `=` and its value, and the name holds no
`=`. -/
theorem C25_GetInputEnvVarsFromStrings (envVars : List String) :
    ((GetInputEnvVarsFromStrings envVars).2 = none ↔
      (∀ s ∈ envVars, '=' ∈ s.data) ∧ (envVars.map (textBefore '=')).Nodup) ∧
    ((GetInputEnvVarsFromStrings envVars).2 = none →
      (GetInputEnvVarsFromStrings envVars).1 =
        envVars.map (fun s => { Name := textBefore '=' s, Value := textAfter '=' s })) ∧
    (∀ s ∈ envVars, '=' ∈ s.data →
      s.data = (textBefore '=' s).data ++ '=' :: (textAfter '=' s).data ∧
        '=' ∉ (textBefore '=' s).data) ∧
    GetInputEnvVarsFromStrings ["A=1", "B=x=y"] =
      ([{ Name := "A", Value := "1" }, { Name := "B", Value := "x=y" }], none) := by
  obtain ⟨h1, h2⟩ := inputEnvVarsLoop_spec envVars GoMap.empty [] []
    (fun k => by simp [GoMap.get, GoMap.empty])
  refine ⟨?_, ?_, fun s _ hs => textBefore_textAfter '=' s hs, by decide⟩
  · unfold GetInputEnvVarsFromStrings
    rw [h1]
    simp
  · unfold GetInputEnvVarsFromStrings
    intro h
    rw [h2 h]
    simp

/-! ## Claims on the functions of `util` and on `GetImageStream` -/

theorem maxAllowedNamespacedStringLength_eq : maxAllowedNamespacedStringLength = 54 := by
  decide

theorem TruncateString_nonneg {α : Type} (str : List α) (n : Nat) :
    TruncateString str (n : Int) = some (str.take n) := by
  unfold TruncateString
  have h1 : ¬ ((n : Int) = -1) := by omega
  have h2 : ¬ ((n : Int) < 0) := by omega
  rw [if_neg h1]
  by_cases h : (str.length : Int) > (n : Int)
  · rw [if_pos h, if_neg h2]
    simp
  · rw [if_neg h]
    have hle : str.length ≤ n := by omega
    rw [List.take_of_length_le hle]

/-- C24: `NamespaceOpenShiftObject` returns an error exactly when the component name or the
application name is empty; otherwise it returns, without error and without panic, the first
54 bytes (all of them if there are fewer) of the component name with every `/` replaced by
`-`, a `-`, and the application name; the result has at most 54 bytes, and with `-s2idata`
appended at most 63. -/
theorem C24_NamespaceOpenShiftObject (componentName applicationName : List UInt8) :
    ((∃ name e, NamespaceOpenShiftObject componentName applicationName = some (name, some e)) ↔
      (componentName = [] ∨ applicationName = [])) ∧
    (componentName ≠ [] → applicationName ≠ [] →
      NamespaceOpenShiftObject componentName applicationName =
        some ((componentName.map (fun b => if b = 47 then 45 else b) ++ [45] ++
          applicationName).take 54, none)) ∧
    (∀ name, NamespaceOpenShiftObject componentName applicationName = some (name, none) →
      name.length ≤ 54 ∧ (name ++ bytesOf "-s2idata").length ≤ 63) ∧
    NamespaceOpenShiftObject componentName applicationName ≠ none ∧
    NamespaceOpenShiftObject (bytesOf "my/frontend") (bytesOf "app") =
      some (bytesOf "my-frontend-app", none) := by
  have hrun : componentName ≠ [] → applicationName ≠ [] →
      NamespaceOpenShiftObject componentName applicationName =
        some ((componentName.map (fun b => if b = 47 then 45 else b) ++ [45] ++
          applicationName).take 54, none) := by
    intro hc ha
    unfold NamespaceOpenShiftObject
    rw [if_neg hc, if_neg ha, maxAllowedNamespacedStringLength_eq]
    simp only []
    have := TruncateString_nonneg
      (componentName.map (fun b => if b = 47 then 45 else b) ++ [45] ++ applicationName) 54
    simp only [Nat.cast_ofNat] at this
    rw [this]
  have hsuffix : (bytesOf "-s2idata").length = 8 := by decide
  refine ⟨?_, hrun, ?_, ?_, by decide⟩
  · constructor
    · rintro ⟨name, e, h⟩
      by_contra hne
      simp only [not_or] at hne
      rw [hrun hne.1 hne.2] at h
      simp at h
    · rintro (h | h)
      · exact ⟨[], "namespacing: component name cannot be blank",
          by simp [NamespaceOpenShiftObject, h]⟩
      · by_cases hc : componentName = []
        · exact ⟨[], "namespacing: component name cannot be blank",
            by simp [NamespaceOpenShiftObject, hc]⟩
        · exact ⟨[], "namespacing: application name cannot be blank",
            by simp [NamespaceOpenShiftObject, hc, h]⟩
  · intro name h
    by_cases hc : componentName = []
    · simp [NamespaceOpenShiftObject, hc] at h
    · by_cases ha : applicationName = []
      · simp [NamespaceOpenShiftObject, hc, ha] at h
      · rw [hrun hc ha] at h
        simp only [Option.some.injEq, Prod.mk.injEq, and_true] at h
        have hlen : name.length ≤ 54 := by
          rw [← h, List.length_take]
          exact Nat.min_le_left _ _
        rw [List.length_append, hsuffix]
        omega
  · by_cases hc : componentName = []
    · simp [NamespaceOpenShiftObject, hc]
    · by_cases ha : applicationName = []
      · simp [NamespaceOpenShiftObject, hc, ha]
      · rw [hrun hc ha]; simp

/-- C26, at the failing input: with `retries = 1`, the existing name `app-aaaa` and the
random suffixes `aaaa`, `bbbb`, the first candidate `app-aaaa` exists, the candidate of the
one permitted retry, `app-aaaa-bbbb`, does not, and `GetRandomName` returns the error all the
same. With `retries = 2` the same candidate is returned. -/
theorem C26_last_retry_candidate_discarded :
    GetRandomName asciiToLower sampleRand "App" (-1) ["app-aaaa"] 1 =
      some ("", some "failed to generate a unique name even after 1 retrials") ∧
    "app-aaaa-bbbb" ∉ ["app-aaaa"] ∧
    GetRandomName asciiToLower sampleRand "App" (-1) ["app-aaaa"] 2 =
      some ("app-aaaa-bbbb", none) := by
  decide

/-- C27, at the failing input: on a parameter that does not split on `=` into two parts
(`oops`, or `a=b=c`) `ConvertKeyValueStringToMap` does not return: `glog.Fatalf` ends the
process. -/
theorem C27_malformed_parameter_is_fatal :
    (ConvertKeyValueStringToMap ["a=b", "oops"]).isNone = true ∧
    (ConvertKeyValueStringToMap ["a=b=c"]).isNone = true ∧
    (ConvertKeyValueStringToMap ["a=b", "c=d"]).isNone = false := by
  decide

/-- C28, at the failing input: with an empty image namespace, the stream `nodejs` present
in the current namespace without the tag `latest`, and a failing lookup in the `openshift`
namespace, `GetImageStream` panics on `err.Error()` with a nil `err`. -/
theorem C28_nil_error_dereferenced :
    (sampleImageClient.imageStreamGet "myproject" "nodejs").toOption.map
        (fun is => isTagInImageStream is "latest") = some false ∧
    (sampleImageClient.imageStreamGet "openshift" "nodejs").toOption = none ∧
    GetImageStream sampleImageClient "" "nodejs" "latest" =
      GoOutcome.panicked "invalid memory address or nil pointer dereference" := by
  refine ⟨by decide, by decide, rfl⟩

/-- C30, at the failing input: `GetDNS1123Name` returns `foo_bar` for `foo_bar` and `Foo`
for `Foo`: an underscore and an upper-case letter remain in the result. -/
theorem C30_underscore_and_uppercase_kept :
    GetDNS1123Name "foo_bar" = "foo_bar" ∧ '_' ∈ (GetDNS1123Name "foo_bar").data ∧
    GetDNS1123Name "Foo" = "Foo" := by
  decide

/-! ## Claims on the split of the scripts URL -/

/-- A string that has a given start is that start followed by what `strings.TrimPrefix`
leaves. -/
theorem append_stringsTrimPrefix (s pre : String) (h : stringsHasPrefix s pre = true) :
    pre ++ stringsTrimPrefix s pre = s := by
  unfold stringsTrimPrefix
  rw [if_pos h]
  unfold stringsHasPrefix at h
  obtain ⟨t, ht⟩ := List.isPrefixOf_iff_prefix.1 h
  apply String.ext
  rw [String.data_append]
  show pre.data ++ List.drop pre.data.length s.data = s.data
  rw [← ht, List.drop_left]

/-- C29 as stated fails for the protocol `http(s)://`: for the scripts URL
`http(s)://example.com/s2i` the call succeeds with protocol `http(s)://` and path
`http(s)://example.com/s2i`, and protocol followed by path is not the label value. -/
theorem C29_http_path_keeps_protocol :
    labelValue sampleLabelsHTTP S2IScriptsURLLabel = "http(s)://example.com/s2i" ∧
    (GetS2IMetaInfoFromBuilderImg (.ok ⟨⟨some sampleLabelsHTTP, ""⟩⟩)).2 = none ∧
    (GetS2IMetaInfoFromBuilderImg (.ok ⟨⟨some sampleLabelsHTTP, ""⟩⟩)).1.ScriptsPathProtocol =
      "http(s)://" ∧
    (GetS2IMetaInfoFromBuilderImg (.ok ⟨⟨some sampleLabelsHTTP, ""⟩⟩)).1.ScriptsPathProtocol ++
      (GetS2IMetaInfoFromBuilderImg (.ok ⟨⟨some sampleLabelsHTTP, ""⟩⟩)).1.ScriptsPath ≠
        "http(s)://example.com/s2i" := by
  decide

/-- C29, amended: when `GetS2IMetaInfoFromBuilderImg` succeeds with a non-empty protocol,
the metadata has a label map, and either the protocol is `image://` or `file://` and the
protocol followed by the path is the value of the label `io.openshift.s2i.scripts-url`, or
the protocol is `http(s)://` and the path alone is that value. -/
theorem C29_scripts_url_split (dimdr : DockerImageMetaDataRaw)
    (hok : (GetS2IMetaInfoFromBuilderImg (.ok dimdr)).2 = none)
    (hprotocol : (GetS2IMetaInfoFromBuilderImg (.ok dimdr)).1.ScriptsPathProtocol ≠ "") :
    ∃ labels, dimdr.ContainerConfig.Labels = some labels ∧
      (((GetS2IMetaInfoFromBuilderImg (.ok dimdr)).1.ScriptsPathProtocol = "image://" ∨
          (GetS2IMetaInfoFromBuilderImg (.ok dimdr)).1.ScriptsPathProtocol = "file://") ∧
        (GetS2IMetaInfoFromBuilderImg (.ok dimdr)).1.ScriptsPathProtocol ++
          (GetS2IMetaInfoFromBuilderImg (.ok dimdr)).1.ScriptsPath =
            labelValue labels S2IScriptsURLLabel ∨
       (GetS2IMetaInfoFromBuilderImg (.ok dimdr)).1.ScriptsPathProtocol = "http(s)://" ∧
        (GetS2IMetaInfoFromBuilderImg (.ok dimdr)).1.ScriptsPath =
          labelValue labels S2IScriptsURLLabel) := by
  cases hl : dimdr.ContainerConfig.Labels with
  | none =>
    exfalso
    apply hprotocol
    simp [GetS2IMetaInfoFromBuilderImg, hl]
  | some labels =>
    refine ⟨labels, rfl, ?_⟩
    by_cases h1 : stringsHasPrefix (labelValue labels S2IScriptsURLLabel) "image://" = true
    · left
      have := append_stringsTrimPrefix _ _ h1
      simp [GetS2IMetaInfoFromBuilderImg, hl, h1, this]
    · by_cases h2 : stringsHasPrefix (labelValue labels S2IScriptsURLLabel) "file://" = true
      · left
        have := append_stringsTrimPrefix _ _ h2
        simp [GetS2IMetaInfoFromBuilderImg, hl, h1, h2, this]
      · by_cases h3 :
            stringsHasPrefix (labelValue labels S2IScriptsURLLabel) "http(s)://" = true
        · right
          simp [GetS2IMetaInfoFromBuilderImg, hl, h1, h2, h3]
        · exfalso
          simp [GetS2IMetaInfoFromBuilderImg, hl, h1, h2, h3] at hok

/-- Witness of C29 amended: the scripts URL `image:///usr/libexec/s2i`. -/
theorem C29_scripts_url_split_witness :
    (GetS2IMetaInfoFromBuilderImg (.ok ⟨⟨some sampleLabels, "/opt/app-root/src"⟩⟩)).2 = none ∧
    (GetS2IMetaInfoFromBuilderImg
      (.ok ⟨⟨some sampleLabels, "/opt/app-root/src"⟩⟩)).1.ScriptsPathProtocol ≠ "" ∧
    ∃ labels, (⟨⟨some sampleLabels, "/opt/app-root/src"⟩⟩ :
        DockerImageMetaDataRaw).ContainerConfig.Labels = some labels ∧
      (((GetS2IMetaInfoFromBuilderImg
            (.ok ⟨⟨some sampleLabels, "/opt/app-root/src"⟩⟩)).1.ScriptsPathProtocol =
              "image://" ∨
          (GetS2IMetaInfoFromBuilderImg
            (.ok ⟨⟨some sampleLabels, "/opt/app-root/src"⟩⟩)).1.ScriptsPathProtocol =
              "file://") ∧
        (GetS2IMetaInfoFromBuilderImg
            (.ok ⟨⟨some sampleLabels, "/opt/app-root/src"⟩⟩)).1.ScriptsPathProtocol ++
          (GetS2IMetaInfoFromBuilderImg
            (.ok ⟨⟨some sampleLabels, "/opt/app-root/src"⟩⟩)).1.ScriptsPath =
            labelValue labels S2IScriptsURLLabel ∨
       (GetS2IMetaInfoFromBuilderImg
          (.ok ⟨⟨some sampleLabels, "/opt/app-root/src"⟩⟩)).1.ScriptsPathProtocol =
            "http(s)://" ∧
        (GetS2IMetaInfoFromBuilderImg
          (.ok ⟨⟨some sampleLabels, "/opt/app-root/src"⟩⟩)).1.ScriptsPath =
          labelValue labels S2IScriptsURLLabel) :=
  ⟨by decide, by decide,
    C29_scripts_url_split ⟨⟨some sampleLabels, "/opt/app-root/src"⟩⟩ (by decide) (by decide)⟩

end Odo
